import Mathlib

/-!
# E-learning platform backend: access control, sessions, enrollment

A shallow embedding of the Express/Prisma backend under `backend/`:

* `backend/middlewares/users.middleware.js` : `toSafeUser`, `auth`, `requires`
* `backend/routes/courses.route.js`, `videos.route.js`, `users.routes.js`,
  `admin.routes.js` : the guarded route handlers
* `backend/index.js` : `GET /regenerateToken`
* `backend/prisma/seed.cjs` : the certificate step of the seed script

Conventions of the embedding.

* A JSON value that may be `undefined`/`null` is an `Option`; the JavaScript
  truthiness test on a string value (`undefined`, `null` and `""` are falsy) is
  `truthy`.
* Identifiers are strings (the handlers pass `String(req.params.id)` to the
  store).
* A middleware either answers (`Except.error resp`) or calls `next()` with the
  request it has decorated (`Except.ok req`).
* A handler maps the store before the request to the response and the store
  after it; a `catch` block that answers 500 leaves the store as it was.
* `express.json()` gives every request a body object (Express 4, which the
  route `app.options("*", ...)` of `index.js` presupposes), so the assignments
  `req.body.userId = ...` in `auth` do not throw.
* The Prisma schema is not part of the sources. The client calls are modelled
  on lists of rows: `findUnique`/`findFirst` return the first matching row,
  `update` and `delete` throw when no row has the id, a `where` filter whose
  value is `undefined` is dropped, and an `undefined` value for a required
  field or for a part of a compound key is rejected (the call throws).
  Foreign-key checks are not modelled.
* `String.prototype.toUpperCase` is modelled on ASCII letters (`Char.toUpper`).
* A query parameter is a text. `Number(text)` is modelled in full (rounding to
  binary64, its exponent range included); `parseInt(text, 10)` and the
  arithmetic on pages and limits are exact on integers, as in JavaScript below
  `2 ^ 53`. Prices are integers.
* Where the order of rows that compare equal is left to the database, the rows
  keep the order of the table (a stable sort).
-/

namespace ELearn

/-! ## JavaScript helpers -/

/-- JavaScript truthiness of a value that is `undefined`, `null` or a string. -/
def truthy : Option String → Bool
  | some s => s != ""
  | none => false

/-- The expression `a || b` on values that are `undefined`, `null` or a string. -/
def jsOr (a b : Option String) : Option String :=
  if truthy a then a else b

/-- The expression `String(v || "")`. -/
def strOrEmpty (v : Option String) : String :=
  (jsOr v (some "")).getD ""

/-- ASCII model of `String.prototype.toUpperCase`. -/
def toUpperCase (s : String) : String :=
  ⟨s.data.map Char.toUpper⟩

/-! ## JavaScript numbers (binary64) -/

/-- Number of binary digits of `n`, by halving; `fuel` bounds the steps. -/
def bitLengthAux : Nat → Nat → Nat
  | 0, _ => 0
  | fuel + 1, n => if n = 0 then 0 else bitLengthAux fuel (n / 2) + 1

/-- Number of binary digits of `n` (0 for 0). -/
def bitLength (n : Nat) : Nat :=
  bitLengthAux n n

/-- The quotient `a / b` rounded to the nearest integer, ties to the even one. -/
def roundDiv (a b : Nat) : Nat :=
  let q := a / b
  let r := a % b
  if 2 * r < b then q
  else if b < 2 * r then q + 1
  else if q % 2 = 0 then q else q + 1

/-- A non-negative binary64 value `m * 2 ^ e` with `m ≤ 2 ^ 53`. The sign and
the exponent range (overflow, subnormal numbers) are not modelled: the values
computed here are quotients and products of counts. -/
structure Double where
  m : Nat
  e : Int
deriving DecidableEq, Repr

/-- The rational number a `Double` stands for. -/
def Double.toRat (x : Double) : ℚ :=
  (x.m : ℚ) * (2 : ℚ) ^ x.e

/-- The binary64 nearest to `(a / b) * 2 ^ e0` (round to nearest, ties to
even), for `b > 0`: the quotient is scaled by `2 ^ k` into `[2 ^ 52, 2 ^ 54)`
and rounded to an integer of 53 bits. -/
def Double.ofRatio (a b : Nat) (e0 : Int) : Double :=
  if a = 0 then ⟨0, 0⟩
  else
    let k : Int := 53 + (bitLength b : Int) - (bitLength a : Int)
    let num := if 0 ≤ k then a * 2 ^ k.toNat else a
    let den := if 0 ≤ k then b else b * 2 ^ (-k).toNat
    if 2 ^ 53 * den ≤ num then ⟨roundDiv num (2 * den), e0 - k + 1⟩
    else ⟨roundDiv num den, e0 - k⟩

/-- The JavaScript quotient `a / b` of two counts. -/
def Double.div (a b : Nat) : Double :=
  Double.ofRatio a b 0

/-- The JavaScript product `x * n` of a number and a count. -/
def Double.mulNat (x : Double) (n : Nat) : Double :=
  Double.ofRatio (x.m * n) 1 x.e

/-- The integer `n` for which `n / 10 - x` is closest to zero, the larger one
of two (`Number.prototype.toFixed` with one fraction digit): `⌊10 x + 1/2⌋`. -/
def Double.tenths (x : Double) : Nat :=
  if 0 ≤ x.e then 10 * x.m * 2 ^ x.e.toNat
  else (20 * x.m + 2 ^ (-x.e).toNat) / 2 ^ ((-x.e).toNat + 1)

/-- The decimal rendering of `n / 10` with one fraction digit. -/
def renderTenths (n : Nat) : String :=
  toString (n / 10) ++ "." ++ toString (n % 10)

/-- `x.toFixed(1)` for a non-negative number below `1e21`. -/
def toFixed1 (x : Double) : String :=
  renderTenths x.tenths

/-! ## JSON web tokens (`jsonwebtoken`) -/

/-- The claims of a token payload that the backend reads or writes. A claim that
is `undefined` when the payload is signed is not serialised, hence absent. -/
structure Claims where
  id : Option String := none
  userId : Option String := none
  email : Option String := none
  role : Option String := none
  name : Option String := none
  user : Option String := none
deriving DecidableEq, Repr

/-- The text a client sends after `Bearer `: either a token signed with some
secret and expiring at `exp` (seconds), or any other text (the empty text
included), which never verifies. -/
inductive Token where
  | text (s : String)
  | jwt (payload : Claims) (secret : String) (exp : Nat)
deriving DecidableEq, Repr

/-- `process.env.JWT_SECRET || "arivu"`. -/
def ACCESS_SECRET : String := "arivu"

/-- `process.env.JWT_REFRESH || "ARIVU"`. -/
def REFRESH_SECRET : String := "ARIVU"

/-- `jwt.sign(payload, secret, { expiresIn })` at time `now` (milliseconds). -/
def jwtSign (payload : Claims) (secret : String) (ttlSeconds now : Nat) : Token :=
  .jwt payload secret (now / 1000 + ttlSeconds)

/-- `jwt.verify(token, secret)` at time `now` (milliseconds): the payload, or
`none` when it throws (malformed text, other secret, expired). -/
def jwtVerify (token : Token) (secret : String) (now : Nat) : Option Claims :=
  match token with
  | .text _ => none
  | .jwt payload s exp => if s = secret ∧ now / 1000 < exp then some payload else none

/-- The lifetime in seconds (`exp - iat`) of a token signed at time `issuedAt`
(milliseconds). -/
def Token.lifetime (t : Token) (issuedAt : Nat) : Nat :=
  match t with
  | .jwt _ _ exp => exp - issuedAt / 1000
  | .text _ => 0

/-! ## Requests and responses -/

/-- Value of `req.headers.authorization`. `other v` is a value that does not
start with `"Bearer "`; `bearer t` is `"Bearer "` followed by `t`. -/
inductive AuthHeader where
  | absent
  | other (value : String)
  | bearer (token : Token)
deriving DecidableEq, Repr

/-- The object `toSafeUser` builds. -/
structure SafeUser where
  id : Option String
  name : Option String
  role : String
deriving DecidableEq, Repr

/-- Reading property `key` of the object `toSafeUser` built: it has the
properties `id`, `name` and `role`, any other read is `undefined`. -/
def SafeUser.prop (u : SafeUser) (key : String) : Option String :=
  if key = "id" then u.id
  else if key = "name" then u.name
  else if key = "role" then some u.role
  else none

/-- The fields of `req.body` that some handler reads (JSON strings and
numbers; an absent field is `undefined`). -/
structure Body where
  title : Option String := none
  description : Option String := none
  category : Option String := none
  price : Option Int := none
  teacherId : Option String := none
  link : Option String := none
  views : Option Int := none
  img : Option String := none
  courseId : Option String := none
  name : Option String := none
  email : Option String := none
  password : Option String := none
  age : Option Int := none
  place : Option String := none
  role : Option String := none
  userId : Option String := none
  username : Option String := none
deriving DecidableEq, Repr

/-- The fields of `req.query` that some handler reads; a field of type
`String` is the text of the parameter, `""` when it is absent (the default of
the destructuring in the handlers). -/
structure Query where
  search : String := ""
  role : String := ""
  /-- `Number(req.query.windowDays)` when it is finite (every finite binary64
  is a rational); `none` when it is `NaN` or infinite, as for an absent
  parameter. -/
  windowDays : Option ℚ := none
  order : String := ""
  category : String := ""
  minPrice : String := ""
  maxPrice : String := ""
  courseId : String := ""
  /-- `req.query.page`, `undefined` when the parameter is absent. -/
  page : Option String := none
  /-- `req.query.limit`, `undefined` when the parameter is absent. -/
  limit : Option String := none
deriving DecidableEq, Repr

/-- An incoming request; `user` is `req.user`, unset until `auth` sets it. -/
structure Request where
  authorization : AuthHeader := .absent
  paramId : String := ""
  body : Body := {}
  query : Query := {}
  user : Option SafeUser := none
deriving DecidableEq, Repr

/-- What lies outside the request and the database: the module `../blacklist`,
the clock (milliseconds since the epoch), the id the database gives the next
created row, and the offset of the server's local time from UTC in minutes
(a fixed offset: daylight saving changes are not modelled). -/
structure Env where
  blacklist : List Token := []
  now : Nat := 0
  newId : String := "new"
  tzOffsetMinutes : Int := 0
deriving Repr

/-! ## The database (Prisma models) -/

/-- Row of model `User`. -/
structure User where
  id : String
  email : String := ""
  password : String := ""
  name : String := ""
  role : String := "USER"
  age : Option Int := none
  place : Option String := none
  createdAt : Nat := 0
deriving DecidableEq, Repr

/-- Row of model `Course`. -/
structure Course where
  id : String
  title : String := ""
  description : String := ""
  category : String := ""
  price : Int := 0
  teacherId : String := ""
  createdAt : Nat := 0
  updatedAt : Nat := 0
deriving DecidableEq, Repr

/-- Row of model `Video`. -/
structure Video where
  id : String
  title : String := ""
  link : String := ""
  img : String := ""
  description : String := ""
  views : Int := 0
  courseId : String := ""
  createdAt : Nat := 0
  updatedAt : Nat := 0
deriving DecidableEq, Repr

/-- Row of model `Enrollment`. -/
structure Enrollment where
  id : String
  userId : String
  courseId : String
  progress : Nat := 0
  status : String := "ACTIVE"
  createdAt : Nat := 0
deriving DecidableEq, Repr

/-- Row of model `VideoProgress`, keyed by `(userId, videoId)`. -/
structure VideoProgress where
  userId : String
  videoId : String
  watched : Bool := false
  updatedAt : Nat := 0
deriving DecidableEq, Repr

/-- Row of model `MockTest`. -/
structure MockTest where
  id : String
  title : String := ""
  courseId : String := ""
deriving DecidableEq, Repr

/-- Row of model `Certificate`. -/
structure Certificate where
  id : String
  userId : String := ""
  courseId : String := ""
  grade : String := ""
  fileUrl : String := ""
  issuedAt : Nat := 0
deriving DecidableEq, Repr

/-- The tables the handlers read and write. -/
structure Store where
  users : List User := []
  courses : List Course := []
  videos : List Video := []
  enrollments : List Enrollment := []
  videoProgress : List VideoProgress := []
  mockTests : List MockTest := []
  certificates : List Certificate := []
deriving DecidableEq, Repr

/-- The user fields the routes select for a response (never the password). -/
structure UserView where
  id : String
  name : String
  email : String
  role : String
  age : Option Int := none
  place : Option String := none
deriving DecidableEq, Repr

/-- Projection `select: { id, name, email, role, age, place }`. -/
def User.view (u : User) : UserView :=
  { id := u.id, name := u.name, email := u.email, role := u.role, age := u.age, place := u.place }

/-- One entry of `byCategory` in the admin statistics. -/
structure CategoryCount where
  category : String
  count : Nat
deriving DecidableEq, Repr

/-- One entry of `topCoursesByVideos` in the admin statistics. -/
structure TopCourse where
  id : String
  title : String
  videos : Nat
  enrollments : Nat
deriving DecidableEq, Repr

/-- One point of a daily series of the admin statistics. -/
structure SeriesPoint where
  date : String
  value : Nat
deriving DecidableEq, Repr

/-- The JSON document `GET /admin/stats` answers with. -/
structure Stats where
  totalUsers : Nat := 0
  totalCourses : Nat := 0
  totalVideos : Nat := 0
  totalEnrollments : Nat := 0
  byCategory : List CategoryCount := []
  topCoursesByVideos : List TopCourse := []
  usersSeries : List SeriesPoint := []
  coursesSeries : List SeriesPoint := []
  videosSeries : List SeriesPoint := []
  enrollmentsSeries : List SeriesPoint := []
deriving DecidableEq, Repr

/-- One entry of the `progress` list of `GET /courses/:id/progress`. -/
structure ProgressEntry where
  id : String
  title : String
  watched : Bool
deriving DecidableEq, Repr

/-- The object `pagination` of the list routes. -/
structure Pagination where
  total : Nat
  page : Int
  limit : Int
  pages : Nat
deriving DecidableEq, Repr

/-- One entry of `data` of `GET /courses`: the course with `include: { teacher:
{ select: { id, name, email, role } }, _count: { select: { videos,
enrollments } } }`. -/
structure CourseItem where
  course : Course
  teacher : Option UserView
  videos : Nat
  enrollments : Nat
deriving DecidableEq, Repr

/-- The JSON documents the modelled routes answer with. -/
inductive ResBody where
  | msg (m : String)
  | course (c : Course)
  | video (v : Video)
  | user (u : UserView)
  | users (us : List UserView)
  | enrolled (m : String) (e : Enrollment)
  | watched (m : String) (p : VideoProgress)
  | videoProgress (videoId : String) (watched : Bool) (updatedAt : Option Nat)
  | token (m : String) (t : Token)
  | login (m : String) (u : UserView) (token refreshToken : Token)
  | stats (s : Stats)
  | courseProgress (courseId completionRate : String) (progress : List ProgressEntry)
  | registered (m : String) (u : UserView)
  | coursePage (data : List CourseItem) (pagination : Pagination)
  | videoPage (data : List Video) (pagination : Pagination)
deriving DecidableEq, Repr

/-- A response: HTTP status and JSON body (`res.json` without `res.status`
answers 200). -/
structure Response where
  status : Nat
  body : ResBody
deriving DecidableEq, Repr

/-- A middleware answers or passes the decorated request on. -/
abbrev Middleware := Env → Request → Except Response Request

/-- A route handler: the response and the store after the request. -/
abbrev Handler := Env → Request → Store → Response × Store

/-! ## The middleware -/

/-- `toSafeUser(decoded)`. -/
def toSafeUser (decoded : Claims) : SafeUser :=
  { id := jsOr (jsOr decoded.userId decoded.id) none
    name := jsOr (jsOr decoded.user decoded.name) none
    role := toUpperCase (strOrEmpty decoded.role) }

/-- `hdr.startsWith("Bearer ") ? hdr.slice(7) : null`. -/
def bearerToken : AuthHeader → Option Token
  | .bearer t => some t
  | _ => none

/-- The test `!token` on a sliced header text: the empty string. -/
def tokenEmpty : Token → Bool
  | .text s => s == ""
  | .jwt _ _ _ => false

/-- The assignments `req.user = user; req.body.userId = user.id;
req.body.username = user.name; req.body.role = user.role`. -/
def decorate (req : Request) (user : SafeUser) : Request :=
  { req with
    user := some user
    body := { req.body with
              userId := user.id
              username := user.name
              role := some user.role } }

/-- Middleware `auth`. Every exit of the `try` block and the `catch` answer
401, except the last, which calls `next()` with `req.user` set and
`req.body.userId`, `req.body.username`, `req.body.role` overwritten. -/
def auth : Middleware := fun env req =>
  match bearerToken req.authorization with
  | none => .error ⟨401, .msg "Please login"⟩
  | some token =>
    if tokenEmpty token then .error ⟨401, .msg "Please login"⟩
    else if token ∈ env.blacklist then .error ⟨401, .msg "Please login again"⟩
    else
      match jwtVerify token ACCESS_SECRET env.now with
      | none => .error ⟨401, .msg "Invalid or expired token"⟩
      | some decoded =>
        let user := toSafeUser decoded
        if !truthy user.id then .error ⟨401, .msg "Not authorized"⟩
        else
          .ok (decorate req user)

/-- Middleware `requires(...roles)`. -/
def requires (roles : List String) : Middleware := fun _env req =>
  match req.user with
  | none => .error ⟨401, .msg "Please login"⟩
  | some user =>
    let r := toUpperCase (strOrEmpty (some user.role))
    if roles.length != 0 && !roles.contains r then .error ⟨403, .msg "Forbidden"⟩
    else .ok req

/-- Express runs the middlewares of a route in order; the first one that
answers ends the request, otherwise the handler runs on the decorated request. -/
def route (mws : List Middleware) (h : Handler) : Handler := fun env req db =>
  match mws with
  | [] => h env req db
  | m :: ms =>
    match m env req with
    | .error resp => (resp, db)
    | .ok req' => route ms h env req' db

/-- The chain `auth, requires(...roles)` in front of a handler. -/
def guarded (roles : List String) (h : Handler) : Handler :=
  route [auth, requires roles] h

/-- The user `auth` resolves the request to, when it lets the request pass. -/
def caller (env : Env) (req : Request) : Option SafeUser :=
  match auth env req with
  | .ok req' => req'.user
  | .error _ => none

/-- The chain `auth, requires(...roles)` up to the point where the handler
would be called. -/
def authRequires (roles : List String) : Middleware := fun env req =>
  match auth env req with
  | .error resp => .error resp
  | .ok req' => requires roles env req'

/-! ## `routes/courses.route.js`: update and delete -/

/-- `String(req.user?.role || "").toUpperCase()`. -/
def requesterRole (req : Request) : String :=
  toUpperCase (strOrEmpty (req.user.map (·.role)))

/-- `String(req.user?.id || req.body.userId || "")`. -/
def requesterId (req : Request) : String :=
  (jsOr (jsOr (req.user.bind (·.id)) req.body.userId) (some "")).getD ""

/-- `prisma.course.findUnique({ where: { id } })`. -/
def courseFindUnique (db : Store) (id : String) : Option Course :=
  db.courses.find? (fun c => c.id == id)

/-- `prisma.video.findUnique({ where: { id } })`. -/
def videoFindUnique (db : Store) (id : String) : Option Video :=
  db.videos.find? (fun v => v.id == id)

/-- Handler of `PUT /courses/:id`. -/
def putCourseHandler : Handler := fun env req db =>
  let id := req.paramId
  match courseFindUnique db id with
  | none => (⟨404, .msg "course not found"⟩, db)
  | some existing =>
    let role := requesterRole req
    let requester := requesterId req
    if role == "TEACHER" && existing.teacherId != requester then
      (⟨403, .msg "forbidden: not your course"⟩, db)
    else
      let updated : Course :=
        { existing with
          title := req.body.title.getD existing.title
          description := req.body.description.getD existing.description
          category := req.body.category.getD existing.category
          price := req.body.price.getD existing.price
          updatedAt := env.now }
      (⟨200, .course updated⟩,
        { db with courses := db.courses.map (fun c => if c.id == id then updated else c) })

/-- Handler of `DELETE /courses/:id`: the five deletions of the transaction. -/
def deleteCourseHandler : Handler := fun _env req db =>
  let id := req.paramId
  match courseFindUnique db id with
  | none => (⟨404, .msg "course not found"⟩, db)
  | some existing =>
    let role := requesterRole req
    let requester := requesterId req
    if role == "TEACHER" && existing.teacherId != requester then
      (⟨403, .msg "forbidden: not your course"⟩, db)
    else
      (⟨200, .msg "deleted"⟩,
        { db with
          videos := db.videos.filter (fun v => v.courseId != id)
          enrollments := db.enrollments.filter (fun e => e.courseId != id)
          mockTests := db.mockTests.filter (fun t => t.courseId != id)
          certificates := db.certificates.filter (fun c => c.courseId != id)
          courses := db.courses.filter (fun c => c.id != id) })

/-- Route `PUT /courses/:id`: `auth, requires("TEACHER", "ADMIN")`, handler. -/
def putCourse : Handler := guarded ["TEACHER", "ADMIN"] putCourseHandler

/-- Route `DELETE /courses/:id`: `auth, requires("TEACHER", "ADMIN")`, handler. -/
def deleteCourse : Handler := guarded ["TEACHER", "ADMIN"] deleteCourseHandler

/-! ## `routes/videos.route.js`: create, update and delete -/

/-- Handler of `POST /videos`. -/
def postVideoHandler : Handler := fun env req db =>
  if !truthy req.body.title || !truthy req.body.link || !truthy req.body.courseId then
    (⟨400, .msg "title, link, courseId required"⟩, db)
  else
    let role := requesterRole req
    let requester := requesterId req
    match courseFindUnique db (req.body.courseId.getD "") with
    | none => (⟨404, .msg "course not found"⟩, db)
    | some course =>
      if role == "TEACHER" && course.teacherId != requester then
        (⟨403, .msg "forbidden: not your course"⟩, db)
      else
        let video : Video :=
          { id := env.newId
            title := req.body.title.getD ""
            link := req.body.link.getD ""
            views := req.body.views.getD 0
            img := if truthy req.body.img then req.body.img.getD "" else ""
            description := req.body.description.getD ""
            courseId := course.id
            createdAt := env.now
            updatedAt := env.now }
        (⟨201, .video video⟩, { db with videos := db.videos ++ [video] })

/-- Handler of `PUT /videos/:id`. -/
def putVideoHandler : Handler := fun env req db =>
  let id := req.paramId
  match videoFindUnique db id with
  | none => (⟨404, .msg "video not found"⟩, db)
  | some video =>
    match courseFindUnique db video.courseId with
    | none => (⟨404, .msg "course not found"⟩, db)
    | some course =>
      let role := requesterRole req
      let requester := requesterId req
      if role == "TEACHER" && course.teacherId != requester then
        (⟨403, .msg "forbidden: not your course"⟩, db)
      else
        let updated : Video :=
          { video with
            title := req.body.title.getD video.title
            link := req.body.link.getD video.link
            views := req.body.views.getD video.views
            img := match req.body.img with
              | none => video.img
              | some i => if truthy (some i) then i else ""
            description := req.body.description.getD video.description
            updatedAt := env.now }
        (⟨200, .video updated⟩,
          { db with videos := db.videos.map (fun v => if v.id == video.id then updated else v) })

/-- Handler of `DELETE /videos/:id`. -/
def deleteVideoHandler : Handler := fun _env req db =>
  let id := req.paramId
  match videoFindUnique db id with
  | none => (⟨404, .msg "video not found"⟩, db)
  | some video =>
    match courseFindUnique db video.courseId with
    | none => (⟨404, .msg "course not found"⟩, db)
    | some course =>
      let role := requesterRole req
      let requester := requesterId req
      if role == "TEACHER" && course.teacherId != requester then
        (⟨403, .msg "forbidden: not your course"⟩, db)
      else
        (⟨200, .msg "deleted"⟩,
          { db with videos := db.videos.filter (fun v => v.id != video.id) })

/-- Route `POST /videos`: `auth, requires("TEACHER", "ADMIN")`, handler. -/
def postVideo : Handler := guarded ["TEACHER", "ADMIN"] postVideoHandler

/-- Route `PUT /videos/:id`: `auth, requires("TEACHER", "ADMIN")`, handler. -/
def putVideo : Handler := guarded ["TEACHER", "ADMIN"] putVideoHandler

/-- Route `DELETE /videos/:id`: `auth, requires("TEACHER", "ADMIN")`, handler. -/
def deleteVideo : Handler := guarded ["TEACHER", "ADMIN"] deleteVideoHandler

/-! ## `routes/users.routes.js` -/

/-- ASCII model of `String.prototype.toLowerCase`. -/
def toLowerCase (s : String) : String :=
  ⟨s.data.map Char.toLower⟩

/-- The characters `String.prototype.trim` strips (WhiteSpace and
LineTerminator code points). -/
def isJsWhiteSpace (c : Char) : Bool :=
  [9, 10, 11, 12, 13, 32, 160, 5760, 8232, 8233, 8239, 8287, 12288, 65279].contains c.toNat
    || (8192 ≤ c.toNat && c.toNat ≤ 8202)

/-- `String.prototype.trim`. -/
def jsTrim (s : String) : String :=
  ⟨((s.data.dropWhile isJsWhiteSpace).reverse.dropWhile isJsWhiteSpace).reverse⟩

/-- Helper `up`: `v ? String(v).trim().toUpperCase() : ""`. -/
def up (v : Option String) : String :=
  if truthy v then toUpperCase (jsTrim (v.getD "")) else ""

/-- Helper `okEmail`: `typeof e === "string" && e.includes("@")`. -/
def okEmail (e : Option String) : Bool :=
  match e with
  | some s => s.data.contains '@'
  | none => false

/-- `ALLOWED_ROLES`. -/
def ALLOWED_ROLES : List String := ["USER", "TEACHER", "ADMIN"]

/-- An error thrown with a `status` property (`Object.assign(new Error(..),
{ status })`). -/
structure HttpError where
  status : Nat
  message : String
deriving DecidableEq, Repr

/-- `prisma.user.findUnique({ where: { id } })`. -/
def userFindUniqueById (db : Store) (id : String) : Option User :=
  db.users.find? (fun u => u.id == id)

/-- `prisma.user.findUnique({ where: { email } })`. -/
def userFindUniqueByEmail (db : Store) (email : String) : Option User :=
  db.users.find? (fun u => u.email == email)

/-- `getCurrentUserOrThrow(req)`: `tokenUser = req.user || {}`, then the lookup
by `tokenUser.id || tokenUser.userId || tokenUser.sub`, else by
`tokenUser.email`. -/
def getCurrentUserOrThrow (req : Request) (db : Store) : Except HttpError User :=
  let prop := fun key => req.user.bind (fun u => u.prop key)
  let email := (prop "email").map toLowerCase
  let idFromToken := jsOr (jsOr (jsOr (prop "id") (prop "userId")) (prop "sub")) none
  if truthy idFromToken then
    match userFindUniqueById db (idFromToken.getD "") with
    | none => .error ⟨404, "User not found"⟩
    | some user => .ok user
  else if !okEmail email then .error ⟨401, "Unauthorized: missing user email"⟩
  else
    match userFindUniqueByEmail db (email.getD "") with
    | none => .error ⟨404, "User not found"⟩
    | some user => .ok user

/-- The object `nextData` of `PUT /users/:id` applied to the stored row:
`name` and `email` when truthy, `age` and `place` when not null, `role` when
the body names one and the requester's stored role is ADMIN. -/
def applyNextData (b : Body) (requester target : User) : User :=
  { target with
    name := if truthy b.name then b.name.getD target.name else target.name
    email := if truthy b.email then toLowerCase (b.email.getD "") else target.email
    age := match b.age with
      | some a => some a
      | none => target.age
    place := match b.place with
      | some p => some p
      | none => target.place
    role := if truthy b.role && requester.role == "ADMIN" then up b.role else target.role }

/-- The guard against a duplicate email of `PUT /users/:id`: `nextData.email`
is set and belongs to a user other than `id`. -/
def emailInUse (db : Store) (b : Body) (id : String) : Bool :=
  truthy b.email &&
    (match userFindUniqueByEmail db (toLowerCase (b.email.getD "")) with
      | some existing => existing.id != id
      | none => false)

/-- Handler of `PUT /users/:id`. A thrown error is answered with
`err.status || 500`; `prisma.user.update` throws when no row has the id. -/
def putUserHandler : Handler := fun _env req db =>
  let id := req.paramId
  match getCurrentUserOrThrow req db with
  | .error e => (⟨e.status, .msg e.message⟩, db)
  | .ok requester =>
    if requester.role != "ADMIN" && requester.id != id then
      (⟨403, .msg "Forbidden"⟩, db)
    else if truthy req.body.role && requester.role == "ADMIN"
        && !ALLOWED_ROLES.contains (up req.body.role) then
      (⟨400, .msg "Invalid role selected"⟩, db)
    else if emailInUse db req.body id then
      (⟨409, .msg "Email already in use"⟩, db)
    else
      match userFindUniqueById db id with
      | none => (⟨500, .msg "Server error"⟩, db)
      | some target =>
        let updated := applyNextData req.body requester target
        (⟨200, .user updated.view⟩,
          { db with users := db.users.map (fun u => if u.id == id then updated else u) })

/-- Handler of `DELETE /users/:id`; `prisma.user.delete` throws when no row
has the id. -/
def deleteUserHandler : Handler := fun _env req db =>
  let id := req.paramId
  match userFindUniqueById db id with
  | none => (⟨500, .msg "Server error"⟩, db)
  | some _ =>
    (⟨200, .msg "User deleted successfully"⟩,
      { db with users := db.users.filter (fun u => u.id != id) })

/-- Handler of `GET /users`. The query `prisma.user.findMany({ where, orderBy,
select })`, whose case-insensitive `contains` depends on the database
provider, is the parameter `findMany`; when it throws the answer is 500. -/
def listUsersHandler (findMany : Query → Store → Except Unit (List UserView)) : Handler :=
  fun _env req db =>
    match findMany req.query db with
    | .error _ => (⟨500, .msg "Server error"⟩, db)
    | .ok users => (⟨200, .users users⟩, db)

/-- Route `PUT /users/:id`: `auth, requires("ADMIN", "USER")`, handler. -/
def putUser : Handler := guarded ["ADMIN", "USER"] putUserHandler

/-- Route `DELETE /users/:id`: `auth, requires("ADMIN")`, handler. -/
def deleteUser : Handler := guarded ["ADMIN"] deleteUserHandler

/-- Route `GET /users`: `auth, requires("ADMIN")`, handler. -/
def listUsers (findMany : Query → Store → Except Unit (List UserView)) : Handler :=
  guarded ["ADMIN"] (listUsersHandler findMany)

/-- Abstraction of `bcrypt.hash(password, rounds)`: salting is not modelled. -/
def bcryptHash (password : String) : String :=
  "$2b$10$" ++ password

/-- Abstraction of `bcrypt.compare(password, hash)`. -/
def bcryptCompare (password hash : String) : Bool :=
  hash == bcryptHash password

/-- The row `prisma.user.create` of `POST /users/register` stores: the email
in lower case, the hash of the password, the normalised role. -/
def registeredUser (env : Env) (b : Body) (userRole : String) : User :=
  { id := env.newId
    email := toLowerCase (b.email.getD "")
    password := bcryptHash (b.password.getD "")
    name := b.name.getD ""
    role := userRole
    age := b.age
    place := b.place
    createdAt := env.now }

/-- Handler of `POST /users/register` (no middleware in front of it). -/
def registerHandler : Handler := fun env req db =>
  let b := req.body
  if !okEmail b.email || !truthy b.password || !truthy b.name then
    (⟨400, .msg "Name, valid email, and password required"⟩, db)
  else
    let normEmail := toLowerCase (b.email.getD "")
    let userRole := if up b.role != "" then up b.role else "USER"
    if !ALLOWED_ROLES.contains userRole then
      (⟨400, .msg "Invalid role selected"⟩, db)
    else
      match userFindUniqueByEmail db normEmail with
      | some _ => (⟨409, .msg "User already exists"⟩, db)
      | none =>
        let user := registeredUser env b userRole
        (⟨201, .registered "Registration successful"
            { id := user.id, name := user.name, email := user.email, role := user.role }⟩,
          { db with users := db.users ++ [user] })

/-- The `payload` object `POST /users/login` signs into both tokens. -/
def loginPayload (user : User) : Claims :=
  { id := some user.id
    email := some (toLowerCase user.email)
    role := some (up (some user.role))
    name := some user.name }

/-- Handler of `POST /users/login`; access tokens live `1d`, refresh tokens
`7d`. -/
def loginHandler : Handler := fun env req db =>
  if !okEmail req.body.email || !truthy req.body.password then
    (⟨400, .msg "Email and password required"⟩, db)
  else
    match userFindUniqueByEmail db (toLowerCase (req.body.email.getD "")) with
    | none => (⟨401, .msg "Invalid credentials"⟩, db)
    | some user =>
      if !bcryptCompare (req.body.password.getD "") user.password then
        (⟨401, .msg "Invalid credentials"⟩, db)
      else
        let payload := loginPayload user
        let token := jwtSign payload ACCESS_SECRET 86400 env.now
        let refreshToken := jwtSign payload REFRESH_SECRET 604800 env.now
        let safeUser : UserView :=
          { id := user.id, name := user.name, email := user.email, role := up (some user.role) }
        (⟨200, .login "Login successful" safeUser token refreshToken⟩, db)

/-- The properties of an arbitrary `req.user` object that
`getCurrentUserOrThrow` reads (a missing property is `undefined`). -/
structure TokenUser where
  id : Option String := none
  userId : Option String := none
  sub : Option String := none
  email : Option String := none
deriving DecidableEq, Repr

/-- The record `getCurrentUserOrThrow` selects: `id`, `name`, `email`, `role`,
`age`, `place`, `createdAt`, and no other column. -/
structure CurrentUser where
  id : String
  name : String
  email : String
  role : String
  age : Option Int
  place : Option String
  createdAt : Nat
deriving DecidableEq, Repr

/-- Projection `select: { id, name, email, role, age, place, createdAt }`. -/
def User.current (u : User) : CurrentUser :=
  { id := u.id, name := u.name, email := u.email, role := u.role, age := u.age,
    place := u.place, createdAt := u.createdAt }

/-- The properties `getCurrentUserOrThrow` reads on the `req.user` of a request
of this server: the object `toSafeUser` built, or `{}` when `req.user` is unset. -/
def Request.tokenUser (req : Request) : TokenUser :=
  let prop := fun key => req.user.bind (fun u => u.prop key)
  { id := prop "id", userId := prop "userId", sub := prop "sub", email := prop "email" }

/-- `idFromToken`: `tokenUser.id || tokenUser.userId || tokenUser.sub || null`. -/
def TokenUser.idFromToken (tokenUser : TokenUser) : Option String :=
  jsOr (jsOr (jsOr tokenUser.id tokenUser.userId) tokenUser.sub) none

/-- `getCurrentUserOrThrow(req)` as a function of the object `tokenUser =
req.user || {}`, for any such object, with the record it selects. -/
def getCurrentUserOrThrowOf (tokenUser : TokenUser) (db : Store) :
    Except HttpError CurrentUser :=
  let email := if truthy tokenUser.email then tokenUser.email.map toLowerCase else tokenUser.email
  let idFromToken := tokenUser.idFromToken
  if truthy idFromToken then
    match userFindUniqueById db (idFromToken.getD "") with
    | none => .error ⟨404, "User not found"⟩
    | some user => .ok user.current
  else if !okEmail email then .error ⟨401, "Unauthorized: missing user email"⟩
  else
    match userFindUniqueByEmail db (email.getD "") with
    | none => .error ⟨404, "User not found"⟩
    | some user => .ok user.current

/-! ## `routes/courses.route.js`: create -/

/-- Handler of `POST /courses`. -/
def postCourseHandler : Handler := fun env req db =>
  if !truthy req.body.title then (⟨400, .msg "title required"⟩, db)
  else
    let role := requesterRole req
    let requester := requesterId req
    let ownerId := if role == "TEACHER" then requester else strOrEmpty req.body.teacherId
    if ownerId == "" then (⟨400, .msg "teacherId required"⟩, db)
    else
      match userFindUniqueById db ownerId with
      | none => (⟨404, .msg "teacher not found"⟩, db)
      | some teacher =>
        let tRole := toUpperCase (strOrEmpty (some teacher.role))
        if !(["TEACHER", "ADMIN"].contains tRole) then
          (⟨400, .msg "teacherId must belong to a TEACHER/ADMIN"⟩, db)
        else
          let price := req.body.price.getD 0
          let course : Course :=
            { id := env.newId
              title := req.body.title.getD ""
              description := req.body.description.getD ""
              category := req.body.category.getD ""
              price := if price != 0 then price else 0
              teacherId := teacher.id
              createdAt := env.now
              updatedAt := env.now }
          (⟨201, .course course⟩, { db with courses := db.courses ++ [course] })

/-- Route `POST /courses`: `auth, requires("TEACHER", "ADMIN")`, handler. -/
def postCourse : Handler := guarded ["TEACHER", "ADMIN"] postCourseHandler

/-! ## JavaScript numbers: `Number(text)`, `parseInt(text, 10)`, `Math.ceil` -/

/-- A JavaScript number: `NaN`, an infinity, or a finite binary64 with its
sign. -/
inductive JsNumber where
  | nan
  | infinity (negative : Bool)
  | finite (negative : Bool) (x : Double)
deriving DecidableEq, Repr

/-- The binary64 nearest to `a / b` for `b > 0`, with the exponent range of
the format: below `2 ^ -1022` (that is, when `a * 2 ^ 1022 < b`) the values
are the multiples of `2 ^ -1074`, and a result that reaches `2 ^ 1024` (its
mantissa and exponent add up to more than 1024 binary digits) is infinite
(`none`). -/
def Double.nearest (a b : Nat) : Option Double :=
  if a <<< 1022 < b then some ⟨roundDiv (a <<< 1074) b, -1074⟩
  else
    let x := Double.ofRatio a b 0
    if 1024 < x.e + (bitLength x.m : Int) then none else some x

/-- `Math.ceil` on a non-negative number. -/
def Double.ceil (x : Double) : Nat :=
  if 0 ≤ x.e then x.m * 2 ^ x.e.toNat
  else (x.m + 2 ^ (-x.e).toNat - 1) / 2 ^ (-x.e).toNat

/-- The value of a text of decimal digits. -/
def digitsToNat (ds : List Char) : Nat :=
  ds.foldl (fun n c => 10 * n + (c.toNat - 48)) 0

/-- An optional sign in front of a text: whether it is `-`, and the rest. -/
def splitSign : List Char → Bool × List Char
  | '+' :: rest => (false, rest)
  | '-' :: rest => (true, rest)
  | cs => (false, cs)

/-- The value of a digit of a hexadecimal, octal or binary literal. -/
def radixDigit (c : Char) : Option Nat :=
  if c.isDigit then some (c.toNat - 48)
  else if 97 ≤ c.toNat ∧ c.toNat ≤ 102 then some (c.toNat - 87)
  else if 65 ≤ c.toNat ∧ c.toNat ≤ 70 then some (c.toNat - 55)
  else none

/-- The value of a non-empty text of digits of the radix, `none` otherwise. -/
def parseRadix (radix : Nat) (cs : List Char) : Option Nat :=
  if cs = [] then none
  else
    cs.foldl
      (fun acc c =>
        match acc, radixDigit c with
        | some n, some d => if d < radix then some (radix * n + d) else none
        | _, _ => none)
      (some 0)

/-- The exponent of an optional `ExponentPart` that ends the text: 0 for the
empty text, `none` when the text is not an exponent part. -/
def parseExponentPart : List Char → Option Int
  | [] => some 0
  | c :: rest =>
    if c = 'e' ∨ c = 'E' then
      let (negative, ds) := splitSign rest
      if ds ≠ [] ∧ ds.all Char.isDigit then
        some (if negative then -(digitsToNat ds : Int) else (digitsToNat ds : Int))
      else none
    else none

/-- `StrUnsignedDecimalLiteral` other than `Infinity`: the digits of the
mantissa as a number, the number of fraction digits, and the exponent. -/
def parseUnsignedDecimal (cs : List Char) : Option (Nat × Nat × Int) :=
  let (intPart, r1) := cs.span Char.isDigit
  match r1 with
  | '.' :: r2 =>
    let (fracPart, r3) := r2.span Char.isDigit
    if intPart = [] ∧ fracPart = [] then none
    else
      (parseExponentPart r3).map
        (fun e => (digitsToNat (intPart ++ fracPart), fracPart.length, e))
  | _ =>
    if intPart = [] then none
    else (parseExponentPart r1).map (fun e => (digitsToNat intPart, 0, e))

/-- The number of a natural number, rounded to binary64. -/
def JsNumber.ofNat (n : Nat) : JsNumber :=
  match Double.nearest n 1 with
  | some x => .finite false x
  | none => .infinity false

/-- `Number(text)` (`StringToNumber`): white space is trimmed, the empty text
is 0, a text that is no numeric literal is `NaN`. -/
def stringToNumber (s : String) : JsNumber :=
  match (jsTrim s).data with
  | [] => .finite false ⟨0, 0⟩
  | '0' :: 'x' :: ds | '0' :: 'X' :: ds => ((parseRadix 16 ds).map JsNumber.ofNat).getD .nan
  | '0' :: 'o' :: ds | '0' :: 'O' :: ds => ((parseRadix 8 ds).map JsNumber.ofNat).getD .nan
  | '0' :: 'b' :: ds | '0' :: 'B' :: ds => ((parseRadix 2 ds).map JsNumber.ofNat).getD .nan
  | cs =>
    let (negative, body) := splitSign cs
    if body = "Infinity".data then .infinity negative
    else
      match parseUnsignedDecimal body with
      | none => .nan
      | some (mantissa, fraction, exponent) =>
        let k : Int := exponent - fraction
        let num := if 0 ≤ k then mantissa * 10 ^ k.toNat else mantissa
        let den := if 0 ≤ k then 1 else 10 ^ (-k).toNat
        match Double.nearest num den with
        | some x => .finite negative x
        | none => .infinity negative

/-- `Number(v)` for a query parameter: `NaN` when it is absent. -/
def numberOfParam : Option String → JsNumber
  | none => .nan
  | some s => stringToNumber s

/-- Truthiness of a number: `NaN`, `0` and `-0` are falsy. -/
def JsNumber.truthy : JsNumber → Bool
  | .nan => false
  | .infinity _ => true
  | .finite _ x => x.m != 0

/-- The expression `a || b` on numbers. -/
def JsNumber.or (a b : JsNumber) : JsNumber :=
  if a.truthy then a else b

/-- The rational value of a finite number (`Number.isFinite`), `none` for
`NaN` and the infinities. -/
def JsNumber.finiteValue : JsNumber → Option ℚ
  | .finite negative x => some (if negative then -x.toRat else x.toRat)
  | _ => none

/-- The comparison `n <= p` of a number with an integer. -/
def JsNumber.leInt (n : JsNumber) (p : Int) : Bool :=
  match n with
  | .nan => false
  | .infinity negative => negative
  | .finite negative x =>
    let v : Int := if negative then -(x.m : Int) else (x.m : Int)
    if 0 ≤ x.e then decide (v * 2 ^ x.e.toNat ≤ p) else decide (v ≤ p * 2 ^ (-x.e).toNat)

/-- The comparison `p <= n` of an integer with a number. -/
def JsNumber.geInt (n : JsNumber) (p : Int) : Bool :=
  match n with
  | .nan => false
  | .infinity negative => !negative
  | .finite negative x =>
    let v : Int := if negative then -(x.m : Int) else (x.m : Int)
    if 0 ≤ x.e then decide (p ≤ v * 2 ^ x.e.toNat) else decide (p * 2 ^ (-x.e).toNat ≤ v)

/-- `parseInt(text, 10)`: leading white space is skipped, then an optional
sign and the longest run of decimal digits are read; `none` is `NaN` (no
digit). The result is the integer itself: JavaScript returns it exactly while
it is below `2 ^ 53` in absolute value, which the statements about pages
assume. -/
def parseInt10 (s : String) : Option Int :=
  let (negative, body) := splitSign (s.data.dropWhile isJsWhiteSpace)
  let ds := body.takeWhile Char.isDigit
  if ds = [] then none
  else some (if negative then -(digitsToNat ds : Int) else (digitsToNat ds : Int))

/-- The expression `parseInt(text, 10) || d`. -/
def parseIntOr (text : String) (d : Int) : Int :=
  match parseInt10 text with
  | some n => if n != 0 then n else d
  | none => d

/-- `Number(req.query.windowDays)` as the field `windowDays` of the model's
query holds it, for the text of the parameter (`none` when it is absent). -/
def windowDaysParam (raw : Option String) : Option ℚ :=
  (numberOfParam raw).finiteValue

/-! ## `routes/courses.route.js` and `routes/videos.route.js`: the lists -/

/-- Prisma's `{ contains: search, mode: "insensitive" }`: `search` occurs in
`field`, letter case apart. The database provider is not part of the sources;
on a provider without `mode` the query would throw instead. -/
def containsInsensitive (field search : String) : Bool :=
  decide (List.IsInfix (toLowerCase search).data (toLowerCase field).data)

/-- Prisma's `{ equals: value, mode: "insensitive" }`. -/
def equalsInsensitive (field value : String) : Bool :=
  toLowerCase field == toLowerCase value

/-- The literal `1e12`. -/
def maxPriceDefault : JsNumber :=
  .finite false (Double.ofRatio (10 ^ 12) 1 0)

/-- The object `where` of `GET /courses` as a test on a course: the four
members of `AND`, each `{}` (no condition) when its parameter is empty. -/
def courseWhere (q : Query) (c : Course) : Bool :=
  (q.search == "" ||
    (containsInsensitive c.title q.search || containsInsensitive c.description q.search
      || containsInsensitive c.category q.search)) &&
  (q.category == "" || equalsInsensitive c.category q.category) &&
  (q.minPrice == "" ||
    ((stringToNumber q.minPrice).or (.finite false ⟨0, 0⟩)).leInt c.price) &&
  (q.maxPrice == "" || ((stringToNumber q.maxPrice).or maxPriceDefault).geInt c.price)

/-- The rows in the order of `orderBy`: by price for `asc` and `desc`,
otherwise newest first (rows that compare equal keep their order). -/
def courseOrder (order : String) (rows : List Course) : List Course :=
  if order == "asc" then rows.insertionSort (fun a b => a.price ≤ b.price)
  else if order == "desc" then rows.insertionSort (fun a b => b.price ≤ a.price)
  else rows.insertionSort (fun a b => b.createdAt ≤ a.createdAt)

/-- A course with the `include` of `GET /courses`. -/
def courseItem (db : Store) (c : Course) : CourseItem :=
  { course := c
    teacher := (userFindUniqueById db c.teacherId).map
      (fun u => { id := u.id, name := u.name, email := u.email, role := u.role })
    videos := (db.videos.filter (fun v => v.courseId == c.id)).length
    enrollments := (db.enrollments.filter (fun e => e.courseId == c.id)).length }

/-- `pageNum`: `Math.max(parseInt(page, 10) || 1, 1)`, with `page = "1"` when
the parameter is absent. -/
def pageNumOf (page : Option String) : Int :=
  max (parseIntOr (page.getD "1") 1) 1

/-- `take`: `Math.max(parseInt(limit, 10) || d, 1)`, with `limit` the text of
`d` when the parameter is absent. -/
def takeOf (limit : Option String) (d : Nat) : Int :=
  max (parseIntOr (limit.getD (toString d)) d) 1

/-- `Math.ceil(total / take)`, the division being that of binary64. -/
def pagesOf (total : Nat) (take : Int) : Nat :=
  (Double.div total take.toNat).ceil

/-- Handler of `GET /courses` (no middleware in front of it). -/
def listCoursesHandler : Handler := fun _env req db =>
  let q := req.query
  let pageNum := pageNumOf q.page
  let take := takeOf q.limit 6
  let skip := (pageNum - 1) * take
  let matching := db.courses.filter (courseWhere q)
  let items := ((courseOrder q.order matching).drop skip.toNat).take take.toNat
  let total := matching.length
  (⟨200, .coursePage (items.map (courseItem db))
      { total := total, page := pageNum, limit := take, pages := pagesOf total take }⟩, db)

/-- The object `where` of `GET /videos` as a test on a video. -/
def videoWhere (q : Query) (v : Video) : Bool :=
  (q.courseId == "" || v.courseId == q.courseId) &&
  (q.search == "" || containsInsensitive v.title q.search)

/-- Handler of `GET /videos` (no middleware in front of it): newest first. -/
def listVideosHandler : Handler := fun _env req db =>
  let q := req.query
  let pageNum := pageNumOf q.page
  let take := takeOf q.limit 10
  let skip := (pageNum - 1) * take
  let matching := db.videos.filter (videoWhere q)
  let items :=
    ((matching.insertionSort (fun a b => b.createdAt ≤ a.createdAt)).drop skip.toNat).take
      take.toNat
  let total := matching.length
  (⟨200, .videoPage items
      { total := total, page := pageNum, limit := take, pages := pagesOf total take }⟩, db)

/-! ## `routes/admin.routes.js` -/

/-- The key a course is counted under: `(c.category || "Uncategorized").trim()
|| "Uncategorized"`. -/
def categoryKey (c : Course) : String :=
  let k := jsTrim (if c.category != "" then c.category else "Uncategorized")
  if k != "" then k else "Uncategorized"

/-- `catMap.set(key, (catMap.get(key) || 0) + 1)` on a `Map` kept as the list of
its entries in insertion order. -/
def catMapIncrement (m : List CategoryCount) (key : String) : List CategoryCount :=
  if m.any (fun e => e.category == key) then
    m.map (fun e => if e.category == key then { e with count := e.count + 1 } else e)
  else m ++ [{ category := key, count := 1 }]

/-- The `Map` built by the loop `for (const c of courses)`. -/
def categoryMap (courses : List Course) : List CategoryCount :=
  courses.foldl (fun m c => catMapIncrement m (categoryKey c)) []

/-- What the loop over the courses maintains: the keys of the map are
distinct, each entry counts the courses of its key, every key is the key of a
course seen, and every course seen has its key in the map. -/
def CategoryMapInv (m : List CategoryCount) (l : List Course) : Prop :=
  (m.map (·.category)).Nodup ∧
  (∀ e ∈ m, e.count = l.countP (fun c => categoryKey c == e.category)) ∧
  (∀ e ∈ m, ∃ c ∈ l, categoryKey c = e.category) ∧
  (∀ c ∈ l, ∃ e ∈ m, e.category = categoryKey c)

/-- `byCategory`: the entries of the map, sorted by `b.count - a.count` (the
sort is stable) and cut to the first 12. -/
def byCategory (courses : List Course) : List CategoryCount :=
  ((categoryMap courses).insertionSort (fun a b => b.count ≤ a.count)).take 12

/-- The rows `{ id, title, videos: c._count.videos || 0, enrollments:
c._count.enrollments || 0 }` in retrieval order. -/
def courseCounts (db : Store) : List TopCourse :=
  db.courses.map (fun c =>
    { id := c.id
      title := c.title
      videos := (db.videos.filter (fun v => v.courseId == c.id)).length
      enrollments := (db.enrollments.filter (fun e => e.courseId == c.id)).length })

/-- The rows sorted by `b.videos - a.videos` (the sort is stable). -/
def sortByVideos (rows : List TopCourse) : List TopCourse :=
  rows.insertionSort (fun a b => b.videos ≤ a.videos)

/-- `topCoursesByVideos`: the sorted rows cut to the first 5. -/
def topCoursesByVideos (db : Store) : List TopCourse :=
  (sortByVideos (courseCounts db)).take 5

/-- `windowDays`: `Number.isFinite(rawWindow) ? Math.max(1, Math.min(180,
rawWindow)) : 30`. -/
def windowDaysOf (q : Query) : ℚ :=
  match q.windowDays with
  | some rawWindow => max 1 (min 180 rawWindow)
  | none => 30

/-- Milliseconds in a day. -/
def msPerDay : Nat := 86400000

/-- Year, month and day of month of the day number `d` (days since
1970-01-01) in the proleptic Gregorian calendar. -/
def civilFromDays (d : Nat) : Nat × Nat × Nat :=
  let z := d + 719468
  let era := z / 146097
  let doe := z % 146097
  let yoe := (doe + doe / 36524 - doe / 1460 - doe / 146096) / 365
  let doy := doe + yoe / 100 - (365 * yoe + yoe / 4)
  let mp := (5 * doy + 2) / 153
  let day := doy - (153 * mp + 2) / 5 + 1
  let month := if mp < 10 then mp + 3 else mp - 9
  let year := yoe + era * 400 + (if month ≤ 2 then 1 else 0)
  (year, month, day)

/-- A number written with at least `width` digits, padded with zeros. -/
def padZero (width n : Nat) : String :=
  let digits := toString n
  String.mk (List.replicate (width - digits.length) '0') ++ digits

/-- The text `YYYY-MM-DD` of the day number `d`: what SQLite's `date()` yields
for an instant of that UTC day. -/
def isoDate (d : Nat) : String :=
  let (year, month, day) := civilFromDays d
  padZero 4 year ++ "-" ++ padZero 2 month ++ "-" ++ padZero 2 day

/-- `ToIntegerOrInfinity` on a finite number: truncation toward zero. -/
def truncate (x : ℚ) : Int :=
  if 0 ≤ x then ⌊x⌋ else ⌈x⌉

/-- The local day number of `now`: the day `end.setHours(0, 0, 0, 0)` is the
midnight of. -/
def localToday (env : Env) : Int :=
  ((env.now : Int) + env.tzOffsetMinutes * 60000) / (msPerDay : Int)

/-- The instant (milliseconds, UTC) of local midnight of the local day `day`. -/
def localMidnight (env : Env) (day : Int) : Int :=
  day * (msPerDay : Int) - env.tzOffsetMinutes * 60000

/-- The local day `start.setDate(start.getDate() - windowDays + 1)` moves to:
the day of month is replaced by the truncated number, the month being kept. -/
def windowStartDay (today : Int) (windowDays : ℚ) : Int :=
  let dayOfMonth : Int := ((civilFromDays today.toNat).2.2 : Int)
  today - dayOfMonth + truncate ((dayOfMonth : ℚ) - windowDays + 1)

/-- `startISO`: the instant of the window start (inclusive). -/
def startInstant (env : Env) (windowDays : ℚ) : Int :=
  localMidnight env (windowStartDay (localToday env) windowDays)

/-- `endISO`: local midnight of today plus 24 hours (exclusive). -/
def endInstant (env : Env) : Int :=
  localMidnight env (localToday env) + (msPerDay : Int)

/-- `dailyCountSQLite(table, startISO, endISO)` on the `createdAt` column of a
table: the rows with `startISO <= createdAt < endISO` grouped by
`date(createdAt)`, the UTC calendar day, in ascending order of the day, each
with its number of rows. -/
def dailyCountSQLite (createdAts : List Nat) (start stop : Int) : List SeriesPoint :=
  let days := (createdAts.filter (fun (t : Nat) => start ≤ (t : Int) && (t : Int) < stop)).map
    (fun t => t / msPerDay)
  (days.dedup.insertionSort (fun a b => a ≤ b)).map
    (fun d => { date := isoDate d, value := days.count d })

/-- The body of the `try` block of `GET /admin/stats`: the document sent. -/
def statsBody (env : Env) (req : Request) (db : Store) : Stats :=
  let windowDays := windowDaysOf req.query
  let start := startInstant env windowDays
  let stop := endInstant env
  { totalUsers := db.users.length
    totalCourses := db.courses.length
    totalVideos := db.videos.length
    totalEnrollments := db.enrollments.length
    byCategory := byCategory db.courses
    topCoursesByVideos := topCoursesByVideos db
    usersSeries := dailyCountSQLite (db.users.map (·.createdAt)) start stop
    coursesSeries := dailyCountSQLite (db.courses.map (·.createdAt)) start stop
    videosSeries := dailyCountSQLite (db.videos.map (·.createdAt)) start stop
    enrollmentsSeries := dailyCountSQLite (db.enrollments.map (·.createdAt)) start stop }

/-- Handler of `GET /admin/stats`. The body of the `try` block (the counts,
the aggregation and the raw daily-count queries) is the parameter `compute`:
when it throws the answer is 500, otherwise its document is sent with 200. -/
def statsHandler (compute : Env → Request → Store → Except Unit Stats) : Handler :=
  fun env req db =>
    match compute env req db with
    | .error _ => (⟨500, .msg "Server error"⟩, db)
    | .ok stats => (⟨200, .stats stats⟩, db)

/-- Route `GET /admin/stats`: `auth, requires("ADMIN")`, handler. -/
def adminStats (compute : Env → Request → Store → Except Unit Stats) : Handler :=
  guarded ["ADMIN"] (statsHandler compute)

/-- Route `GET /admin/stats` with the body of the sources, in which no query
throws. -/
def getAdminStats : Handler :=
  adminStats (fun env req db => .ok (statsBody env req db))

/-! ## `index.js`: `GET /regenerateToken` -/

/-- Handler of `GET /regenerateToken`; the new access token lives `7d`. -/
def regenerateTokenHandler : Handler := fun env req db =>
  match bearerToken req.authorization with
  | none => (⟨400, .msg "Refresh token required"⟩, db)
  | some rToken =>
    if tokenEmpty rToken then (⟨400, .msg "Refresh token required"⟩, db)
    else
      match jwtVerify rToken REFRESH_SECRET env.now with
      | none => (⟨400, .msg "not a valid Refresh Token"⟩, db)
      | some decoded =>
        let token :=
          jwtSign { userId := decoded.userId, role := decoded.role, user := decoded.user }
            ACCESS_SECRET 604800 env.now
        (⟨201, .token "token created" token⟩, db)

/-! ## Enrollment and progress (`courses.route.js`, `videos.route.js`) -/

/-- `prisma.enrollment.findFirst({ where: { userId, courseId } })`; a filter
whose value is `undefined` is left out of the query. -/
def enrollmentFindFirst (db : Store) (userId : Option String) (courseId : String) :
    Option Enrollment :=
  db.enrollments.find? (fun e =>
    (match userId with
      | none => true
      | some u => e.userId == u) && e.courseId == courseId)

/-- `prisma.enrollment.create({ data: { userId, courseId } })`; the required
`userId` being `undefined` is a validation error (it throws). -/
def enrollmentCreate (env : Env) (db : Store) (userId : Option String) (courseId : String) :
    Except Unit (Enrollment × Store) :=
  match userId with
  | none => .error ()
  | some u =>
    let row : Enrollment :=
      { id := env.newId, userId := u, courseId := courseId, createdAt := env.now }
    .ok (row, { db with enrollments := db.enrollments ++ [row] })

/-- `prisma.videoProgress.upsert({ where: { userId_videoId: { userId, videoId } },
update: { watched: true }, create: { userId, videoId, watched: true } })`; a
compound key with an `undefined` part is a validation error (it throws). -/
def videoProgressUpsert (env : Env) (db : Store) (userId : Option String) (videoId : String) :
    Except Unit (VideoProgress × Store) :=
  match userId with
  | none => .error ()
  | some u =>
    match db.videoProgress.find? (fun p => p.userId == u && p.videoId == videoId) with
    | some p =>
      let row : VideoProgress := { p with watched := true, updatedAt := env.now }
      .ok (row,
        { db with videoProgress := db.videoProgress.map (fun q =>
            if q.userId == u && q.videoId == videoId then row else q) })
    | none =>
      let row : VideoProgress :=
        { userId := u, videoId := videoId, watched := true, updatedAt := env.now }
      .ok (row, { db with videoProgress := db.videoProgress ++ [row] })

/-- `prisma.videoProgress.findUnique({ where: { userId_videoId: { userId,
videoId } } })`; it throws when a part of the key is `undefined`. -/
def videoProgressFindUnique (db : Store) (userId : Option String) (videoId : String) :
    Except Unit (Option VideoProgress) :=
  match userId with
  | none => .error ()
  | some u => .ok (db.videoProgress.find? (fun p => p.userId == u && p.videoId == videoId))

/-- `prisma.videoProgress.findMany({ where: { userId } })`; a filter whose
value is `undefined` is left out of the query. -/
def videoProgressFindMany (db : Store) (userId : Option String) : List VideoProgress :=
  match userId with
  | none => db.videoProgress
  | some u => db.videoProgress.filter (fun p => p.userId == u)

/-- The line `const userId = req.user.userId;` shared by the four handlers
below (`req.user` is set by `auth`; without it the read throws). -/
def handlerUserId (req : Request) : Except Unit (Option String) :=
  match req.user with
  | none => .error ()
  | some user => .ok (user.prop "userId")

/-- Handler of `POST /courses/:id/enroll`. -/
def enrollHandler : Handler := fun env req db =>
  let courseId := req.paramId
  match handlerUserId req with
  | .error _ => (⟨500, .msg "Server error"⟩, db)
  | .ok userId =>
    match courseFindUnique db courseId with
    | none => (⟨404, .msg "Course not found"⟩, db)
    | some _ =>
      match enrollmentFindFirst db userId courseId with
      | some _ => (⟨400, .msg "Already enrolled in this course"⟩, db)
      | none =>
        match enrollmentCreate env db userId courseId with
        | .error _ => (⟨500, .msg "Server error"⟩, db)
        | .ok (enrollment, db') => (⟨201, .enrolled "Enrolled successfully" enrollment⟩, db')

/-- Handler of `POST /videos/:id/watched`. -/
def markWatchedHandler : Handler := fun env req db =>
  let videoId := req.paramId
  match handlerUserId req with
  | .error _ => (⟨500, .msg "Server error"⟩, db)
  | .ok userId =>
    match videoFindUnique db videoId with
    | none => (⟨404, .msg "Video not found"⟩, db)
    | some _ =>
      match videoProgressUpsert env db userId videoId with
      | .error _ => (⟨500, .msg "Server error"⟩, db)
      | .ok (progress, db') => (⟨200, .watched "Video marked as watched" progress⟩, db')

/-- Handler of `GET /videos/:id/progress`. -/
def videoProgressHandler : Handler := fun _env req db =>
  let videoId := req.paramId
  match handlerUserId req with
  | .error _ => (⟨500, .msg "Server error"⟩, db)
  | .ok userId =>
    match videoProgressFindUnique db userId videoId with
    | .error _ => (⟨500, .msg "Server error"⟩, db)
    | .ok progress =>
      (⟨200, .videoProgress videoId
          (match progress with
            | some p => p.watched
            | none => false)
          (progress.map (·.updatedAt))⟩, db)

/-- The `progress` list of `GET /courses/:id/progress` for the `userId` the
handler read: the videos of the course, each flagged when its id is among the
watched rows that `findMany({ where: { userId } })` returned. -/
def courseProgressEntries (db : Store) (userId : Option String) (courseId : String) :
    List ProgressEntry :=
  let videos := db.videos.filter (fun v => v.courseId == courseId)
  let watched := videoProgressFindMany db userId
  let watchedIds := (watched.filter (fun p => p.watched)).map (fun p => p.videoId)
  videos.map (fun v => { id := v.id, title := v.title, watched := watchedIds.contains v.id })

/-- The `progress` list the handler of `GET /courses/:id/progress` computes
for a request (its `try` block up to `const progress = ...`). -/
def courseProgressOf (req : Request) (db : Store) : Except Unit (List ProgressEntry) :=
  match handlerUserId req with
  | .error _ => .error ()
  | .ok userId => .ok (courseProgressEntries db userId req.paramId)

/-- The expression `totalCount > 0 ? ((completedCount / totalCount) *
100).toFixed(1) : "0.0"`. -/
def completionRateOf (completedCount totalCount : Nat) : String :=
  if totalCount > 0 then toFixed1 ((Double.div completedCount totalCount).mulNat 100)
  else "0.0"

/-- Handler of `GET /courses/:id/progress`. -/
def courseProgressHandler : Handler := fun _env req db =>
  let courseId := req.paramId
  match handlerUserId req with
  | .error _ => (⟨500, .msg "Server error"⟩, db)
  | .ok userId =>
    let progress := courseProgressEntries db userId courseId
    let completedCount := (progress.filter (fun v => v.watched)).length
    let totalCount := (db.videos.filter (fun v => v.courseId == courseId)).length
    let completionRate := completionRateOf completedCount totalCount
    (⟨200, .courseProgress courseId completionRate progress⟩, db)

/-- Route `GET /courses/:id/progress`: `auth`, handler. -/
def courseProgress : Handler := route [auth] courseProgressHandler

/-- Route `POST /courses/:id/enroll`: `auth`, handler. -/
def enroll : Handler := route [auth] enrollHandler

/-- Route `POST /videos/:id/watched`: `auth`, handler. -/
def markWatched : Handler := route [auth] markWatchedHandler

/-- Route `GET /videos/:id/progress`: `auth`, handler. -/
def videoProgress : Handler := route [auth] videoProgressHandler

/-! ## `prisma/seed.cjs`: the certificate of the seed student -/

/-- `prisma.certificate.findFirst({ where: { userId, courseId } })`. -/
def certificateFindFirst (db : Store) (userId courseId : String) : Option Certificate :=
  db.certificates.find? (fun c => c.userId == userId && c.courseId == courseId)

/-- `prisma.certificate.count({ where: { userId, courseId } })`. -/
def certificateCount (db : Store) (userId courseId : String) : Nat :=
  (db.certificates.filter (fun c => c.userId == userId && c.courseId == courseId)).length

/-- The certificate step 7 of the seed script creates for the pair. -/
def seedCertificate (env : Env) (studentId courseBId : String) : Certificate :=
  { id := env.newId
    userId := studentId
    courseId := courseBId
    grade := "A"
    fileUrl := "https://example.com/certificates/seed-student-sql-essentials.pdf"
    issuedAt := env.now }

/-- Step 7 of `main` in the seed script, for the rows `student` and `courseB`
the earlier steps chose: `findFirst`, then `create` when nothing was found. -/
def seedCertificateStep (env : Env) (studentId courseBId : String) (db : Store) : Store :=
  match certificateFindFirst db studentId courseBId with
  | some _ => db
  | none =>
    { db with certificates := db.certificates ++ [seedCertificate env studentId courseBId] }

/-! ## Sample data for the concrete checks -/

/-- An access token as `POST /users/login` signs it, for the given user. -/
def sampleAccessToken (id role name : String) : Token :=
  jwtSign { id := some id, email := some (id ++ "@school.org"), role := some role,
            name := some name } ACCESS_SECRET 86400 0

/-- A request carrying `Authorization: Bearer <token>`. -/
def sampleRequest (token : Token) (paramId : String) (body : Body) : Request :=
  { authorization := .bearer token, paramId := paramId, body := body }

/-- Teacher X, owner of the sample course. -/
def tokenTeacherX : Token := sampleAccessToken "tX" "TEACHER" "X"

/-- Teacher Y, who owns no course. -/
def tokenTeacherY : Token := sampleAccessToken "tY" "TEACHER" "Y"

/-- An administrator. -/
def tokenAdmin : Token := sampleAccessToken "a1" "ADMIN" "Root"

/-- A student. -/
def tokenStudent : Token := sampleAccessToken "s1" "USER" "Sam"

/-- A second student. -/
def tokenStudent2 : Token := sampleAccessToken "s2" "USER" "Sue"

/-- The course of the scenario: "K8s 101", price 0, owned by teacher X. -/
def courseK8s : Course := { id := "c1", title := "K8s 101", price := 0, teacherId := "tX" }

/-- A video of the sample course. -/
def videoIntro : Video := { id := "v1", title := "Intro", link := "https://v/1", courseId := "c1" }

/-- The stored row of the administrator. -/
def userRoot : User :=
  { id := "a1", email := "a1@school.org", name := "Root", role := "ADMIN",
    password := bcryptHash "secret0" }

/-- The stored row of student s1. -/
def userSam : User :=
  { id := "s1", email := "s1@school.org", name := "Sam", role := "USER",
    password := bcryptHash "secret1" }

/-- The stored row of student s2. -/
def userSue : User :=
  { id := "s2", email := "s2@school.org", name := "Sue", role := "USER",
    password := bcryptHash "secret2" }

/-- A store with the five sample users, the sample course and its video;
student s1 has watched the video, student s2 has not. -/
def sampleStore : Store :=
  { users :=
      [ { id := "tX", email := "tx@school.org", name := "X", role := "TEACHER" },
        { id := "tY", email := "ty@school.org", name := "Y", role := "TEACHER" },
        userRoot, userSam, userSue ]
    courses := [courseK8s]
    videos := [videoIntro]
    videoProgress := [{ userId := "s1", videoId := "v1", watched := true }] }

/-- The request `POST /users/login` of student s1. -/
def loginSam : Request :=
  { body := { email := some "S1@school.org", password := some "secret1" } }

/-- The claims `POST /users/login` signs for student s1. -/
def claimsSam : Claims :=
  { id := some "s1", email := some "s1@school.org", role := some "USER", name := some "Sam" }

/-- The access token a refresh of student s1's session produces. -/
def refreshedTokenSam : Token :=
  .jwt { role := some "USER" } ACCESS_SECRET 604800

/-- The store of the cascade scenario: course c1 with 3 videos, 2 enrollments,
1 mock test and 1 certificate, next to course c2 with one row of each kind. -/
def cascadeStore : Store :=
  { users := sampleStore.users
    courses := [courseK8s, { id := "c2", title := "Go 101", teacherId := "tY" }]
    videos :=
      [ { id := "v1", courseId := "c1" }, { id := "v2", courseId := "c2" },
        { id := "v3", courseId := "c1" }, { id := "v4", courseId := "c1" } ]
    enrollments :=
      [ { id := "e1", userId := "s1", courseId := "c1" },
        { id := "e2", userId := "s1", courseId := "c2" },
        { id := "e3", userId := "s2", courseId := "c1" } ]
    videoProgress := [{ userId := "s1", videoId := "v2", watched := true }]
    mockTests := [{ id := "m1", courseId := "c1" }, { id := "m2", courseId := "c2" }]
    certificates :=
      [ { id := "k1", userId := "s1", courseId := "c1" },
        { id := "k2", userId := "s1", courseId := "c2" } ] }

/-- A server two hours ahead of UTC, at 2024-03-10 12:00 local time
(10:00 UTC). -/
def seriesEnv : Env := { now := 1710064800000, tzOffsetMinutes := 120 }

/-- Two users created on the local day 2024-03-10 of that server: at 00:30
local time (2024-03-09 22:30 UTC) and at 11:00 local time (09:00 UTC). -/
def seriesStore : Store :=
  { users := [{ id := "u1", createdAt := 1710023400000 },
              { id := "u2", createdAt := 1710061200000 }] }

/-- The request `GET /admin/stats?windowDays=1`. -/
def seriesRequest : Request := { query := { windowDays := some 1 } }

/-- The videos `p0`, `p1`, ... of one course, `n` of them. -/
def rateVideos (p courseId : String) (n : Nat) : List Video :=
  (List.range n).map (fun i => { id := p ++ toString i, courseId := courseId })

/-- Rows of student s1 for the first `w` of those videos, all watched. -/
def rateWatched (p : String) (w : Nat) : List VideoProgress :=
  (List.range w).map (fun i => { userId := "s1", videoId := p ++ toString i, watched := true })

/-- A store where only student s1 has progress rows: s1 has watched 23 of the
80 videos of course c1 and 1 of the 16 videos of course c2. -/
def rateStore : Store :=
  { users := sampleStore.users
    courses := [courseK8s, { id := "c2", title := "Go 101", teacherId := "tY" }]
    videos := rateVideos "a" "c1" 80 ++ rateVideos "b" "c2" 16
    videoProgress := rateWatched "a" 23 ++ rateWatched "b" 1 }

/-- A store with a free course and a course priced 10. -/
def priceStore : Store :=
  { users := sampleStore.users
    courses := [courseK8s, { id := "c2", title := "Go 101", price := 10, teacherId := "tY" }] }

/-- A server on UTC at 2024-03-10 10:00. -/
def windowEnv : Env := { now := 1710064800000 }

/-- A user created on 2024-02-29 at 10:00 UTC and one created on 2024-03-10
at 09:00 UTC. -/
def windowStore : Store :=
  { users := [{ id := "u1", createdAt := 1709200800000 },
              { id := "u2", createdAt := 1710061200000 }] }

/-- The environment at time 0 with an empty blacklist. -/
def sampleEnv : Env := { blacklist := [], now := 0, newId := "n1" }

/-! ## Theorems -/

/-! ### Helper lemmas -/

theorem char_toUpper_idem (c : Char) : c.toUpper.toUpper = c.toUpper := by
  by_cases h : c.toNat ≥ 97 ∧ c.toNat ≤ 122
  · have hc : c = Char.ofNat c.toNat := (Char.ofNat_toNat c).symm
    obtain ⟨h1, h2⟩ := h
    generalize c.toNat = n at hc h1 h2
    subst hc
    interval_cases n <;> decide
  · have hfix : c.toUpper = c := by
      unfold Char.toUpper
      simp only [h, if_false]
    rw [hfix, hfix]

theorem toUpperCase_idem (s : String) : toUpperCase (toUpperCase s) = toUpperCase s := by
  unfold toUpperCase
  simp only [List.map_map]
  congr 1
  apply List.map_congr_left
  intro c _
  exact char_toUpper_idem c

theorem truthy_jsOr_none (a : Option String) : truthy (jsOr a none) = truthy a := by
  unfold jsOr
  by_cases h : truthy a = true
  · simp [h]
  · rw [if_neg h]
    simp only [Bool.not_eq_true] at h
    rw [h]
    rfl

theorem strOrEmpty_some (s : String) : strOrEmpty (some s) = s := by
  unfold strOrEmpty jsOr truthy
  by_cases h : s = "" <;> simp [h]

theorem guarded_eq (roles : List String) (h : Handler) (env : Env) (req : Request) (db : Store) :
    guarded roles h env req db =
      match authRequires roles env req with
      | .error resp => (resp, db)
      | .ok req' => h env req' db := by
  unfold guarded authRequires
  simp only [route]
  cases auth env req with
  | error r => rfl
  | ok r => cases requires roles env r <;> rfl

theorem auth_ok {env : Env} {req req' : Request} (h : auth env req = .ok req') :
    ∃ t d, bearerToken req.authorization = some t ∧ t ∉ env.blacklist ∧
      jwtVerify t ACCESS_SECRET env.now = some d ∧
      truthy (toSafeUser d).id = true ∧ req' = decorate req (toSafeUser d) := by
  unfold auth at h
  rcases hb : bearerToken req.authorization with _ | t
  · simp [hb] at h
  · simp only [hb] at h
    by_cases he : tokenEmpty t = true
    · simp [he] at h
    · by_cases hbl : t ∈ env.blacklist
      · simp [he, hbl] at h
      · rcases hv : jwtVerify t ACCESS_SECRET env.now with _ | d
        · simp [he, hbl, hv] at h
        · by_cases hid : truthy (toSafeUser d).id = true
          · simp [he, hbl, hv, hid] at h
            exact ⟨t, d, rfl, hbl, by first | rfl | exact hv, hid, h.symm⟩
          · simp [he, hbl, hv, hid] at h

theorem caller_some {env : Env} {req : Request} {u : SafeUser} (h : caller env req = some u) :
    auth env req = .ok (decorate req u) ∧ truthy u.id = true ∧ toUpperCase u.role = u.role := by
  unfold caller at h
  rcases ha : auth env req with r | req'
  · simp [ha] at h
  · obtain ⟨t, d, _, _, _, hid, hreq⟩ := auth_ok ha
    simp only [ha] at h
    subst hreq
    simp only [decorate, Option.some.injEq] at h
    subst h
    exact ⟨rfl, hid, by simp [toSafeUser, toUpperCase_idem]⟩

theorem requires_decorate (R : List String) (env : Env) (req : Request) (u : SafeUser)
    (hu : toUpperCase u.role = u.role) (hR : R ≠ []) :
    requires R env (decorate req u) =
      if u.role ∈ R then .ok (decorate req u) else .error ⟨403, .msg "Forbidden"⟩ := by
  have hlen : (R.length != 0) = true := by
    cases R with
    | nil => exact absurd rfl hR
    | cons a l => simp
  by_cases hr : u.role ∈ R <;>
    simp [requires, decorate, strOrEmpty_some, hu, hr, hlen]

theorem guarded_caller (R : List String) (h : Handler) (env : Env) (req : Request) (db : Store)
    (u : SafeUser) (hc : caller env req = some u) (hR : R ≠ []) :
    guarded R h env req db =
      if u.role ∈ R then h env (decorate req u) db else (⟨403, .msg "Forbidden"⟩, db) := by
  obtain ⟨ha, _, hu⟩ := caller_some hc
  rw [guarded_eq]
  unfold authRequires
  rw [ha]
  simp only [requires_decorate R env req u hu hR]
  by_cases hr : u.role ∈ R <;> simp [hr]

theorem requesterRole_decorate (req : Request) (u : SafeUser)
    (hu : toUpperCase u.role = u.role) : requesterRole (decorate req u) = u.role := by
  simp [requesterRole, decorate, strOrEmpty_some, hu]

theorem requesterId_decorate (req : Request) (u : SafeUser) (hid : truthy u.id = true) :
    some (requesterId (decorate req u)) = u.id := by
  cases hu : u.id with
  | none => simp [hu, truthy] at hid
  | some i =>
    rw [hu] at hid
    simp [requesterId, decorate, jsOr, hu, hid]

/-! ### C1: course ownership -/

/-- C1. For every existing course `c` (the one `:id` resolves to) and every
authenticated caller `u`: when the caller's role is TEACHER and `c.teacherId`
differs from the caller's id, `PUT /courses/:id` and `DELETE /courses/:id` both
answer 403 and leave the store unchanged; when the caller's role is ADMIN,
neither answers 403, whoever owns `c`. -/
theorem course_put_delete_ownership (env : Env) (req : Request) (db : Store)
    (c : Course) (u : SafeUser)
    (hcaller : caller env req = some u)
    (hcourse : courseFindUnique db req.paramId = some c) :
    (u.role = "TEACHER" → u.id ≠ some c.teacherId →
        putCourse env req db = (⟨403, .msg "forbidden: not your course"⟩, db) ∧
        deleteCourse env req db = (⟨403, .msg "forbidden: not your course"⟩, db)) ∧
    (u.role = "ADMIN" →
        (putCourse env req db).1.status ≠ 403 ∧ (deleteCourse env req db).1.status ≠ 403) := by
  obtain ⟨_, hid, hu⟩ := caller_some hcaller
  have hrole := requesterRole_decorate req u hu
  have hreqid := requesterId_decorate req u hid
  have hparam : (decorate req u).paramId = req.paramId := rfl
  constructor
  · intro hT hne
    have hne' : c.teacherId ≠ requesterId (decorate req u) := by
      intro heq
      apply hne
      rw [← hreqid, heq]
    unfold putCourse deleteCourse
    rw [guarded_caller _ _ env req db u hcaller (by simp),
      guarded_caller _ _ env req db u hcaller (by simp)]
    simp [hT, putCourseHandler, deleteCourseHandler, hparam, hcourse, hrole, hne']
  · intro hA
    unfold putCourse deleteCourse
    rw [guarded_caller _ _ env req db u hcaller (by simp),
      guarded_caller _ _ env req db u hcaller (by simp)]
    simp [hA, putCourseHandler, deleteCourseHandler, hparam, hcourse, hrole]

/-- C1, the scenario: teacher Y is refused on teacher X's course "K8s 101". -/
theorem course_put_delete_ownership_witness :
    putCourse sampleEnv (sampleRequest tokenTeacherY "c1" { title := some "Mine" }) sampleStore
        = (⟨403, .msg "forbidden: not your course"⟩, sampleStore) ∧
    deleteCourse sampleEnv (sampleRequest tokenTeacherY "c1" { title := some "Mine" }) sampleStore
        = (⟨403, .msg "forbidden: not your course"⟩, sampleStore) :=
  (course_put_delete_ownership sampleEnv
      (sampleRequest tokenTeacherY "c1" { title := some "Mine" }) sampleStore courseK8s
      { id := some "tY", name := some "Y", role := "TEACHER" }
      (by decide) (by decide)).1 (by decide) (by decide)

/-! ### C2: video ownership through the parent course -/

theorem postVideoHandler_not_403 (env : Env) (req : Request) (db : Store)
    (h : requesterRole req ≠ "TEACHER") : (postVideoHandler env req db).1.status ≠ 403 := by
  rcases hc : courseFindUnique db (req.body.courseId.getD "") with _ | c <;>
    by_cases hb : (!truthy req.body.title || !truthy req.body.link ||
      !truthy req.body.courseId) = true <;>
    simp [postVideoHandler, hc, h, hb]

theorem putVideoHandler_not_403 (env : Env) (req : Request) (db : Store)
    (h : requesterRole req ≠ "TEACHER") : (putVideoHandler env req db).1.status ≠ 403 := by
  rcases hv : videoFindUnique db req.paramId with _ | v
  · simp [putVideoHandler, hv]
  · rcases hc : courseFindUnique db v.courseId with _ | c <;> simp [putVideoHandler, hv, hc, h]

theorem deleteVideoHandler_not_403 (env : Env) (req : Request) (db : Store)
    (h : requesterRole req ≠ "TEACHER") : (deleteVideoHandler env req db).1.status ≠ 403 := by
  rcases hv : videoFindUnique db req.paramId with _ | v
  · simp [deleteVideoHandler, hv]
  · rcases hc : courseFindUnique db v.courseId with _ | c <;> simp [deleteVideoHandler, hv, hc, h]

/-- C2 as stated fails for creation: teacher Y, who does not own course `c1`,
posts a video for it without a title and is answered 400, not 403. -/
theorem video_post_nonowner_without_title_400 :
    caller sampleEnv (sampleRequest tokenTeacherY "" { link := some "l", courseId := some "c1" })
        = some { id := some "tY", name := some "Y", role := "TEACHER" } ∧
    courseFindUnique sampleStore "c1" = some courseK8s ∧
    courseK8s.teacherId ≠ "tY" ∧
    postVideo sampleEnv (sampleRequest tokenTeacherY "" { link := some "l", courseId := some "c1" })
        sampleStore
      = (⟨400, .msg "title, link, courseId required"⟩, sampleStore) := by
  decide

/-- C2, amended. For every TEACHER caller `u`: `POST /videos` for a course
whose `teacherId` differs from the caller's id is answered 403 when the body
has a title, a link and a courseId (400 when one is missing) and creates no
video; `PUT /videos/:id` and `DELETE /videos/:id` on a video whose parent
course has a `teacherId` different from the caller's id are answered 403 and
change or remove no video. Ownership is read from the parent course. An ADMIN
caller is never answered 403 by any of the three. -/
theorem video_mutations_ownership (env : Env) (req : Request) (db : Store) (u : SafeUser)
    (hcaller : caller env req = some u) :
    (u.role = "TEACHER" →
      (∀ c, courseFindUnique db (req.body.courseId.getD "") = some c →
          u.id ≠ some c.teacherId →
          (postVideo env req db).2 = db ∧
          (postVideo env req db).1.status =
            if truthy req.body.title && truthy req.body.link && truthy req.body.courseId
            then 403 else 400) ∧
      (∀ v c, videoFindUnique db req.paramId = some v →
          courseFindUnique db v.courseId = some c →
          u.id ≠ some c.teacherId →
          putVideo env req db = (⟨403, .msg "forbidden: not your course"⟩, db) ∧
          deleteVideo env req db = (⟨403, .msg "forbidden: not your course"⟩, db))) ∧
    (u.role = "ADMIN" →
      (postVideo env req db).1.status ≠ 403 ∧
      (putVideo env req db).1.status ≠ 403 ∧
      (deleteVideo env req db).1.status ≠ 403) := by
  obtain ⟨_, hid, hu⟩ := caller_some hcaller
  have hrole := requesterRole_decorate req u hu
  have hreqid := requesterId_decorate req u hid
  have hparam : (decorate req u).paramId = req.paramId := rfl
  have hown : ∀ c : Course, u.id ≠ some c.teacherId →
      c.teacherId ≠ requesterId (decorate req u) := by
    intro c hne heq
    apply hne
    rw [← hreqid, heq]
  unfold postVideo putVideo deleteVideo
  rw [guarded_caller _ _ env req db u hcaller (by simp),
    guarded_caller _ _ env req db u hcaller (by simp),
    guarded_caller _ _ env req db u hcaller (by simp)]
  refine ⟨fun hT => ⟨?_, ?_⟩, fun hA => ?_⟩
  · intro c hc hne
    have hne' := hown c hne
    have htitle : (decorate req u).body.title = req.body.title := rfl
    have hlink : (decorate req u).body.link = req.body.link := rfl
    have hcid : (decorate req u).body.courseId = req.body.courseId := rfl
    by_cases h1 : truthy req.body.title = true <;>
    by_cases h2 : truthy req.body.link = true <;>
    by_cases h3 : truthy req.body.courseId = true <;>
      simp [hT, postVideoHandler, htitle, hlink, hcid, h1, h2, h3, hc, hrole, hne']
  · intro v c hv hc hne
    have hne' := hown c hne
    simp [hT, putVideoHandler, deleteVideoHandler, hparam, hv, hc, hrole, hne']
  · have hmem : u.role ∈ ["TEACHER", "ADMIN"] := by simp [hA]
    have hnt : requesterRole (decorate req u) ≠ "TEACHER" := by
      rw [hrole, hA]
      decide
    simp only [hmem, if_true]
    exact ⟨postVideoHandler_not_403 env _ db hnt, putVideoHandler_not_403 env _ db hnt,
      deleteVideoHandler_not_403 env _ db hnt⟩

/-- C2, concrete: teacher Y is refused on the video of teacher X's course. -/
theorem video_mutations_ownership_witness :
    putVideo sampleEnv (sampleRequest tokenTeacherY "v1" { title := some "Mine" }) sampleStore
        = (⟨403, .msg "forbidden: not your course"⟩, sampleStore) ∧
    deleteVideo sampleEnv (sampleRequest tokenTeacherY "v1" { title := some "Mine" }) sampleStore
        = (⟨403, .msg "forbidden: not your course"⟩, sampleStore) :=
  ((video_mutations_ownership sampleEnv
      (sampleRequest tokenTeacherY "v1" { title := some "Mine" }) sampleStore
      { id := some "tY", name := some "Y", role := "TEACHER" }
      (by decide)).1 (by decide)).2 videoIntro courseK8s (by decide) (by decide) (by decide)

/-! ### C3: 401 versus 403 -/

/-- C3. For every request and every non-empty role list `R`, the chain `auth`
then `requires(R)` answers 401 exactly when the header carries no Bearer token
(none, or an empty one), the token is blacklisted, the token fails
verification, or the verified token carries no id; it answers 403 exactly when
the (presented, not blacklisted) token verifies with an id and its upper-cased
role is not in `R`; in every other case the request is passed to the handler.
The chain answers with no other status, so the two are never exchanged. -/
theorem auth_requires_401_403 (env : Env) (req : Request) (R : List String) (hR : R ≠ []) :
    ((∃ resp, authRequires R env req = .error resp ∧ resp.status = 401) ↔
        (bearerToken req.authorization = none ∨
          ∃ t, bearerToken req.authorization = some t ∧
            (tokenEmpty t = true ∨ t ∈ env.blacklist ∨
              jwtVerify t ACCESS_SECRET env.now = none ∨
              ∃ d, jwtVerify t ACCESS_SECRET env.now = some d ∧
                truthy (jsOr d.userId d.id) = false))) ∧
    ((∃ resp, authRequires R env req = .error resp ∧ resp.status = 403) ↔
        ∃ t d, bearerToken req.authorization = some t ∧ t ∉ env.blacklist ∧
          jwtVerify t ACCESS_SECRET env.now = some d ∧
          truthy (jsOr d.userId d.id) = true ∧
          toUpperCase (strOrEmpty d.role) ∉ R) ∧
    ((∃ req', authRequires R env req = .ok req') ↔
        ∃ t d, bearerToken req.authorization = some t ∧ t ∉ env.blacklist ∧
          jwtVerify t ACCESS_SECRET env.now = some d ∧
          truthy (jsOr d.userId d.id) = true ∧
          toUpperCase (strOrEmpty d.role) ∈ R) ∧
    (∀ (h : Handler) (db : Store),
        guarded R h env req db =
          match authRequires R env req with
          | .error resp => (resp, db)
          | .ok req' => h env req' db) := by
  have hlen : (R.length != 0) = true := by
    cases R with
    | nil => exact absurd rfl hR
    | cons a l => simp
  refine ⟨?_, ?_, ?_, fun h db => guarded_eq R h env req db⟩
  all_goals
    rcases hb : bearerToken req.authorization with _ | t
    · simp [authRequires, auth, hb]
    · by_cases he : tokenEmpty t = true
      · have hv : jwtVerify t ACCESS_SECRET env.now = none := by
          cases t with
          | text s => rfl
          | jwt p s e => simp [tokenEmpty] at he
        simp [authRequires, auth, hb, he, hv]
      · by_cases hbl : t ∈ env.blacklist
        · simp [authRequires, auth, hb, he, hbl]
        · rcases hv : jwtVerify t ACCESS_SECRET env.now with _ | d
          · simp [authRequires, auth, hb, he, hbl, hv]
          · by_cases hid : truthy (jsOr d.userId d.id) = true
            · by_cases hr : toUpperCase (strOrEmpty d.role) ∈ R
              · simp [authRequires, auth, requires, hb, he, hbl, hv, hid, hr, hlen,
                  strOrEmpty_some, toUpperCase_idem, toSafeUser, truthy_jsOr_none, decorate]
              · simp [authRequires, auth, requires, hb, he, hbl, hv, hid, hr, hlen,
                  strOrEmpty_some, toUpperCase_idem, toSafeUser, truthy_jsOr_none, decorate]
            · simp [authRequires, auth, hb, he, hbl, hv, hid, toSafeUser, truthy_jsOr_none]

/-- C3, concrete: a student's valid token on an ADMIN-only chain is answered
403. -/
theorem auth_requires_401_403_witness :
    ∃ resp, authRequires ["ADMIN"] sampleEnv (sampleRequest tokenStudent "" {}) = .error resp ∧
      resp.status = 403 :=
  ((auth_requires_401_403 sampleEnv (sampleRequest tokenStudent "" {}) ["ADMIN"]
      (by decide)).2.1).mpr
    ⟨tokenStudent, _, rfl, by decide, rfl, by decide, by decide⟩

/-! ### C4: administrator-only routes -/

/-- C4. For every authenticated caller whose role is not ADMIN, `GET
/admin/stats`, `GET /users` and `DELETE /users/:id` each answer 403 with the
store unchanged, whatever the handler body would compute (the answer does not
depend on `compute` or `findMany`, and no user is deleted); for an ADMIN caller
none of the three is answered 401 or 403. -/
theorem admin_routes_guard (env : Env) (req : Request) (db : Store) (u : SafeUser)
    (compute : Env → Request → Store → Except Unit Stats)
    (findMany : Query → Store → Except Unit (List UserView))
    (hcaller : caller env req = some u) :
    (u.role ≠ "ADMIN" →
      adminStats compute env req db = (⟨403, .msg "Forbidden"⟩, db) ∧
      listUsers findMany env req db = (⟨403, .msg "Forbidden"⟩, db) ∧
      deleteUser env req db = (⟨403, .msg "Forbidden"⟩, db)) ∧
    (u.role = "ADMIN" →
      ((adminStats compute env req db).1.status ≠ 401 ∧
        (adminStats compute env req db).1.status ≠ 403) ∧
      ((listUsers findMany env req db).1.status ≠ 401 ∧
        (listUsers findMany env req db).1.status ≠ 403) ∧
      ((deleteUser env req db).1.status ≠ 401 ∧
        (deleteUser env req db).1.status ≠ 403)) := by
  unfold adminStats listUsers deleteUser
  rw [guarded_caller _ _ env req db u hcaller (by simp),
    guarded_caller _ _ env req db u hcaller (by simp),
    guarded_caller _ _ env req db u hcaller (by simp)]
  constructor
  · intro hne
    simp [hne]
  · intro hA
    simp only [hA, List.mem_singleton, if_true]
    refine ⟨?_, ?_, ?_⟩
    · unfold statsHandler
      cases compute env (decorate req u) db <;> simp
    · unfold listUsersHandler
      cases findMany (decorate req u).query db <;> simp
    · rcases hf : userFindUniqueById db (decorate req u).paramId with _ | t <;>
        simp [deleteUserHandler, hf]

/-- C4, concrete: a student asking to delete a user is answered 403 and the
user table is as before. -/
theorem admin_routes_guard_witness :
    deleteUser sampleEnv (sampleRequest tokenStudent "tX" {}) sampleStore
      = (⟨403, .msg "Forbidden"⟩, sampleStore) :=
  ((admin_routes_guard sampleEnv (sampleRequest tokenStudent "tX" {}) sampleStore
      { id := some "s1", name := some "Sam", role := "USER" }
      (fun _ _ _ => .ok {}) (fun _ s => .ok (s.users.map User.view))
      (by decide)).1 (by decide)).2.2

/-! ### C5, C6, C7: `PUT /users/:id` -/

/-- C5 fails on the code for teachers: every authenticated TEACHER caller is
answered 403 by `PUT /users/:id`, for every `:id`, the caller's own included;
the route is guarded by `requires("ADMIN", "USER")`. -/
theorem put_user_teacher_forbidden (env : Env) (req : Request) (db : Store) (u : SafeUser)
    (hcaller : caller env req = some u) (hrole : u.role = "TEACHER") :
    putUser env req db = (⟨403, .msg "Forbidden"⟩, db) := by
  unfold putUser
  rw [guarded_caller _ _ env req db u hcaller (by simp)]
  simp [hrole]

/-- C5, the failing input: teacher Y updating the name of their own profile
(`:id` is the id in Y's token) is answered 403. -/
theorem put_user_teacher_forbidden_witness :
    putUser sampleEnv (sampleRequest tokenTeacherY "tY" { name := some "Why" }) sampleStore
      = (⟨403, .msg "Forbidden"⟩, sampleStore) :=
  put_user_teacher_forbidden sampleEnv
    (sampleRequest tokenTeacherY "tY" { name := some "Why" }) sampleStore
    { id := some "tY", name := some "Y", role := "TEACHER" } (by decide) (by decide)

theorem find_map_update_other (l : List User) (id id' : String) (updated : User)
    (hid : updated.id = id) (hne : id' ≠ id) :
    (l.map (fun u => if u.id == id then updated else u)).find? (fun u => u.id == id')
      = l.find? (fun u => u.id == id') := by
  induction l with
  | nil => rfl
  | cons h t ih =>
    rw [List.map_cons, List.find?_cons, List.find?_cons, ih]
    by_cases h1 : h.id = id
    · have e1 : (h.id == id) = true := by simp [h1]
      have e2 : (updated.id == id') = false := by
        simp only [beq_eq_false_iff_ne, ne_eq]
        exact fun e => hne (e.symm.trans hid)
      have e3 : (h.id == id') = false := by
        simp only [beq_eq_false_iff_ne, ne_eq]
        exact fun e => hne (e.symm.trans h1)
      simp only [e1, if_true, e2, e3]
    · have e1 : (h.id == id) = false := by simp [h1]
      simp only [e1, Bool.false_eq_true, if_false]

theorem find_map_update_same (l : List User) (id : String) (updated : User)
    (hid : updated.id = id) :
    (l.map (fun u => if u.id == id then updated else u)).find? (fun u => u.id == id)
      = (l.find? (fun u => u.id == id)).map (fun _ => updated) := by
  induction l with
  | nil => rfl
  | cons h t ih =>
    rw [List.map_cons, List.find?_cons, List.find?_cons, ih]
    by_cases h1 : h.id = id
    · have e1 : (h.id == id) = true := by simp [h1]
      have e2 : (updated.id == id) = true := by simp [hid]
      simp only [e1, if_true, e2, Option.map_some']
    · have e1 : (h.id == id) = false := by simp [h1]
      simp only [e1, Bool.false_eq_true, if_false]

theorem find_some_id {l : List User} {id : String} {target : User}
    (h : l.find? (fun u => u.id == id) = some target) : target.id = id := by
  have := List.find?_some h
  simpa using this

theorem role_after_update (db : Store) (id id' : String) (target updated : User)
    (hfind : userFindUniqueById db id = some target)
    (hid : updated.id = target.id) (hrole : updated.role = target.role) :
    (userFindUniqueById
        { db with users := db.users.map (fun u => if u.id == id then updated else u) } id').map
        (·.role)
      = (userFindUniqueById db id').map (·.role) := by
  unfold userFindUniqueById at *
  have htid := find_some_id hfind
  by_cases hne : id' = id
  · subst hne
    simp only [find_map_update_same db.users id' updated (hid.trans htid), hfind]
    simp [hrole]
  · simp only [find_map_update_other db.users id id' updated (hid.trans htid) hne]

theorem putUserHandler_keeps_roles (env : Env) (req : Request) (db : Store)
    (hreq : ∀ r, getCurrentUserOrThrow req db = .ok r → r.role ≠ "ADMIN") (id' : String) :
    (userFindUniqueById (putUserHandler env req db).2 id').map (·.role)
      = (userFindUniqueById db id').map (·.role) := by
  unfold putUserHandler
  rcases hg : getCurrentUserOrThrow req db with e | requester
  · rfl
  · have hna : requester.role ≠ "ADMIN" := hreq requester hg
    have hadm : (requester.role == "ADMIN") = false := by simp [hna]
    simp only []
    split_ifs
    · rfl
    · rfl
    · rfl
    · rcases ht : userFindUniqueById db req.paramId with _ | target
      · rfl
      · exact role_after_update db req.paramId id' target _ ht rfl
          (by simp [applyNextData, hadm])

theorem getCurrentUserOrThrow_decorate (req : Request) (db : Store) (u : SafeUser) (uid : String)
    (hid : u.id = some uid) (ht : truthy u.id = true) :
    getCurrentUserOrThrow (decorate req u) db =
      match userFindUniqueById db uid with
      | none => .error ⟨404, "User not found"⟩
      | some user => .ok user := by
  have h1 : truthy (some uid) = true := by rw [← hid]; exact ht
  simp [getCurrentUserOrThrow, decorate, SafeUser.prop, hid, jsOr, h1]

/-- C6. For every `PUT /users/:id` request made by an authenticated caller
whose stored role is not ADMIN, the stored role of the target user (and of
every other user: `id'` is arbitrary) after the request equals its value before
it, whatever the request body carries. -/
theorem put_user_role_unchanged (env : Env) (req : Request) (db : Store)
    (u : SafeUser) (uid : String) (stored : User)
    (hcaller : caller env req = some u) (hid : u.id = some uid)
    (hstored : userFindUniqueById db uid = some stored) (hrole : stored.role ≠ "ADMIN")
    (id' : String) :
    (userFindUniqueById (putUser env req db).2 id').map (·.role)
      = (userFindUniqueById db id').map (·.role) := by
  obtain ⟨_, ht, _⟩ := caller_some hcaller
  unfold putUser
  rw [guarded_caller _ _ env req db u hcaller (by simp)]
  split
  · apply putUserHandler_keeps_roles
    intro r hr
    rw [getCurrentUserOrThrow_decorate req db u uid hid ht, hstored] at hr
    simp only [Except.ok.injEq] at hr
    rw [← hr]
    exact hrole
  · rfl

/-- C6, concrete: student s1 asks for role ADMIN on their own record; the
stored role stays USER. -/
theorem put_user_role_unchanged_witness :
    (userFindUniqueById
        (putUser sampleEnv (sampleRequest tokenStudent "s1" { role := some "ADMIN" })
          sampleStore).2 "s1").map (·.role) = some "USER" :=
  put_user_role_unchanged sampleEnv (sampleRequest tokenStudent "s1" { role := some "ADMIN" })
    sampleStore { id := some "s1", name := some "Sam", role := "USER" } "s1"
    userSam (by decide) rfl (by decide) (by decide) "s1"

/-- C7 fails on the code: when an ADMIN caller (token role and stored role
ADMIN) updates an existing user and the email guard does not fire, the answer
is 200 and the role written to the target is `ADMIN`, the role of the caller's
token which `auth` put into `req.body.role`, whatever role the client's body
named or did not name. -/
theorem put_user_admin_writes_token_role (env : Env) (req : Request) (db : Store)
    (u : SafeUser) (uid : String) (stored target : User)
    (hcaller : caller env req = some u) (hid : u.id = some uid)
    (hstored : userFindUniqueById db uid = some stored)
    (hsrole : stored.role = "ADMIN") (hurole : u.role = "ADMIN")
    (htarget : userFindUniqueById db req.paramId = some target)
    (hfree : emailInUse db req.body req.paramId = false) :
    (putUser env req db).1.status = 200 ∧
    (userFindUniqueById (putUser env req db).2 req.paramId).map (·.role) = some "ADMIN" := by
  obtain ⟨_, ht, _⟩ := caller_some hcaller
  have hup : up (some "ADMIN") = "ADMIN" := by decide
  have hgc := getCurrentUserOrThrow_decorate req db u uid hid ht
  rw [hstored] at hgc
  have hbody : emailInUse db (decorate req u).body req.paramId = false := hfree
  have hparam : (decorate req u).paramId = req.paramId := rfl
  have hbrole : (decorate req u).body.role = some "ADMIN" := by simp [decorate, hurole]
  have htid := find_some_id htarget
  unfold putUser
  rw [guarded_caller _ _ env req db u hcaller (by simp)]
  simp only [hurole, List.mem_cons, true_or, if_true]
  unfold putUserHandler
  have hallowed : (truthy (some "ADMIN") && ("ADMIN" == "ADMIN")
      && !ALLOWED_ROLES.contains "ADMIN") = false := by decide
  simp only [hgc, hparam, hbody, hbrole, hsrole, htarget, hup, hallowed,
    bne_self_eq_false, Bool.false_and, Bool.false_eq_true, if_false, true_and]
  unfold userFindUniqueById at htarget ⊢
  simp only [find_map_update_same db.users req.paramId _
    (show (applyNextData (decorate req u).body stored target).id = req.paramId from htid),
    htarget, Option.map_some']
  simp [applyNextData, hbrole, hsrole, hup, truthy]

/-- C7, the failing inputs: the administrator sets student s1's role to
"teacher", and the stored role of s1 becomes ADMIN. -/
theorem put_user_admin_writes_token_role_witness :
    (putUser sampleEnv (sampleRequest tokenAdmin "s1" { role := some "teacher" })
        sampleStore).1.status = 200 ∧
    (userFindUniqueById
        (putUser sampleEnv (sampleRequest tokenAdmin "s1" { role := some "teacher" })
          sampleStore).2 "s1").map (·.role) = some "ADMIN" :=
  put_user_admin_writes_token_role sampleEnv
    (sampleRequest tokenAdmin "s1" { role := some "teacher" }) sampleStore
    { id := some "a1", name := some "Root", role := "ADMIN" } "a1"
    userRoot userSam (by decide) rfl (by decide) rfl rfl (by decide) (by decide)

/-! ### C8: token refresh -/

theorem login_tokens {env : Env} {req : Request} {db : Store} {m : String} {uv : UserView}
    {tok rtok : Token} (h : (loginHandler env req db).1 = ⟨200, .login m uv tok rtok⟩) :
    ∃ user, tok = jwtSign (loginPayload user) ACCESS_SECRET 86400 env.now ∧
      rtok = jwtSign (loginPayload user) REFRESH_SECRET 604800 env.now := by
  unfold loginHandler at h
  split at h
  · simp at h
  · rcases hf : userFindUniqueByEmail db (toLowerCase (req.body.email.getD "")) with _ | user
    · simp [hf] at h
    · simp only [hf] at h
      split at h
      · simp at h
      · simp only [Response.mk.injEq, ResBody.login.injEq, true_and] at h
        exact ⟨user, h.2.2.1.symm, h.2.2.2.symm⟩

theorem caller_none_of_no_id (env : Env) (r : Request) (p : Claims) (secret : String) (exp : Nat)
    (hr : r.authorization = .bearer (.jwt p secret exp))
    (hid : truthy (jsOr p.userId p.id) = false) : caller env r = none := by
  unfold caller auth
  simp only [hr, bearerToken, tokenEmpty, Bool.false_eq_true, if_false]
  by_cases hbl : Token.jwt p secret exp ∈ env.blacklist
  · simp [hbl]
  · simp only [hbl, if_false]
    unfold jwtVerify
    by_cases hv : secret = ACCESS_SECRET ∧ env.now / 1000 < exp
    · simp [hv, toSafeUser, truthy_jsOr_none, hid]
    · simp [hv]

/-- C8 fails on the code. Take the refresh token `rtok` that `POST
/users/login` issued. `GET /regenerateToken` answers 201 for it while it has
not expired, but the access token it signs copies `decoded.userId` and
`decoded.user`, which the login payload does not have (it has `id` and
`name`): no request carrying the new token gets past `auth`. -/
theorem regenerated_token_never_authenticates (env env' : Env) (req req' : Request)
    (db db' : Store) (m : String) (uv : UserView) (tok rtok : Token)
    (hlogin : (loginHandler env req db).1 = ⟨200, .login m uv tok rtok⟩)
    (hreq : req'.authorization = .bearer rtok) :
    (env'.now / 1000 < env.now / 1000 + 604800 →
      ∃ t, regenerateTokenHandler env' req' db' = (⟨201, .token "token created" t⟩, db')) ∧
    (∀ m' t, (regenerateTokenHandler env' req' db').1 = ⟨201, .token m' t⟩ →
      ∀ env'' r, r.authorization = .bearer t → caller env'' r = none) := by
  obtain ⟨user, _, hr⟩ := login_tokens hlogin
  subst hr
  constructor
  · intro hfresh
    simp [regenerateTokenHandler, hreq, bearerToken, jwtSign, tokenEmpty, jwtVerify, hfresh]
  · intro m' t ht env'' r hbearer
    unfold regenerateTokenHandler at ht
    simp only [hreq, bearerToken, jwtSign, tokenEmpty, Bool.false_eq_true, if_false,
      jwtVerify, true_and] at ht
    split at ht
    · simp at ht
    · rename_i decoded hdec
      simp only [Response.mk.injEq, ResBody.token.injEq, true_and] at ht
      have hd : decoded = loginPayload user := by
        split at hdec
        · exact (Option.some.inj hdec).symm
        · exact absurd hdec (by simp)
      rw [← ht.2, hd] at hbearer
      exact caller_none_of_no_id env'' r _ _ _ hbearer (by simp [loginPayload, jsOr, truthy])

/-- C8, the failing input: student s1 logs in and presents the refresh token;
the answer is 201 with a token whose payload holds the role only, a request
carrying it is refused by `auth`, whereas the access token of the login
resolves to s1. -/
theorem regenerated_token_never_authenticates_witness :
    (loginHandler sampleEnv loginSam sampleStore).1
      = ⟨200, .login "Login successful" { userSam.view with role := "USER" }
          (jwtSign claimsSam ACCESS_SECRET 86400 0) (jwtSign claimsSam REFRESH_SECRET 604800 0)⟩ ∧
    regenerateTokenHandler sampleEnv
        (sampleRequest (jwtSign claimsSam REFRESH_SECRET 604800 0) "" {}) sampleStore
      = (⟨201, .token "token created" refreshedTokenSam⟩, sampleStore) ∧
    caller sampleEnv (sampleRequest refreshedTokenSam "c1" {}) = none ∧
    caller sampleEnv (sampleRequest (jwtSign claimsSam ACCESS_SECRET 86400 0) "c1" {})
      = some { id := some "s1", name := some "Sam", role := "USER" } :=
  ⟨by decide, by decide,
    (regenerated_token_never_authenticates sampleEnv sampleEnv loginSam
      (sampleRequest (jwtSign claimsSam REFRESH_SECRET 604800 0) "" {}) sampleStore sampleStore
      "Login successful" { userSam.view with role := "USER" }
      (jwtSign claimsSam ACCESS_SECRET 86400 0) (jwtSign claimsSam REFRESH_SECRET 604800 0)
      (by decide) rfl).2 "token created" refreshedTokenSam (by decide) sampleEnv
      (sampleRequest refreshedTokenSam "c1" {}) rfl,
    by decide⟩

/-! ### C9, C10: the user id of the enrollment and progress handlers -/

theorem handlerUserId_decorate (req : Request) (u : SafeUser) :
    handlerUserId (decorate req u) = .ok none := by
  simp [handlerUserId, decorate, SafeUser.prop]

theorem route_auth_caller (h : Handler) (env : Env) (req : Request) (db : Store) (u : SafeUser)
    (hc : caller env req = some u) : route [auth] h env req db = h env (decorate req u) db := by
  obtain ⟨ha, _, _⟩ := caller_some hc
  simp [route, ha]

theorem auth_error_status {env : Env} {req : Request} {r : Response}
    (ha : auth env req = .error r) : r.status = 401 := by
  unfold auth at ha
  split at ha
  · cases ha; rfl
  · split at ha
    · cases ha; rfl
    · split at ha
      · cases ha; rfl
      · split at ha
        · cases ha; rfl
        · dsimp only at ha
          split at ha
          · cases ha; rfl
          · cases ha

theorem route_auth_error (h : Handler) (env : Env) (req : Request) (db : Store)
    (hc : caller env req = none) :
    (route [auth] h env req db).2 = db ∧ (route [auth] h env req db).1.status = 401 := by
  unfold caller at hc
  rcases ha : auth env req with r | req'
  · simp [route, ha, auth_error_status ha]
  · obtain ⟨t, d, _, _, _, _, hreq⟩ := auth_ok ha
    simp [ha, hreq, decorate] at hc

/-- C9 fails on the code. For every request that passes `auth` as user `u`:
the id claim of the verified token is defined (`u.id`), but the handlers read
`req.user.userId`, a property the object built by `toSafeUser` does not have,
so the user id they use is `undefined`. With it, the progress list of `GET
/courses/:id/progress` is computed from the watched rows of all users, `POST
/videos/:id/watched` writes no row and never answers 200, and `GET
/videos/:id/progress` answers 500. -/
theorem handler_user_id_undefined (env : Env) (req : Request) (db : Store) (u : SafeUser)
    (hcaller : caller env req = some u) :
    auth env req = .ok (decorate req u) ∧
    (∃ uid, u.id = some uid ∧ uid ≠ "") ∧
    handlerUserId (decorate req u) = .ok none ∧
    courseProgressOf (decorate req u) db = .ok (courseProgressEntries db none req.paramId) ∧
    ((markWatched env req db).2 = db ∧ (markWatched env req db).1.status ≠ 200) ∧
    videoProgress env req db = (⟨500, .msg "Server error"⟩, db) := by
  obtain ⟨ha, ht, _⟩ := caller_some hcaller
  have hid : ∃ uid, u.id = some uid ∧ uid ≠ "" := by
    cases hu : u.id with
    | none => simp [hu, truthy] at ht
    | some i =>
      refine ⟨i, rfl, ?_⟩
      intro he
      simp [hu, truthy, he] at ht
  refine ⟨ha, hid, handlerUserId_decorate req u, ?_, ?_, ?_⟩
  · rw [courseProgressOf, handlerUserId_decorate]
    rfl
  · unfold markWatched
    rw [route_auth_caller _ env req db u hcaller]
    unfold markWatchedHandler
    simp only [handlerUserId_decorate, videoProgressUpsert]
    split <;> simp
  · unfold videoProgress
    rw [route_auth_caller _ env req db u hcaller]
    simp [videoProgressHandler, handlerUserId_decorate, videoProgressFindUnique]

/-- C9, the failing input: student s2, who has watched nothing, asks for the
progress of course c1 and is shown video v1 as watched (the row is student
s1's); marking v1 as watched and reading its progress both answer 500. -/
theorem handler_user_id_undefined_witness :
    handlerUserId (decorate (sampleRequest tokenStudent2 "c1" {})
        { id := some "s2", name := some "Sue", role := "USER" }) = .ok none ∧
    courseProgressOf (decorate (sampleRequest tokenStudent2 "c1" {})
        { id := some "s2", name := some "Sue", role := "USER" }) sampleStore
      = .ok [{ id := "v1", title := "Intro", watched := true }] ∧
    markWatched sampleEnv (sampleRequest tokenStudent2 "v1" {}) sampleStore
      = (⟨500, .msg "Server error"⟩, sampleStore) ∧
    videoProgress sampleEnv (sampleRequest tokenStudent2 "v1" {}) sampleStore
      = (⟨500, .msg "Server error"⟩, sampleStore) :=
  ⟨(handler_user_id_undefined sampleEnv (sampleRequest tokenStudent2 "c1" {}) sampleStore
      { id := some "s2", name := some "Sue", role := "USER" } (by decide)).2.2.1,
    by rfl, by decide,
    (handler_user_id_undefined sampleEnv (sampleRequest tokenStudent2 "v1" {}) sampleStore
      { id := some "s2", name := some "Sue", role := "USER" } (by decide)).2.2.2.2.2⟩

/-- C10 fails on the code: `POST /courses/:id/enroll` never creates an
Enrollment row and never answers 201. For an authenticated caller and an
existing course the call answers 400 when any enrollment for the course is
stored and 500 otherwise (the create is given no `userId`); for a course that
does not exist it answers 404. -/
theorem enroll_never_creates (env : Env) (req : Request) (db : Store) :
    (enroll env req db).2 = db ∧
    (enroll env req db).1.status ≠ 201 ∧
    (∀ u, caller env req = some u →
      (courseFindUnique db req.paramId = none →
        enroll env req db = (⟨404, .msg "Course not found"⟩, db)) ∧
      (∀ c, courseFindUnique db req.paramId = some c →
        enroll env req db =
          if db.enrollments.any (fun e => e.courseId == req.paramId)
          then (⟨400, .msg "Already enrolled in this course"⟩, db)
          else (⟨500, .msg "Server error"⟩, db))) := by
  have hmain : ∀ u, caller env req = some u →
      enroll env req db =
        match courseFindUnique db req.paramId with
        | none => (⟨404, .msg "Course not found"⟩, db)
        | some _ =>
          if db.enrollments.any (fun e => e.courseId == req.paramId)
          then (⟨400, .msg "Already enrolled in this course"⟩, db)
          else (⟨500, .msg "Server error"⟩, db) := by
    intro u hu
    unfold enroll
    rw [route_auth_caller _ env req db u hu]
    unfold enrollHandler
    have hparam : (decorate req u).paramId = req.paramId := rfl
    simp only [handlerUserId_decorate, hparam]
    rcases hc : courseFindUnique db req.paramId with _ | c
    · rfl
    · simp only []
      rcases hf : enrollmentFindFirst db none req.paramId with _ | e
      · have hany : db.enrollments.any (fun e => e.courseId == req.paramId) = false := by
          unfold enrollmentFindFirst at hf
          rw [List.find?_eq_none] at hf
          rw [List.any_eq_false]
          intro x hx
          simpa using hf x hx
        simp [hany, enrollmentCreate]
      · have hany : db.enrollments.any (fun e => e.courseId == req.paramId) = true := by
          unfold enrollmentFindFirst at hf
          rw [List.any_eq_true]
          exact ⟨e, List.mem_of_find?_eq_some hf, by simpa using List.find?_some hf⟩
        simp [hany]
  rcases hcall : caller env req with _ | u
  · obtain ⟨h1, h2⟩ := route_auth_error enrollHandler env req db hcall
    refine ⟨h1, ?_, fun u hu => absurd hu (by simp)⟩
    unfold enroll
    rw [h2]
    decide
  · have h := hmain u hcall
    refine ⟨?_, ?_, ?_⟩
    · rw [h]
      split
      · rfl
      · split <;> rfl
    · rw [h]
      split
      · simp
      · split <;> simp
    · intro _ _
      constructor
      · intro hn
        rw [h, hn]
      · intro c hc
        rw [h, hc]

/-- C10, the failing input: student s1 enrolls in the existing course c1, in
which nobody is enrolled; the first call answers 500 and stores no row, and so
does the second. -/
theorem enroll_never_creates_witness :
    enroll sampleEnv (sampleRequest tokenStudent "c1" {}) sampleStore
      = (⟨500, .msg "Server error"⟩, sampleStore) ∧
    (enroll sampleEnv (sampleRequest tokenStudent "c1" {})
        (enroll sampleEnv (sampleRequest tokenStudent "c1" {}) sampleStore).2).2.enrollments
      = [] :=
  ⟨((enroll_never_creates sampleEnv (sampleRequest tokenStudent "c1" {}) sampleStore).2.2
      { id := some "s1", name := some "Sam", role := "USER" } (by decide)).2
      courseK8s (by decide),
    by decide⟩

/-! ### C11: marking a video as watched -/

/-- C11 fails on the code: `POST /videos/:id/watched` never writes a
VideoProgress row and never answers 200. For an authenticated caller it
answers 404 when the video does not exist and 500 when it exists (the upsert
is given a key without `userId`); so after two calls the store has no row for
the (student, video) pair unless one was there before. -/
theorem mark_watched_never_writes (env : Env) (req : Request) (db : Store) :
    (markWatched env req db).2 = db ∧
    (markWatched env req db).1.status ≠ 200 ∧
    (∀ u, caller env req = some u →
      (videoFindUnique db req.paramId = none →
        markWatched env req db = (⟨404, .msg "Video not found"⟩, db)) ∧
      (∀ v, videoFindUnique db req.paramId = some v →
        markWatched env req db = (⟨500, .msg "Server error"⟩, db))) := by
  rcases hcall : caller env req with _ | u
  · obtain ⟨h1, h2⟩ := route_auth_error markWatchedHandler env req db hcall
    refine ⟨h1, ?_, fun u hu => absurd hu (by simp)⟩
    unfold markWatched
    rw [h2]
    decide
  · have hparam : (decorate req u).paramId = req.paramId := rfl
    have h : markWatched env req db =
        match videoFindUnique db req.paramId with
        | none => (⟨404, .msg "Video not found"⟩, db)
        | some _ => (⟨500, .msg "Server error"⟩, db) := by
      unfold markWatched
      rw [route_auth_caller _ env req db u hcall]
      unfold markWatchedHandler
      simp only [handlerUserId_decorate, hparam, videoProgressUpsert]
    refine ⟨?_, ?_, ?_⟩
    · rw [h]
      split <;> rfl
    · rw [h]
      split <;> simp
    · intro _ _
      constructor
      · intro hn
        rw [h, hn]
      · intro v hv
        rw [h, hv]

/-- C11, the failing input: student s2 marks the existing video v1 as watched
twice; both calls answer 500 and the store holds no row for (s2, v1). -/
theorem mark_watched_never_writes_witness :
    markWatched sampleEnv (sampleRequest tokenStudent2 "v1" {}) sampleStore
      = (⟨500, .msg "Server error"⟩, sampleStore) ∧
    ((markWatched sampleEnv (sampleRequest tokenStudent2 "v1" {})
        (markWatched sampleEnv (sampleRequest tokenStudent2 "v1" {}) sampleStore).2).2.videoProgress.filter
        (fun p => p.userId == "s2" && p.videoId == "v1")) = [] :=
  ⟨((mark_watched_never_writes sampleEnv (sampleRequest tokenStudent2 "v1" {}) sampleStore).2.2
      { id := some "s2", name := some "Sue", role := "USER" } (by decide)).2
      videoIntro (by decide),
    by decide⟩

/-! ### C13: the progress list of a course -/

/-- C13 fails on the code. For every authenticated caller, `GET
/courses/:id/progress` answers 200 with one entry per video of the course (in
the order of the video table), but an entry is flagged watched exactly when
some VideoProgress row with `watched = true` has its video id, whoever the
row belongs to: the caller does not figure in the answer, so other users' rows
change the list. -/
theorem course_progress_counts_every_user (env : Env) (req : Request) (db : Store)
    (u : SafeUser) (hcaller : caller env req = some u) :
    courseProgress env req db
      = (⟨200, .courseProgress req.paramId
            (completionRateOf
              ((courseProgressEntries db none req.paramId).filter (fun e => e.watched)).length
              (db.videos.filter (fun v => v.courseId == req.paramId)).length)
            (courseProgressEntries db none req.paramId)⟩, db) ∧
    (courseProgressEntries db none req.paramId).map (·.id)
      = (db.videos.filter (fun v => v.courseId == req.paramId)).map (·.id) ∧
    ∀ e ∈ courseProgressEntries db none req.paramId, (e.watched = true ↔
      ∃ p ∈ db.videoProgress, p.watched = true ∧ p.videoId = e.id) := by
  have hparam : (decorate req u).paramId = req.paramId := rfl
  refine ⟨?_, ?_, ?_⟩
  · unfold courseProgress
    rw [route_auth_caller _ env req db u hcaller]
    unfold courseProgressHandler
    simp only [handlerUserId_decorate, hparam]
  · simp [courseProgressEntries]
  · intro e he
    simp only [courseProgressEntries, videoProgressFindMany, List.mem_map, List.mem_filter] at he
    obtain ⟨v, _, rfl⟩ := he
    simp only [List.contains_eq_any_beq, List.any_eq_true, List.mem_map, List.mem_filter,
      beq_iff_eq]
    constructor
    · rintro ⟨x, ⟨p, ⟨hp, hw⟩, rfl⟩, hx⟩
      exact ⟨p, hp, hw, hx.symm⟩
    · rintro ⟨p, hp, hw, hx⟩
      exact ⟨p.videoId, ⟨p, ⟨hp, hw⟩, rfl⟩, hx.symm⟩

/-- C13, the failing input: student s2 has no progress row; with student s1's
row for v1 in the store, s2 is shown v1 as watched and a completion rate of
100.0, and without that row v1 is shown as not watched with rate 0.0. -/
theorem course_progress_counts_every_user_witness :
    courseProgress sampleEnv (sampleRequest tokenStudent2 "c1" {}) sampleStore
      = (⟨200, .courseProgress "c1" "100.0" [{ id := "v1", title := "Intro", watched := true }]⟩,
          sampleStore) ∧
    (courseProgress sampleEnv (sampleRequest tokenStudent2 "c1" {})
        { sampleStore with videoProgress := [] }).1
      = ⟨200, .courseProgress "c1" "0.0" [{ id := "v1", title := "Intro", watched := false }]⟩ :=
  ⟨(course_progress_counts_every_user sampleEnv (sampleRequest tokenStudent2 "c1" {})
      sampleStore { id := some "s2", name := some "Sue", role := "USER" } (by decide)).1.trans
      (by decide),
    by decide⟩

/-! ### C14: cascade deletion of a course -/

theorem guarded_store_of_no_caller (R : List String) (h : Handler) (env : Env) (req : Request)
    (db : Store) (hc : caller env req = none) : (guarded R h env req db).2 = db := by
  rw [guarded_eq]
  unfold authRequires
  unfold caller at hc
  rcases ha : auth env req with r | req'
  · rfl
  · obtain ⟨t, d, _, _, _, _, hreq⟩ := auth_ok ha
    simp [ha, hreq, decorate] at hc

/-- C14. `DELETE /courses/:id` changes the store only when it answers 200 (no
partial deletion is observable). For every existing course `c` that the
authenticated caller may delete (an ADMIN, or the TEACHER who owns it), it
answers 200 and, in one step, the tables of courses, videos, enrollments, mock
tests and certificates keep exactly the rows that do not belong to the deleted
course, unchanged and in their order; the other tables are unchanged. -/
theorem delete_course_cascade (env : Env) (req : Request) (db : Store) :
    ((deleteCourse env req db).1.status ≠ 200 → (deleteCourse env req db).2 = db) ∧
    (∀ c u, caller env req = some u → courseFindUnique db req.paramId = some c →
      (u.role = "ADMIN" ∨ (u.role = "TEACHER" ∧ u.id = some c.teacherId)) →
      (deleteCourse env req db).1 = ⟨200, .msg "deleted"⟩ ∧
      (deleteCourse env req db).2.courses = db.courses.filter (fun x => x.id != req.paramId) ∧
      (deleteCourse env req db).2.videos
        = db.videos.filter (fun x => x.courseId != req.paramId) ∧
      (deleteCourse env req db).2.enrollments
        = db.enrollments.filter (fun x => x.courseId != req.paramId) ∧
      (deleteCourse env req db).2.mockTests
        = db.mockTests.filter (fun x => x.courseId != req.paramId) ∧
      (deleteCourse env req db).2.certificates
        = db.certificates.filter (fun x => x.courseId != req.paramId) ∧
      (deleteCourse env req db).2.users = db.users ∧
      (deleteCourse env req db).2.videoProgress = db.videoProgress ∧
      (∀ x ∈ (deleteCourse env req db).2.courses, x.id ≠ req.paramId) ∧
      (∀ x ∈ (deleteCourse env req db).2.videos, x.courseId ≠ req.paramId) ∧
      (∀ x ∈ (deleteCourse env req db).2.enrollments, x.courseId ≠ req.paramId) ∧
      (∀ x ∈ (deleteCourse env req db).2.mockTests, x.courseId ≠ req.paramId) ∧
      (∀ x ∈ (deleteCourse env req db).2.certificates, x.courseId ≠ req.paramId)) := by
  constructor
  · intro hne
    rcases hcall : caller env req with _ | u
    · exact guarded_store_of_no_caller _ _ env req db hcall
    · unfold deleteCourse at hne ⊢
      rw [guarded_caller _ _ env req db u hcall (by simp)] at hne ⊢
      split at hne
      · rw [if_pos (by assumption)]
        unfold deleteCourseHandler at hne ⊢
        rcases hc : courseFindUnique db (decorate req u).paramId with _ | c
        · simp only [hc]
        · simp only [hc] at hne ⊢
          split at hne
          · rw [if_pos (by assumption)]
          · exact absurd rfl hne
      · rw [if_neg (by assumption)]
  · intro c u hcaller hcourse hmay
    obtain ⟨_, hid, hu⟩ := caller_some hcaller
    have hrole := requesterRole_decorate req u hu
    have hreqid := requesterId_decorate req u hid
    have hparam : (decorate req u).paramId = req.paramId := rfl
    have hmem : u.role ∈ ["TEACHER", "ADMIN"] := by
      rcases hmay with h | ⟨h, _⟩ <;> simp [h]
    have hpass : (requesterRole (decorate req u) == "TEACHER"
        && c.teacherId != requesterId (decorate req u)) = false := by
      rcases hmay with h | ⟨_, h⟩
      · rw [hrole, h]
        simp
      · rw [h] at hreqid
        have : requesterId (decorate req u) = c.teacherId := Option.some.inj hreqid
        simp [this]
    unfold deleteCourse
    rw [guarded_caller _ _ env req db u hcaller (by simp)]
    simp only [hmem, if_true]
    unfold deleteCourseHandler
    simp only [hparam, hcourse, hpass, Bool.false_eq_true, if_false]
    simp

/-- C14, the scenario: the administrator deletes course c1 (3 videos, 2
enrollments, 1 mock test, 1 certificate); afterwards only the rows of course c2
are left, and the progress row is untouched. -/
theorem delete_course_cascade_witness :
    deleteCourse sampleEnv (sampleRequest tokenAdmin "c1" {}) cascadeStore
      = (⟨200, .msg "deleted"⟩,
          { cascadeStore with
            courses := [{ id := "c2", title := "Go 101", teacherId := "tY" }]
            videos := [{ id := "v2", courseId := "c2" }]
            enrollments := [{ id := "e2", userId := "s1", courseId := "c2" }]
            mockTests := [{ id := "m2", courseId := "c2" }]
            certificates := [{ id := "k2", userId := "s1", courseId := "c2" }] }) ∧
    (deleteCourse sampleEnv (sampleRequest tokenAdmin "c1" {}) cascadeStore).2.videos
      = cascadeStore.videos.filter (fun x => x.courseId != "c1") :=
  ⟨by decide,
    ((delete_course_cascade sampleEnv (sampleRequest tokenAdmin "c1" {}) cascadeStore).2
      courseK8s { id := some "a1", name := some "Root", role := "ADMIN" }
      (by decide) (by decide) (Or.inl rfl)).2.2.1⟩

/-! ### C15: the window of the daily series -/

theorem auth_with_query (env : Env) (req : Request) (q : Query) :
    auth env { req with query := q }
      = match auth env req with
        | .error r => .error r
        | .ok r => .ok { r with query := q } := by
  unfold auth
  simp only []
  split
  · rfl
  · split
    · rfl
    · split
      · rfl
      · split
        · rfl
        · split <;> rfl

theorem getAdminStats_status_with_query (env : Env) (req : Request) (db : Store) (q : Query) :
    (getAdminStats env { req with query := q } db).1.status
      = (getAdminStats env req db).1.status := by
  unfold getAdminStats adminStats
  rw [guarded_eq, guarded_eq]
  unfold authRequires
  rw [auth_with_query]
  rcases auth env req with r | r
  · rfl
  · simp only [requires]
    rcases r.user with _ | u
    · rfl
    · by_cases hg : toUpperCase (strOrEmpty (some u.role)) = "ADMIN"
      · simp [hg, statsHandler]
      · simp [hg]

/-- C15. For every finite numeric `windowDays` value `w`, the window `GET
/admin/stats` computes the series with is `max(1, min(180, w))`, which lies in
`[1, 180]`; the status of the answer is the same as for any other query of
the same request (the request is not rejected because of `w`). In particular
`w = 0` gives 1 and `w = 500` gives 180. -/
theorem window_days_clamped (env : Env) (req : Request) (db : Store) (w : ℚ) :
    windowDaysOf { req.query with windowDays := some w } = max 1 (min 180 w) ∧
    (1 ≤ max 1 (min 180 w) ∧ max 1 (min 180 w) ≤ 180) ∧
    (statsBody env { req with query := { req.query with windowDays := some w } } db).usersSeries
      = dailyCountSQLite (db.users.map (·.createdAt))
          (startInstant env (max 1 (min 180 w))) (endInstant env) ∧
    (getAdminStats env { req with query := { req.query with windowDays := some w } } db).1.status
      = (getAdminStats env req db).1.status ∧
    windowDaysOf { req.query with windowDays := some 0 } = 1 ∧
    windowDaysOf { req.query with windowDays := some 500 } = 180 := by
  refine ⟨rfl, ⟨le_max_left _ _, max_le (by norm_num) (min_le_left _ _)⟩, rfl,
    getAdminStats_status_with_query env req db _, ?_, ?_⟩
  · simp [windowDaysOf]
  · simp [windowDaysOf]
    norm_num

/-- C15, concrete: the administrator's request with `windowDays=500` is
answered 200, and the window used is 180. -/
theorem window_days_clamped_witness :
    (getAdminStats sampleEnv
        { sampleRequest tokenAdmin "" {} with
          query := { (sampleRequest tokenAdmin "" {}).query with windowDays := some 500 } }
        sampleStore).1.status = 200 ∧
    windowDaysOf { (sampleRequest tokenAdmin "" {}).query with windowDays := some 500 } = 180 :=
  ⟨(window_days_clamped sampleEnv (sampleRequest tokenAdmin "" {}) sampleStore 500).2.2.2.1.trans
      (by decide),
    (window_days_clamped sampleEnv (sampleRequest tokenAdmin "" {}) sampleStore 500).2.2.2.2.2⟩

/-! ### C16: the category breakdown -/

theorem categoryKey_eq (c : Course) :
    categoryKey c = if jsTrim c.category = "" then "Uncategorized" else jsTrim c.category := by
  have h1 : jsTrim "Uncategorized" = "Uncategorized" := by decide
  have h2 : jsTrim "" = "" := by decide
  unfold categoryKey
  by_cases hc : c.category = ""
  · simp [hc, h1, h2]
  · by_cases hk : jsTrim c.category = "" <;> simp [hc, hk]

theorem categoryKey_ne_empty (c : Course) : categoryKey c ≠ "" := by
  rw [categoryKey_eq]
  split
  · decide
  · assumption

theorem categoryMapInv_step {m : List CategoryCount} {l : List Course} (c : Course)
    (h : CategoryMapInv m l) : CategoryMapInv (catMapIncrement m (categoryKey c)) (l ++ [c]) := by
  obtain ⟨hnd, hcount, hkey, hseen⟩ := h
  unfold catMapIncrement
  by_cases hany : m.any (fun e => e.category == categoryKey c) = true
  · rw [if_pos hany]
    have hcat : ∀ e : CategoryCount,
        (if e.category == categoryKey c then { e with count := e.count + 1 } else e).category
          = e.category := by
      intro e
      split <;> rfl
    refine ⟨?_, ?_, ?_, ?_⟩
    · rw [List.map_map]
      have : ((fun x : CategoryCount => x.category) ∘ fun e =>
          if e.category == categoryKey c then { e with count := e.count + 1 } else e)
          = fun x => x.category := funext hcat
      rw [this]
      exact hnd
    · intro e' he'
      obtain ⟨e, he, rfl⟩ := List.mem_map.mp he'
      rw [hcat, List.countP_append]
      by_cases hk : e.category = categoryKey c
      · simp [hk, hcount e he]
      · have hk' : ¬ categoryKey c = e.category := fun x => hk x.symm
        simp [hk, hk', hcount e he]
    · intro e' he'
      obtain ⟨e, he, rfl⟩ := List.mem_map.mp he'
      rw [hcat]
      obtain ⟨c', hc', hkc⟩ := hkey e he
      exact ⟨c', List.mem_append_left _ hc', hkc⟩
    · intro c' hc'
      rcases List.mem_append.mp hc' with hin | hin
      · obtain ⟨e, he, hke⟩ := hseen c' hin
        exact ⟨_, List.mem_map.mpr ⟨e, he, rfl⟩, by rw [hcat]; exact hke⟩
      · have hcc : c' = c := by simpa using hin
        subst hcc
        obtain ⟨e, he, hke⟩ := List.any_eq_true.mp hany
        exact ⟨_, List.mem_map.mpr ⟨e, he, rfl⟩, by rw [hcat]; simpa using hke⟩
  · rw [if_neg hany]
    have hnone : ∀ e ∈ m, e.category ≠ categoryKey c := by
      intro e he hk
      apply hany
      exact List.any_eq_true.mpr ⟨e, he, by simp [hk]⟩
    refine ⟨?_, ?_, ?_, ?_⟩
    · rw [List.map_append, List.nodup_append]
      refine ⟨hnd, by simp, ?_⟩
      intro a ha hb
      obtain ⟨e, he, rfl⟩ := List.mem_map.mp ha
      have : e.category = categoryKey c := by simpa using hb
      exact hnone e he this
    · intro e he
      rcases List.mem_append.mp he with hin | hin
      · have hk' : ¬ categoryKey c = e.category := fun x => hnone e hin x.symm
        rw [List.countP_append]
        simp [hk', hcount e hin]
      · have he' : e = { category := categoryKey c, count := 1 } := by simpa using hin
        subst he'
        rw [List.countP_append]
        have hzero : l.countP (fun c' => categoryKey c' == categoryKey c) = 0 := by
          rw [List.countP_eq_zero]
          intro c' hc' hk
          obtain ⟨e, he, hke⟩ := hseen c' hc'
          exact hnone e he (hke.trans (by simpa using hk))
        simp [hzero]
    · intro e he
      rcases List.mem_append.mp he with hin | hin
      · obtain ⟨c', hc', hkc⟩ := hkey e hin
        exact ⟨c', List.mem_append_left _ hc', hkc⟩
      · have he' : e = { category := categoryKey c, count := 1 } := by simpa using hin
        subst he'
        exact ⟨c, by simp, rfl⟩
    · intro c' hc'
      rcases List.mem_append.mp hc' with hin | hin
      · obtain ⟨e, he, hke⟩ := hseen c' hin
        exact ⟨e, List.mem_append_left _ he, hke⟩
      · have hcc : c' = c := by simpa using hin
        subst hcc
        exact ⟨{ category := categoryKey c', count := 1 },
          List.mem_append_right _ (List.mem_singleton.mpr rfl), rfl⟩

theorem categoryMapInv_categoryMap (l : List Course) : CategoryMapInv (categoryMap l) l := by
  induction l using List.reverseRecOn with
  | nil => exact ⟨List.nodup_nil, by simp [categoryMap], by simp [categoryMap], by simp⟩
  | append_singleton l c ih =>
    have : categoryMap (l ++ [c]) = catMapIncrement (categoryMap l) (categoryKey c) := by
      simp [categoryMap, List.foldl_append]
    rw [this]
    exact categoryMapInv_step c ih

theorem mem_categoryMap_of_mem_byCategory {courses : List Course} {e : CategoryCount}
    (he : e ∈ byCategory courses) : e ∈ categoryMap courses :=
  (List.mem_insertionSort _).mp (List.mem_of_mem_take he)

/-- C16. For every list of courses, `byCategory` of `GET /admin/stats` has at
most 12 entries, with non-increasing counts and distinct names; the name a
course is counted under is its category with surrounding whitespace removed,
or "Uncategorized" when that is empty (category empty or whitespace only); no
entry has an empty name, and the count of each entry is the number of courses
counted under its name. When there are at most 12 names, every course's name
has its entry. -/
theorem by_category_spec (courses : List Course) :
    (∀ env req db, (statsBody env req db).byCategory = byCategory db.courses) ∧
    (byCategory courses).length ≤ 12 ∧
    (byCategory courses).Pairwise (fun a b => b.count ≤ a.count) ∧
    ((byCategory courses).map (·.category)).Nodup ∧
    (∀ c : Course, categoryKey c
      = if jsTrim c.category = "" then "Uncategorized" else jsTrim c.category) ∧
    (∀ e ∈ byCategory courses, e.category ≠ "" ∧
      e.count = courses.countP (fun c => categoryKey c == e.category)) ∧
    ((categoryMap courses).length ≤ 12 →
      ∀ c ∈ courses, ∃ e ∈ byCategory courses, e.category = categoryKey c) := by
  obtain ⟨hnd, hcount, hkey, hseen⟩ := categoryMapInv_categoryMap courses
  haveI : IsTotal CategoryCount (fun a b => b.count ≤ a.count) :=
    ⟨fun a b => le_total b.count a.count⟩
  haveI : IsTrans CategoryCount (fun a b => b.count ≤ a.count) :=
    ⟨fun _ _ _ hab hbc => le_trans hbc hab⟩
  have hsorted := List.sorted_insertionSort (fun a b : CategoryCount => b.count ≤ a.count)
    (categoryMap courses)
  have hperm := List.perm_insertionSort (fun a b : CategoryCount => b.count ≤ a.count)
    (categoryMap courses)
  refine ⟨fun _ _ _ => rfl, ?_, ?_, ?_, categoryKey_eq, ?_, ?_⟩
  · unfold byCategory
    rw [List.length_take]
    exact Nat.min_le_left _ _
  · exact List.Pairwise.sublist (List.take_sublist _ _) hsorted
  · have h1 : ((categoryMap courses).insertionSort
        (fun a b => b.count ≤ a.count)).map (·.category) |>.Nodup :=
      (List.Perm.nodup_iff (hperm.map _)).mpr hnd
    exact List.Nodup.sublist ((List.take_sublist _ _).map _) h1
  · intro e he
    have hm := mem_categoryMap_of_mem_byCategory he
    obtain ⟨c, _, hc⟩ := hkey e hm
    exact ⟨hc ▸ categoryKey_ne_empty c, hcount e hm⟩
  · intro hlen c hc
    obtain ⟨e, he, hke⟩ := hseen c hc
    refine ⟨e, ?_, hke⟩
    unfold byCategory
    rw [List.take_of_length_le (by rw [List.length_insertionSort]; exact hlen)]
    exact (List.mem_insertionSort _).mpr he

/-- C16, concrete: four courses in three categories, one of them blank. -/
theorem by_category_spec_witness :
    byCategory
        [ { id := "c1", category := " Cloud " }, { id := "c2", category := "Go" },
          { id := "c3", category := "Cloud" }, { id := "c4", category := "  " } ]
      = [ { category := "Cloud", count := 2 }, { category := "Go", count := 1 },
          { category := "Uncategorized", count := 1 } ] ∧
    (byCategory
        [ { id := "c1", category := " Cloud " }, { id := "c2", category := "Go" },
          { id := "c3", category := "Cloud" }, { id := "c4", category := "  " } ]).length ≤ 12 :=
  ⟨by decide,
    (by_category_spec
        [ { id := "c1", category := " Cloud " }, { id := "c2", category := "Go" },
          { id := "c3", category := "Cloud" }, { id := "c4", category := "  " } ]).2.1⟩

/-! ### C17: the top courses by number of videos -/

theorem sortByVideos_filter (rows : List TopCourse) (k : Nat) :
    (sortByVideos rows).filter (fun x => x.videos == k) = rows.filter (fun x => x.videos == k) := by
  have hpw : (rows.filter (fun x => x.videos == k)).Pairwise (fun a b => b.videos ≤ a.videos) := by
    rw [List.pairwise_iff_forall_sublist]
    intro a b hab
    have ha : a ∈ rows.filter (fun x => x.videos == k) := hab.subset (by simp)
    have hb : b ∈ rows.filter (fun x => x.videos == k) := hab.subset (by simp)
    simp only [List.mem_filter, beq_iff_eq] at ha hb
    rw [ha.2, hb.2]
  have hsub : List.Sublist (rows.filter (fun x => x.videos == k)) (sortByVideos rows) :=
    List.sublist_insertionSort hpw (List.filter_sublist _)
  have hsub2 := hsub.filter (fun x => x.videos == k)
  rw [List.filter_filter] at hsub2
  simp only [Bool.and_self] at hsub2
  have hperm : List.Perm ((sortByVideos rows).filter (fun x => x.videos == k))
      (rows.filter (fun x => x.videos == k)) :=
    (List.perm_insertionSort _ rows).filter _
  exact (hsub2.eq_of_length hperm.length_eq.symm).symm

/-- C17. For every store, with its `n` courses in retrieval order,
`topCoursesByVideos` of `GET /admin/stats` has `min(5, n)` entries, sorted by
video count in non-increasing order; the courses with one and the same video
count appear in their retrieval order (the top list holds a prefix of them);
the entries kept and the entries left out are together the `n` courses, and
every entry left out has a video count no greater than any entry kept, the
last one in particular. -/
theorem top_courses_spec (db : Store) :
    (∀ env req, (statsBody env req db).topCoursesByVideos = topCoursesByVideos db) ∧
    (topCoursesByVideos db).length = min 5 db.courses.length ∧
    (topCoursesByVideos db).Pairwise (fun a b => b.videos ≤ a.videos) ∧
    (∀ k, (sortByVideos (courseCounts db)).filter (fun x => x.videos == k)
      = (courseCounts db).filter (fun x => x.videos == k)) ∧
    (∀ k, List.IsPrefix ((topCoursesByVideos db).filter (fun x => x.videos == k))
      ((courseCounts db).filter (fun x => x.videos == k))) ∧
    List.Perm (topCoursesByVideos db ++ (sortByVideos (courseCounts db)).drop 5)
      (courseCounts db) ∧
    (∀ x ∈ (sortByVideos (courseCounts db)).drop 5, ∀ y ∈ topCoursesByVideos db,
      x.videos ≤ y.videos) := by
  haveI : IsTotal TopCourse (fun a b => b.videos ≤ a.videos) :=
    ⟨fun a b => le_total b.videos a.videos⟩
  haveI : IsTrans TopCourse (fun a b => b.videos ≤ a.videos) :=
    ⟨fun _ _ _ hab hbc => le_trans hbc hab⟩
  have hsorted : (sortByVideos (courseCounts db)).Sorted (fun a b => b.videos ≤ a.videos) :=
    List.sorted_insertionSort _ _
  refine ⟨fun _ _ => rfl, ?_, ?_, fun k => sortByVideos_filter _ k, ?_, ?_, ?_⟩
  · simp [topCoursesByVideos, sortByVideos, courseCounts, List.length_insertionSort]
  · exact List.Pairwise.sublist (List.take_sublist _ _) hsorted
  · intro k
    rw [← sortByVideos_filter (courseCounts db) k]
    exact (List.take_prefix 5 _).filter _
  · unfold topCoursesByVideos
    rw [List.take_append_drop]
    exact List.perm_insertionSort _ _
  · intro x hx y hy
    exact hsorted.rel_of_mem_take_of_mem_drop hy hx

/-- C17, concrete: six courses with 1, 3, 0, 3, 2 and 1 videos; the two courses
with 3 videos and the two with 1 video keep their order, the course without
videos is left out. -/
theorem top_courses_spec_witness :
    (topCoursesByVideos
        { courses := [{ id := "a" }, { id := "b" }, { id := "c" }, { id := "d" }, { id := "e" },
            { id := "f" }]
          videos :=
            [ { id := "v1", courseId := "a" }, { id := "v2", courseId := "b" },
              { id := "v3", courseId := "b" }, { id := "v4", courseId := "b" },
              { id := "v5", courseId := "d" }, { id := "v6", courseId := "d" },
              { id := "v7", courseId := "d" }, { id := "v8", courseId := "e" },
              { id := "v9", courseId := "e" }, { id := "v10", courseId := "f" } ] }).map
        (fun x => (x.id, x.videos))
      = [("b", 3), ("d", 3), ("e", 2), ("a", 1), ("f", 1)] ∧
    (topCoursesByVideos
        { courses := [{ id := "a" }, { id := "b" }, { id := "c" }, { id := "d" }, { id := "e" },
            { id := "f" }]
          videos :=
            [ { id := "v1", courseId := "a" }, { id := "v2", courseId := "b" },
              { id := "v3", courseId := "b" }, { id := "v4", courseId := "b" },
              { id := "v5", courseId := "d" }, { id := "v6", courseId := "d" },
              { id := "v7", courseId := "d" }, { id := "v8", courseId := "e" },
              { id := "v9", courseId := "e" }, { id := "v10", courseId := "f" } ] }).length
      = min 5 6 :=
  ⟨by decide,
    (top_courses_spec
        { courses := [{ id := "a" }, { id := "b" }, { id := "c" }, { id := "d" }, { id := "e" },
            { id := "f" }]
          videos :=
            [ { id := "v1", courseId := "a" }, { id := "v2", courseId := "b" },
              { id := "v3", courseId := "b" }, { id := "v4", courseId := "b" },
              { id := "v5", courseId := "d" }, { id := "v6", courseId := "d" },
              { id := "v7", courseId := "d" }, { id := "v8", courseId := "e" },
              { id := "v9", courseId := "e" }, { id := "v10", courseId := "f" } ] }).2.1⟩

/-! ### C18: the daily series -/

theorem truncate_intCast (n : ℤ) : truncate (n : ℚ) = n := by
  unfold truncate
  split <;> simp

theorem windowStartDay_int (today n : ℤ) : windowStartDay today (n : ℚ) = today - n + 1 := by
  unfold windowStartDay
  simp only []
  have h : (((civilFromDays today.toNat).2.2 : ℤ) : ℚ) - (n : ℚ) + 1
      = (((((civilFromDays today.toNat).2.2 : ℤ)) - n + 1 : ℤ) : ℚ) := by
    push_cast
    ring
  rw [h, truncate_intCast]
  ring

/-- C18 fails on the code. A server two hours ahead of UTC is asked at local
noon of 2024-03-10 for `windowDays = 1`. The window runs from local midnight to
local midnight (22:00 UTC to 22:00 UTC), the rows are grouped by their UTC day:
two users created on that one local day, the first of them on the previous
UTC day, come out as two dates, more than `windowDays`. -/
theorem daily_series_mixes_time_zones :
    localToday seriesEnv = 19792 ∧
    seriesStore.users.map (fun u =>
        ((u.createdAt : Int) + seriesEnv.tzOffsetMinutes * 60000) / (msPerDay : Int))
      = [19792, 19792] ∧
    (statsBody seriesEnv seriesRequest seriesStore).usersSeries
      = [{ date := "2024-03-09", value := 1 }, { date := "2024-03-10", value := 1 }] := by
  refine ⟨by decide, by decide, ?_⟩
  have hw : windowDaysOf seriesRequest.query = ((1 : ℤ) : ℚ) := by
    simp [windowDaysOf, seriesRequest]
  show dailyCountSQLite (seriesStore.users.map (·.createdAt))
      (startInstant seriesEnv (windowDaysOf seriesRequest.query)) (endInstant seriesEnv) = _
  rw [hw]
  unfold startInstant
  rw [windowStartDay_int]
  decide

/-! ### C19: registration -/

theorem char_toLower_idem (c : Char) : c.toLower.toLower = c.toLower := by
  by_cases h : c.toNat ≥ 65 ∧ c.toNat ≤ 90
  · have hc : c = Char.ofNat c.toNat := (Char.ofNat_toNat c).symm
    obtain ⟨h1, h2⟩ := h
    generalize c.toNat = n at hc h1 h2
    subst hc
    interval_cases n <;> decide
  · have hfix : c.toLower = c := by
      unfold Char.toLower
      simp only [h, if_false]
    rw [hfix, hfix]

theorem toLowerCase_idem (s : String) : toLowerCase (toLowerCase s) = toLowerCase s := by
  unfold toLowerCase
  simp only [List.map_map]
  congr 1
  apply List.map_congr_left
  intro c _
  exact char_toLower_idem c

theorem userFindUniqueByEmail_isSome {db : Store} {email : String} {u : User}
    (hu : u ∈ db.users) (he : u.email = email) :
    ∃ v, userFindUniqueByEmail db email = some v := by
  unfold userFindUniqueByEmail
  rcases hf : db.users.find? (fun x => x.email == email) with _ | v
  · rw [List.find?_eq_none] at hf
    exact absurd (by simpa using he) (hf u hu)
  · exact ⟨v, by first | rfl | exact hf⟩

/-- C19. For every `POST /users/register` with a valid email, a password and a
name and with role omitted, on an email (in lower case) not yet stored: the
answer is 201 and exactly one user is added, with role "USER" and the email in
lower case, so stored emails stay in lower case. In every store whose emails
are in lower case, as all writes of the backend leave them, every such
register whose email equals a stored email up to letter case is answered 409
and leaves the store unchanged. -/
theorem register_creates_then_conflicts (env : Env) (req : Request) (db : Store)
    (hemail : okEmail req.body.email = true) (hpw : truthy req.body.password = true)
    (hname : truthy req.body.name = true) (hrole : req.body.role = none) :
    (userFindUniqueByEmail db (toLowerCase (req.body.email.getD "")) = none →
      registerHandler env req db
        = (⟨201, .registered "Registration successful"
              { id := env.newId, name := req.body.name.getD "",
                email := toLowerCase (req.body.email.getD ""), role := "USER" }⟩,
            { db with users := db.users ++ [registeredUser env req.body "USER"] }) ∧
      (registeredUser env req.body "USER").role = "USER" ∧
      toLowerCase (registeredUser env req.body "USER").email
        = (registeredUser env req.body "USER").email) ∧
    ((∀ u ∈ db.users, toLowerCase u.email = u.email) →
      (∃ u ∈ db.users, toLowerCase u.email = toLowerCase (req.body.email.getD "")) →
      registerHandler env req db = (⟨409, .msg "User already exists"⟩, db)) := by
  have hup : up req.body.role = "" := by rw [hrole]; rfl
  have hallowed : ALLOWED_ROLES.contains "USER" = true := by decide
  constructor
  · intro hfresh
    refine ⟨?_, rfl, toLowerCase_idem _⟩
    unfold registerHandler
    simp only [hemail, hpw, hname, hup, hfresh, Bool.not_true, Bool.or_self,
      Bool.false_eq_true, if_false, bne_self_eq_false, hallowed]
    rfl
  · intro hinv ⟨u, hu, hue⟩
    have hstored : u.email = toLowerCase (req.body.email.getD "") := by
      rw [← hinv u hu]
      exact hue
    obtain ⟨v, hv⟩ := userFindUniqueByEmail_isSome hu hstored
    unfold registerHandler
    simp only [hemail, hpw, hname, hup, hv, Bool.not_true, Bool.or_self,
      Bool.false_eq_true, if_false, bne_self_eq_false, hallowed]

/-- C19, the scenario: `a@b.com` registers with role omitted and gets 201 with
stored role USER; a second register with `A@B.com` is answered 409 and the
store stays as it was. -/
theorem register_creates_then_conflicts_witness :
    registerHandler sampleEnv
        { body := { email := some "a@b.com", password := some "secret1", name := some "A" } } {}
      = (⟨201, .registered "Registration successful"
            { id := "n1", name := "A", email := "a@b.com", role := "USER" }⟩,
          { users := [{ id := "n1", email := "a@b.com", password := bcryptHash "secret1",
                        name := "A", role := "USER" }] }) ∧
    registerHandler sampleEnv
        { body := { email := some "A@B.com", password := some "secret1", name := some "A" } }
        { users := [{ id := "n1", email := "a@b.com", password := bcryptHash "secret1",
                      name := "A", role := "USER" }] }
      = (⟨409, .msg "User already exists"⟩,
          { users := [{ id := "n1", email := "a@b.com", password := bcryptHash "secret1",
                        name := "A", role := "USER" }] }) :=
  ⟨by decide,
    (register_creates_then_conflicts sampleEnv
        { body := { email := some "A@B.com", password := some "secret1", name := some "A" } }
        { users := [{ id := "n1", email := "a@b.com", password := bcryptHash "secret1",
                      name := "A", role := "USER" }] }
        (by decide) (by decide) (by decide) rfl).2 (by decide)
      ⟨_, List.mem_singleton.mpr rfl, by decide⟩⟩

/-! ### C20: login -/

theorem up_of_trimmed (role : String) (h : jsTrim role = role) :
    up (some role) = toUpperCase role := by
  unfold up truthy
  by_cases hr : role = ""
  · subst hr
    decide
  · simp [hr, h]

/-- C20. For every `POST /users/login` the store is unchanged and: the answer
is 400 exactly when the email is not a string containing "@" or the password
is missing; it is 401 exactly when those two are present and no user is stored
under the email in lower case or the password does not match the stored hash;
otherwise, with `u` the stored user, it is 200 with an access token and a
refresh token which both verify (under their own secret) to the claims: `u`'s
id, `u`'s email in lower case, `u`'s role trimmed and in upper case (the role
in upper case when it has no surrounding whitespace) and `u`'s name. -/
theorem login_spec (env : Env) (req : Request) (db : Store) :
    (loginHandler env req db).2 = db ∧
    ((loginHandler env req db).1.status = 400 ↔
      (okEmail req.body.email = false ∨ truthy req.body.password = false)) ∧
    ((loginHandler env req db).1.status = 401 ↔
      (okEmail req.body.email = true ∧ truthy req.body.password = true ∧
        (userFindUniqueByEmail db (toLowerCase (req.body.email.getD "")) = none ∨
          ∃ u, userFindUniqueByEmail db (toLowerCase (req.body.email.getD "")) = some u ∧
            bcryptCompare (req.body.password.getD "") u.password = false))) ∧
    (∀ u, okEmail req.body.email = true → truthy req.body.password = true →
      userFindUniqueByEmail db (toLowerCase (req.body.email.getD "")) = some u →
      bcryptCompare (req.body.password.getD "") u.password = true →
      ∃ token refreshToken,
        (loginHandler env req db).1
          = ⟨200, .login "Login successful"
              { id := u.id, name := u.name, email := u.email, role := up (some u.role) }
              token refreshToken⟩ ∧
        jwtVerify token ACCESS_SECRET env.now
          = some { id := some u.id, email := some (toLowerCase u.email),
                   role := some (up (some u.role)), name := some u.name } ∧
        jwtVerify refreshToken REFRESH_SECRET env.now
          = some { id := some u.id, email := some (toLowerCase u.email),
                   role := some (up (some u.role)), name := some u.name } ∧
        (jsTrim u.role = u.role → up (some u.role) = toUpperCase u.role)) := by
  by_cases hv : (!okEmail req.body.email || !truthy req.body.password) = true
  · have hor : okEmail req.body.email = false ∨ truthy req.body.password = false := by
      simpa using hv
    have hres : loginHandler env req db = (⟨400, .msg "Email and password required"⟩, db) := by
      unfold loginHandler
      rw [if_pos hv]
    rw [hres]
    refine ⟨rfl, ⟨fun _ => hor, fun _ => rfl⟩, ⟨fun h => by simp at h, ?_⟩, ?_⟩
    · rintro ⟨h1, h2, _⟩
      rcases hor with h | h
      · rw [h1] at h; exact absurd h (by decide)
      · rw [h2] at h; exact absurd h (by decide)
    · intro u h1 h2
      rcases hor with h | h
      · rw [h1] at h; exact absurd h (by decide)
      · rw [h2] at h; exact absurd h (by decide)
  · have hok : okEmail req.body.email = true ∧ truthy req.body.password = true := by
      simpa using hv
    have hnot : ¬ (okEmail req.body.email = false ∨ truthy req.body.password = false) := by
      simp [hok.1, hok.2]
    rcases hf : userFindUniqueByEmail db (toLowerCase (req.body.email.getD "")) with _ | user
    · have hres : loginHandler env req db = (⟨401, .msg "Invalid credentials"⟩, db) := by
        unfold loginHandler
        rw [if_neg hv]
        simp only [hf]
      rw [hres]
      refine ⟨rfl, ⟨fun h => by simp at h, fun h => absurd h hnot⟩,
        ⟨fun _ => ⟨hok.1, hok.2, Or.inl rfl⟩, fun _ => rfl⟩, ?_⟩
      intro u _ _ hu
      exact absurd hu (by simp)
    · by_cases hc : bcryptCompare (req.body.password.getD "") user.password = true
      · have hres : loginHandler env req db
            = (⟨200, .login "Login successful"
                { id := user.id, name := user.name, email := user.email,
                  role := up (some user.role) }
                (jwtSign (loginPayload user) ACCESS_SECRET 86400 env.now)
                (jwtSign (loginPayload user) REFRESH_SECRET 604800 env.now)⟩, db) := by
          unfold loginHandler
          rw [if_neg hv]
          simp only [hf, hc, Bool.not_true, Bool.false_eq_true, if_false]
        rw [hres]
        refine ⟨rfl, ⟨fun h => by simp at h, fun h => absurd h hnot⟩,
          ⟨fun h => by simp at h, ?_⟩, ?_⟩
        · rintro ⟨_, _, h | ⟨u, hu, hcu⟩⟩
          · exact absurd h (by simp)
          · rw [Option.some.inj hu, hcu] at hc
            exact absurd hc (by decide)
        · intro u _ _ hu _
          have huu : user = u := Option.some.inj hu
          subst huu
          refine ⟨_, _, rfl, ?_, ?_, up_of_trimmed user.role⟩
          · simp [jwtSign, jwtVerify, loginPayload]
          · simp [jwtSign, jwtVerify, loginPayload]
      · have hcf : bcryptCompare (req.body.password.getD "") user.password = false := by
          simpa using hc
        have hres : loginHandler env req db = (⟨401, .msg "Invalid credentials"⟩, db) := by
          unfold loginHandler
          rw [if_neg hv]
          simp only [hf, hcf, Bool.not_false, if_true]
        rw [hres]
        refine ⟨rfl, ⟨fun h => by simp at h, fun h => absurd h hnot⟩,
          ⟨fun _ => ⟨hok.1, hok.2, Or.inr ⟨user, rfl, hcf⟩⟩, fun _ => rfl⟩, ?_⟩
        intro u _ _ hu hcu
        rw [← Option.some.inj hu, hcf] at hcu
        exact absurd hcu (by decide)

/-- C20, the scenario: student s1 logs in with the email in another letter
case and gets 200 with tokens whose role claim is USER; a wrong password gets
401 and a missing one 400. -/
theorem login_spec_witness :
    (loginHandler sampleEnv loginSam sampleStore).1
      = ⟨200, .login "Login successful"
          { id := "s1", name := "Sam", email := "s1@school.org", role := "USER" }
          (jwtSign claimsSam ACCESS_SECRET 86400 0) (jwtSign claimsSam REFRESH_SECRET 604800 0)⟩ ∧
    (loginHandler sampleEnv
        { body := { email := some "s1@school.org", password := some "wrong" } }
        sampleStore).1.status = 401 ∧
    (loginHandler sampleEnv { body := { email := some "s1@school.org" } } sampleStore).1.status
      = 400 :=
  ⟨by decide,
    ((login_spec sampleEnv
        { body := { email := some "s1@school.org", password := some "wrong" } }
        sampleStore).2.2.1).mpr
      ⟨by decide, by decide, Or.inr ⟨userSam, by decide, by decide⟩⟩,
    ((login_spec sampleEnv { body := { email := some "s1@school.org" } } sampleStore).2.1).mpr
      (Or.inr (by decide))⟩


/-! ### C12: the completion rate -/

theorem digit_length : ∀ d : Nat, d < 10 → (toString d).length = 1 := by decide

theorem bitLengthAux_zero (fuel : Nat) : bitLengthAux fuel 0 = 0 := by
  cases fuel <;> simp [bitLengthAux]

theorem bitLengthAux_bounds (fuel : Nat) : ∀ n, 0 < n → n ≤ fuel →
    2 ^ (bitLengthAux fuel n - 1) ≤ n ∧ n < 2 ^ bitLengthAux fuel n ∧ 0 < bitLengthAux fuel n := by
  induction fuel with
  | zero => intro n h1 h2; omega
  | succ f ih =>
    intro n hn hle
    have hne : n ≠ 0 := by omega
    simp only [bitLengthAux, hne, if_false]
    by_cases h2 : n / 2 = 0
    · have h1 : n = 1 := by omega
      subst h1
      simp [bitLengthAux_zero]
    · have hpos : 0 < n / 2 := by omega
      obtain ⟨hl, hu, hp⟩ := ih (n / 2) hpos (by omega)
      refine ⟨?_, ?_, by omega⟩
      · have : bitLengthAux f (n / 2) + 1 - 1 = (bitLengthAux f (n / 2) - 1) + 1 := by omega
        rw [this, pow_succ]
        omega
      · rw [pow_succ]
        omega

theorem bitLength_bounds {n : Nat} (hn : 0 < n) :
    2 ^ (bitLength n - 1) ≤ n ∧ n < 2 ^ bitLength n ∧ 0 < bitLength n :=
  bitLengthAux_bounds n n hn le_rfl

theorem roundDiv_error (a b : Nat) (hb : 0 < b) :
    |(roundDiv a b : ℚ) * b - a| ≤ (b : ℚ) / 2 := by
  have hdiv : b * (a / b) + a % b = a := Nat.div_add_mod a b
  have hmod : a % b < b := Nat.mod_lt a hb
  have hq : ((b : ℚ) * ((a / b : ℕ) : ℚ) + ((a % b : ℕ) : ℚ)) = (a : ℚ) := by
    exact_mod_cast hdiv
  have hbq : (0 : ℚ) < b := by exact_mod_cast hb
  unfold roundDiv
  simp only []
  split
  · rename_i h
    have h' : (2 : ℚ) * ((a % b : ℕ) : ℚ) < b := by exact_mod_cast h
    rw [abs_le]
    constructor <;> nlinarith [hq, h']
  · split
    · rename_i h1 h
      have h' : (b : ℚ) < 2 * ((a % b : ℕ) : ℚ) := by exact_mod_cast h
      have hm : ((a % b : ℕ) : ℚ) < b := by exact_mod_cast hmod
      push_cast
      rw [abs_le]
      constructor <;> nlinarith [hq, h', hm]
    · rename_i h1 h2
      have heq : 2 * (a % b) = b := by omega
      have h' : (2 : ℚ) * ((a % b : ℕ) : ℚ) = b := by exact_mod_cast heq
      split
      · rw [abs_le]
        constructor <;> nlinarith [hq, h']
      · push_cast
        rw [abs_le]
        constructor <;> nlinarith [hq, h']

theorem round_scaled (num den : ℕ) (hden : 0 < den) (T : ℚ) (hT : 0 < T) :
    (2 ^ 53 * den ≤ num →
      |(roundDiv num (2 * den) : ℚ) * (2 * T) - (num : ℚ) / den * T|
        ≤ (num : ℚ) / den * T / 2 ^ 53) ∧
    (2 ^ 52 * den ≤ num →
      |(roundDiv num den : ℚ) * T - (num : ℚ) / den * T| ≤ (num : ℚ) / den * T / 2 ^ 53) := by
  have hd : (0 : ℚ) < den := by exact_mod_cast hden
  constructor
  · intro h
    have hq : (2 : ℚ) ^ 53 ≤ (num : ℚ) / den := by
      rw [le_div_iff₀ hd]
      exact_mod_cast h
    have herr := roundDiv_error num (2 * den) (by omega)
    push_cast at herr
    have h1 : (roundDiv num (2 * den) : ℚ) * (2 * T) - (num : ℚ) / den * T
        = ((roundDiv num (2 * den) : ℚ) * (2 * den) - num) * (T / den) := by
      field_simp
      ring
    rw [h1, abs_mul, abs_of_pos (div_pos hT hd)]
    calc |(roundDiv num (2 * den) : ℚ) * (2 * den) - num| * (T / den)
        ≤ (2 * (den : ℚ) / 2) * (T / den) :=
          mul_le_mul_of_nonneg_right herr (div_pos hT hd).le
      _ = T := by field_simp
      _ ≤ (num : ℚ) / den * T / 2 ^ 53 := by
          rw [le_div_iff₀ (by positivity)]
          nlinarith
  · intro h
    have hq : (2 : ℚ) ^ 52 ≤ (num : ℚ) / den := by
      rw [le_div_iff₀ hd]
      exact_mod_cast h
    have herr := roundDiv_error num den hden
    have h1 : (roundDiv num den : ℚ) * T - (num : ℚ) / den * T
        = ((roundDiv num den : ℚ) * den - num) * (T / den) := by
      field_simp
      ring
    rw [h1, abs_mul, abs_of_pos (div_pos hT hd)]
    calc |(roundDiv num den : ℚ) * den - num| * (T / den)
        ≤ ((den : ℚ) / 2) * (T / den) :=
          mul_le_mul_of_nonneg_right herr (div_pos hT hd).le
      _ = T / 2 := by field_simp; ring
      _ ≤ (num : ℚ) / den * T / 2 ^ 53 := by
          rw [le_div_iff₀ (by positivity)]
          nlinarith

theorem ofRatio_error (a b : ℕ) (e0 : ℤ) (ha : 0 < a) (hb : 0 < b) :
    |(Double.ofRatio a b e0).toRat - (a : ℚ) / b * 2 ^ e0| ≤ (a : ℚ) / b * 2 ^ e0 / 2 ^ 53 := by
  obtain ⟨hal, _, hap⟩ := bitLength_bounds ha
  obtain ⟨_, hbu, _⟩ := bitLength_bounds hb
  have h2 : (2 : ℚ) ≠ 0 := by norm_num
  have key : ∀ (k : ℤ) (num den : ℕ), 0 < den → 2 ^ 52 * den ≤ num →
      (num : ℚ) / den * 2 ^ (e0 - k) = (a : ℚ) / b * 2 ^ e0 →
      |(if 2 ^ 53 * den ≤ num then (⟨roundDiv num (2 * den), e0 - k + 1⟩ : Double)
          else ⟨roundDiv num den, e0 - k⟩).toRat - (a : ℚ) / b * 2 ^ e0|
        ≤ (a : ℚ) / b * 2 ^ e0 / 2 ^ 53 := by
    intro k num den hden h52 hQ
    have hT : (0 : ℚ) < 2 ^ (e0 - k) := by positivity
    obtain ⟨hA, hB⟩ := round_scaled num den hden _ hT
    rw [← hQ]
    split
    · rename_i h
      have : (2 : ℚ) ^ (e0 - k + 1) = 2 * 2 ^ (e0 - k) := by
        rw [zpow_add_one₀ h2]
        ring
      simp only [Double.toRat, this]
      exact hA h
    · simp only [Double.toRat]
      exact hB h52
  unfold Double.ofRatio
  simp only [Nat.pos_iff_ne_zero.mp ha, if_false]
  by_cases hk : (0 : ℤ) ≤ 53 + (bitLength b : ℤ) - (bitLength a : ℤ)
  · simp only [hk, if_true]
    have hkn : ((53 + (bitLength b : ℤ) - (bitLength a : ℤ)).toNat : ℤ)
        = 53 + (bitLength b : ℤ) - (bitLength a : ℤ) := Int.toNat_of_nonneg hk
    apply key
    · exact hb
    · have e1 : bitLength a - 1 + (53 + (bitLength b : ℤ) - (bitLength a : ℤ)).toNat
          = 52 + bitLength b := by omega
      calc 2 ^ 52 * b ≤ 2 ^ 52 * 2 ^ bitLength b := Nat.mul_le_mul_left _ hbu.le
        _ = 2 ^ (bitLength a - 1) * 2 ^ (53 + (bitLength b : ℤ) - (bitLength a : ℤ)).toNat := by
            rw [← pow_add, ← pow_add, e1]
        _ ≤ a * 2 ^ (53 + (bitLength b : ℤ) - (bitLength a : ℤ)).toNat :=
            Nat.mul_le_mul_right _ hal
    · push_cast
      rw [← zpow_natCast (2 : ℚ), hkn]
      have : (2 : ℚ) ^ e0
          = 2 ^ (53 + (bitLength b : ℤ) - (bitLength a : ℤ))
            * 2 ^ (e0 - (53 + (bitLength b : ℤ) - (bitLength a : ℤ))) := by
        rw [← zpow_add₀ h2]
        congr 1
        ring
      rw [this]
      ring
  · simp only [hk, if_false]
    have hk' : (0 : ℤ) ≤ -(53 + (bitLength b : ℤ) - (bitLength a : ℤ)) := by omega
    have hkn : ((-(53 + (bitLength b : ℤ) - (bitLength a : ℤ))).toNat : ℤ)
        = -(53 + (bitLength b : ℤ) - (bitLength a : ℤ)) := Int.toNat_of_nonneg hk'
    apply key
    · exact Nat.mul_pos hb (by positivity)
    · have e1 : 52 + bitLength b + (-(53 + (bitLength b : ℤ) - (bitLength a : ℤ))).toNat
          = bitLength a - 1 := by omega
      calc 2 ^ 52 * (b * 2 ^ (-(53 + (bitLength b : ℤ) - (bitLength a : ℤ))).toNat)
          ≤ 2 ^ 52 * (2 ^ bitLength b * 2 ^ (-(53 + (bitLength b : ℤ) - (bitLength a : ℤ))).toNat) :=
            Nat.mul_le_mul_left _ (Nat.mul_le_mul_right _ hbu.le)
        _ = 2 ^ (bitLength a - 1) := by
            rw [← pow_add, ← pow_add, ← add_assoc, e1]
        _ ≤ a := hal
    · push_cast
      rw [← zpow_natCast (2 : ℚ), hkn]
      have hb' : (b : ℚ) ≠ 0 := by exact_mod_cast hb.ne'
      have : (2 : ℚ) ^ e0
          = 2 ^ (e0 - (53 + (bitLength b : ℤ) - (bitLength a : ℤ)))
            / 2 ^ (-(53 + (bitLength b : ℤ) - (bitLength a : ℤ))) := by
        rw [← zpow_sub₀ h2]
        congr 1
        ring
      rw [this]
      field_simp

theorem tenths_bounds (x : Double) :
    (x.tenths : ℚ) ≤ 10 * x.toRat + 1 / 2 ∧ 10 * x.toRat + 1 / 2 < (x.tenths : ℚ) + 1 := by
  unfold Double.tenths Double.toRat
  by_cases he : 0 ≤ x.e
  · simp only [he, if_true]
    have hkn : ((x.e.toNat : ℕ) : ℤ) = x.e := Int.toNat_of_nonneg he
    have h : (2 : ℚ) ^ x.e = 2 ^ x.e.toNat := by
      rw [← zpow_natCast (2 : ℚ), hkn]
    rw [h]
    push_cast
    constructor <;> nlinarith
  · simp only [he, if_false]
    have he' : (0 : ℤ) ≤ -x.e := by omega
    have hkn : (((-x.e).toNat : ℕ) : ℤ) = -x.e := Int.toNat_of_nonneg he'
    have h : (2 : ℚ) ^ x.e = 1 / 2 ^ (-x.e).toNat := by
      rw [← zpow_natCast (2 : ℚ), hkn, zpow_neg, one_div, inv_inv]
    rw [h]
    generalize (-x.e).toNat = k
    have hB : 0 < 2 ^ (k + 1) := by positivity
    have h1 : (20 * x.m + 2 ^ k) / 2 ^ (k + 1) * 2 ^ (k + 1) ≤ 20 * x.m + 2 ^ k :=
      Nat.div_mul_le_self _ _
    have h2 : 20 * x.m + 2 ^ k < ((20 * x.m + 2 ^ k) / 2 ^ (k + 1) + 1) * 2 ^ (k + 1) := by
      rw [Nat.add_mul, Nat.one_mul]
      have := Nat.div_add_mod (20 * x.m + 2 ^ k) (2 ^ (k + 1))
      have := Nat.mod_lt (20 * x.m + 2 ^ k) hB
      nlinarith
    have h1q : (((20 * x.m + 2 ^ k) / 2 ^ (k + 1) : ℕ) : ℚ) * 2 ^ (k + 1)
        ≤ 20 * (x.m : ℚ) + 2 ^ k := by exact_mod_cast h1
    have h2q : 20 * (x.m : ℚ) + 2 ^ k
        < ((((20 * x.m + 2 ^ k) / 2 ^ (k + 1) : ℕ) : ℚ) + 1) * 2 ^ (k + 1) := by exact_mod_cast h2
    have hk : (0 : ℚ) < 2 ^ k := by positivity
    have hval : 10 * ((x.m : ℚ) * (1 / 2 ^ k)) + 1 / 2
        = (20 * (x.m : ℚ) + 2 ^ k) / 2 ^ (k + 1) := by
      rw [pow_succ]
      field_simp
      ring
    rw [hval]
    have hB' : (0 : ℚ) < 2 ^ (k + 1) := by positivity
    constructor
    · rw [le_div_iff₀ hB']
      exact h1q
    · rw [div_lt_iff₀ hB']
      exact h2q

theorem toRat_nonneg (x : Double) : 0 ≤ x.toRat := by
  unfold Double.toRat
  positivity

theorem rate_value_error (W N : ℕ) (hN : 0 < N) (hWN : W ≤ N) :
    |((Double.div W N).mulNat 100).toRat - 100 * (W : ℚ) / N| ≤ 1 / 10 ^ 13 := by
  have hNq : (0 : ℚ) < N := by exact_mod_cast hN
  have hWq : (W : ℚ) / N ≤ 1 := by
    rw [div_le_one hNq]
    exact_mod_cast hWN
  have hWq0 : (0 : ℚ) ≤ (W : ℚ) / N := by positivity
  -- first rounding
  have h1 : |(Double.div W N).toRat - (W : ℚ) / N| ≤ (W : ℚ) / N / 2 ^ 53 := by
    by_cases hW : W = 0
    · subst hW
      simp [Double.div, Double.ofRatio, Double.toRat]
    · have := ofRatio_error W N 0 (Nat.pos_of_ne_zero hW) hN
      simpa [Double.div] using this
  -- second rounding
  have h2 : |((Double.div W N).mulNat 100).toRat - 100 * (Double.div W N).toRat|
      ≤ 100 * (Double.div W N).toRat / 2 ^ 53 := by
    by_cases hm : (Double.div W N).m = 0
    · have hz : (Double.div W N).toRat = 0 := by simp [Double.toRat, hm]
      simp [Double.mulNat, Double.ofRatio, hm, hz, Double.toRat]
    · have := ofRatio_error ((Double.div W N).m * 100) 1 (Double.div W N).e
        (Nat.mul_pos (Nat.pos_of_ne_zero hm) (by norm_num)) (by norm_num)
      have hv : (((Double.div W N).m * 100 : ℕ) : ℚ) / ((1 : ℕ) : ℚ) * 2 ^ (Double.div W N).e
          = 100 * (Double.div W N).toRat := by
        simp only [Double.toRat]
        push_cast
        ring
      rw [hv] at this
      exact this
  have hq : 100 * (W : ℚ) / N = 100 * ((W : ℚ) / N) := by ring
  rw [hq]
  generalize ((Double.div W N).mulNat 100).toRat = v2 at h2
  generalize (Double.div W N).toRat = v1 at h1 h2
  generalize (W : ℚ) / N = q at h1 hWq hWq0
  have hu : (0 : ℚ) < 2 ^ 53 := by positivity
  have hq1 : q / 2 ^ 53 ≤ 1 / 2 ^ 53 := div_le_div_of_nonneg_right hWq hu.le
  obtain ⟨h1l, h1u⟩ := abs_le.mp h1
  have hv1 : v1 ≤ 2 := by
    have : (1 : ℚ) / 2 ^ 53 ≤ 1 := by norm_num
    linarith
  have hv1' : 100 * v1 / 2 ^ 53 ≤ 200 / 2 ^ 53 :=
    div_le_div_of_nonneg_right (by linarith) hu.le
  obtain ⟨h2l, h2u⟩ := abs_le.mp h2
  have hfin : (300 : ℚ) / 2 ^ 53 ≤ 1 / 10 ^ 13 := by norm_num
  have e1 : (200 : ℚ) / 2 ^ 53 + 100 * (1 / 2 ^ 53) = 300 / 2 ^ 53 := by ring
  rw [abs_le]
  constructor <;> linarith

theorem rate_tenths_error (W N : ℕ) (hN : 0 < N) (hWN : W ≤ N) :
    |(((Double.div W N).mulNat 100).tenths : ℚ) + 1 / 2 - ((2000 * W + N : ℕ) : ℚ) / (2 * N)|
        ≤ 1 / 2 + 1 / 10 ^ 12 ∧
    |10 * ((Double.div W N).mulNat 100).toRat + 1 / 2 - ((2000 * W + N : ℕ) : ℚ) / (2 * N)|
        ≤ 1 / 10 ^ 12 := by
  have hNq : (0 : ℚ) < N := by exact_mod_cast hN
  have hy : ((2000 * W + N : ℕ) : ℚ) / (2 * N) = 10 * (100 * (W : ℚ) / N) + 1 / 2 := by
    push_cast
    field_simp
    ring
  obtain ⟨hl, hu⟩ := tenths_bounds ((Double.div W N).mulNat 100)
  obtain ⟨el, eu⟩ := abs_le.mp (rate_value_error W N hN hWN)
  rw [hy]
  have e10 : (10 : ℚ) * (1 / 10 ^ 13) = 1 / 10 ^ 12 := by norm_num
  constructor
  · rw [abs_le]
    constructor <;> linarith
  · rw [abs_le]
    constructor <;> linarith

/-- With fewer than `2 ^ 32` videos, the tenths shown are the half-up rounding
of `1000 W / N`, except possibly at an exact tie, where they may be one less. -/
theorem rate_tenths_half_up (W N : ℕ) (hN : 0 < N) (hWN : W ≤ N) (hsize : N < 2 ^ 32) :
    ((2000 * W + N) % (2 * N) ≠ 0 →
      ((Double.div W N).mulNat 100).tenths = (2000 * W + N) / (2 * N)) ∧
    (((Double.div W N).mulNat 100).tenths = (2000 * W + N) / (2 * N) ∨
      ((Double.div W N).mulNat 100).tenths + 1 = (2000 * W + N) / (2 * N)) := by
  have hNq : (0 : ℚ) < N := by exact_mod_cast hN
  have h2N : (0 : ℚ) < 2 * N := by positivity
  obtain ⟨hl, hu⟩ := tenths_bounds ((Double.div W N).mulNat 100)
  obtain ⟨el, eu⟩ := abs_le.mp (rate_tenths_error W N hN hWN).2
  generalize ((Double.div W N).mulNat 100).tenths = n at hl hu ⊢
  generalize 10 * ((Double.div W N).mulNat 100).toRat + 1 / 2 = z at hl hu el eu
  have hdm := Nat.div_add_mod (2000 * W + N) (2 * N)
  have hmod := Nat.mod_lt (2000 * W + N) (show 0 < 2 * N by omega)
  generalize (2000 * W + N) / (2 * N) = F at hdm ⊢
  generalize (2000 * W + N) % (2 * N) = j at hdm hmod ⊢
  have hyq : ((2000 * W + N : ℕ) : ℚ) / (2 * N) = F + (j : ℚ) / (2 * N) := by
    rw [← hdm]
    push_cast
    field_simp
    ring
  rw [hyq] at el eu
  have hsz : (2 * (N : ℚ)) * (1 / 10 ^ 12) < 1 := by
    have h32 : (N : ℚ) < 4294967296 := by exact_mod_cast hsize
    rw [mul_one_div, div_lt_one (by positivity)]
    norm_num
    linarith
  have hδ : (1 : ℚ) / 10 ^ 12 < 1 / (2 * N) := by
    rw [lt_div_iff₀ h2N]
    linarith
  -- j / (2N) ≤ 1 - 1/(2N)
  have hj1 : (j : ℚ) / (2 * N) ≤ 1 - 1 / (2 * N) := by
    rw [div_le_iff₀ h2N]
    have : (j : ℚ) + 1 ≤ 2 * N := by exact_mod_cast hmod
    field_simp
    linarith
  have hj0 : (0 : ℚ) ≤ (j : ℚ) / (2 * N) := by positivity
  have hnF : n ≤ F := by
    have : (n : ℚ) < F + 1 := by linarith
    exact_mod_cast Nat.lt_succ_iff.mp (by exact_mod_cast this)
  have hFn : F ≤ n + 1 := by
    have : (F : ℚ) < n + 1 + 1 := by
      have : (1 : ℚ) / (2 * N) ≤ 1 := by
        rw [div_le_one h2N]
        have : (1 : ℚ) ≤ N := by exact_mod_cast hN
        linarith
      linarith
    exact_mod_cast Nat.lt_succ_iff.mp (by exact_mod_cast this)
  constructor
  · intro hj
    have hjpos : (1 : ℚ) / (2 * N) ≤ (j : ℚ) / (2 * N) := by
      apply div_le_div_of_nonneg_right _ h2N.le
      have : 1 ≤ j := Nat.one_le_iff_ne_zero.mpr hj
      exact_mod_cast this
    have : (F : ℚ) < n + 1 := by linarith
    have hFn' : F ≤ n := by exact_mod_cast Nat.lt_succ_iff.mp (by exact_mod_cast this)
    omega
  · omega


/-- The key theorem of C12, amended. For every authenticated caller and every course with
fewer than `2 ^ 32` videos, `GET /courses/:id/progress` answers 200 with a
progress list of `N` entries, one per video of the course, and a completion
rate computed from `N` and the number `W` of entries it flags watched: "0.0"
when `N = 0`, and otherwise `n / 10`, a dot and the single digit `n % 10`,
where `n` is the half-up rounding of `1000 W / N` unless `1000 W / N` lies
exactly halfway between two integers, in which case `n` is that rounding or
one less. -/
theorem completion_rate_spec (env : Env) (req : Request) (db : Store) (u : SafeUser)
    (hcaller : caller env req = some u)
    (hsize : (db.videos.filter (fun v => v.courseId == req.paramId)).length < 2 ^ 32) :
    ∃ rate progress,
      courseProgress env req db = (⟨200, .courseProgress req.paramId rate progress⟩, db) ∧
      progress.length = (db.videos.filter (fun v => v.courseId == req.paramId)).length ∧
      (progress.length = 0 → rate = "0.0") ∧
      (0 < progress.length → ∃ n : Nat,
        rate = toString (n / 10) ++ "." ++ toString (n % 10) ∧
        (toString (n % 10)).length = 1 ∧
        ((2000 * (progress.filter (fun e => e.watched)).length + progress.length)
              % (2 * progress.length) ≠ 0 →
          n = (2000 * (progress.filter (fun e => e.watched)).length + progress.length)
                / (2 * progress.length)) ∧
        (n = (2000 * (progress.filter (fun e => e.watched)).length + progress.length)
                / (2 * progress.length) ∨
          n + 1 = (2000 * (progress.filter (fun e => e.watched)).length + progress.length)
                / (2 * progress.length))) := by
  have hparam : (decorate req u).paramId = req.paramId := rfl
  have hlen : (courseProgressEntries db none req.paramId).length
      = (db.videos.filter (fun v => v.courseId == req.paramId)).length := by
    simp [courseProgressEntries]
  refine ⟨completionRateOf
      ((courseProgressEntries db none req.paramId).filter (fun e => e.watched)).length
      (db.videos.filter (fun v => v.courseId == req.paramId)).length,
    courseProgressEntries db none req.paramId, ?_, hlen, ?_, ?_⟩
  · unfold courseProgress
    rw [route_auth_caller _ env req db u hcaller]
    unfold courseProgressHandler
    simp only [handlerUserId_decorate, hparam]
  · intro h0
    rw [hlen] at h0
    simp [completionRateOf, h0]
  · intro hpos
    have hW : ((courseProgressEntries db none req.paramId).filter (fun e => e.watched)).length
        ≤ (courseProgressEntries db none req.paramId).length := List.length_filter_le _ _
    rw [← hlen] at hsize ⊢
    generalize ((courseProgressEntries db none req.paramId).filter
      (fun e => e.watched)).length = W at hW ⊢
    generalize (courseProgressEntries db none req.paramId).length = N at hW hpos hsize ⊢
    obtain ⟨hup, htie⟩ := rate_tenths_half_up W N hpos hW hsize
    refine ⟨((Double.div W N).mulNat 100).tenths, ?_, ?_, hup, htie⟩
    · simp [completionRateOf, hpos, toFixed1, renderTenths]
    · exact digit_length _ (Nat.mod_lt _ (by decide))

/-- C12, an instance: student s1 asks for the progress of course c1 of the
sample store, which has one video. -/
theorem completion_rate_spec_witness :
    caller sampleEnv (sampleRequest tokenStudent "c1" {})
      = some { id := some "s1", name := some "Sam", role := "USER" } ∧
    (sampleStore.videos.filter
      (fun v => v.courseId == (sampleRequest tokenStudent "c1" {}).paramId)).length < 2 ^ 32 ∧
    ∃ rate progress,
      courseProgress sampleEnv (sampleRequest tokenStudent "c1" {}) sampleStore
        = (⟨200, .courseProgress (sampleRequest tokenStudent "c1" {}).paramId rate progress⟩,
            sampleStore) ∧
      progress.length = (sampleStore.videos.filter
        (fun v => v.courseId == (sampleRequest tokenStudent "c1" {}).paramId)).length ∧
      (progress.length = 0 → rate = "0.0") ∧
      (0 < progress.length → ∃ n : Nat,
        rate = toString (n / 10) ++ "." ++ toString (n % 10) ∧
        (toString (n % 10)).length = 1 ∧
        ((2000 * (progress.filter (fun e => e.watched)).length + progress.length)
              % (2 * progress.length) ≠ 0 →
          n = (2000 * (progress.filter (fun e => e.watched)).length + progress.length)
                / (2 * progress.length)) ∧
        (n = (2000 * (progress.filter (fun e => e.watched)).length + progress.length)
                / (2 * progress.length) ∨
          n + 1 = (2000 * (progress.filter (fun e => e.watched)).length + progress.length)
                / (2 * progress.length))) :=
  ⟨by decide, by decide,
    completion_rate_spec sampleEnv (sampleRequest tokenStudent "c1" {}) sampleStore
      { id := some "s1", name := some "Sam", role := "USER" } (by decide) (by decide)⟩

/-- C12 as worded fails at exact ties. In the store where only student s1 has
progress rows, s1 has watched 23 of the 80 videos of course c1 and 1 of the 16
videos of course c2. `100 * 23 / 80` is exactly 28.75 and the rate returned is
"28.7"; `100 * 1 / 16` is exactly 6.25 and the rate returned is "6.3". One tie
is rounded down and the other up, so no rounding rule for ties (half up, half
down, half to even) gives both answers. -/
theorem completion_rate_ties_counterexample :
    (courseProgressEntries rateStore (some "s1") "c1").length = 80 ∧
    ((courseProgressEntries rateStore (some "s1") "c1").filter (fun e => e.watched)).length
      = 23 ∧
    (100 * 23 : ℚ) / 80 = 2875 / 100 ∧
    (courseProgress sampleEnv (sampleRequest tokenStudent "c1" {}) rateStore).1
      = ⟨200, .courseProgress "c1" "28.7" (courseProgressEntries rateStore (some "s1") "c1")⟩ ∧
    (courseProgressEntries rateStore (some "s1") "c2").length = 16 ∧
    ((courseProgressEntries rateStore (some "s1") "c2").filter (fun e => e.watched)).length
      = 1 ∧
    (100 * 1 : ℚ) / 16 = 625 / 100 ∧
    (courseProgress sampleEnv (sampleRequest tokenStudent "c2" {}) rateStore).1
      = ⟨200, .courseProgress "c2" "6.3" (courseProgressEntries rateStore (some "s1") "c2")⟩ :=
  ⟨by decide, by decide, by norm_num, by decide, by decide, by decide, by norm_num, by decide⟩

theorem userFindUniqueById_mem {db : Store} {id : String} {t : User}
    (h : userFindUniqueById db id = some t) : t ∈ db.users ∧ t.id = id := by
  unfold userFindUniqueById at h
  exact ⟨List.mem_of_find?_eq_some h, find_some_id h⟩

/-- The four exits of `POST /courses` for an authenticated TEACHER or ADMIN,
in terms of the teacher the handler looks up. -/
theorem postCourse_caller (env : Env) (req : Request) (db : Store) (u : SafeUser)
    (hcaller : caller env req = some u) (hrole : u.role = "TEACHER" ∨ u.role = "ADMIN") :
    postCourse env req db =
      if truthy req.body.title = false then (⟨400, .msg "title required"⟩, db)
      else if (if u.role = "TEACHER" then u.id.getD "" else strOrEmpty req.body.teacherId) = ""
        then (⟨400, .msg "teacherId required"⟩, db)
      else
        match userFindUniqueById db
            (if u.role = "TEACHER" then u.id.getD "" else strOrEmpty req.body.teacherId) with
        | none => (⟨404, .msg "teacher not found"⟩, db)
        | some teacher =>
          if toUpperCase teacher.role ∈ ["TEACHER", "ADMIN"] then
            (⟨201, .course
                { id := env.newId
                  title := req.body.title.getD ""
                  description := req.body.description.getD ""
                  category := req.body.category.getD ""
                  price := req.body.price.getD 0
                  teacherId := teacher.id
                  createdAt := env.now
                  updatedAt := env.now }⟩,
              { db with courses := db.courses ++
                  [{ id := env.newId
                     title := req.body.title.getD ""
                     description := req.body.description.getD ""
                     category := req.body.category.getD ""
                     price := req.body.price.getD 0
                     teacherId := teacher.id
                     createdAt := env.now
                     updatedAt := env.now }] })
          else (⟨400, .msg "teacherId must belong to a TEACHER/ADMIN"⟩, db) := by
  obtain ⟨_, hid, hu⟩ := caller_some hcaller
  have hr := requesterRole_decorate req u hu
  have hreqid := requesterId_decorate req u hid
  have hrid : requesterId (decorate req u) = u.id.getD "" := by rw [← hreqid]; rfl
  have hmem : u.role ∈ ["TEACHER", "ADMIN"] := by
    rcases hrole with h | h <;> simp [h]
  have hprice : (if (req.body.price.getD 0 != 0) = true then req.body.price.getD 0 else 0)
      = req.body.price.getD 0 := by
    by_cases h : req.body.price.getD 0 = 0 <;> simp [h]
  unfold postCourse
  rw [guarded_caller _ _ env req db u hcaller (by simp), if_pos hmem]
  unfold postCourseHandler
  have hb1 : (decorate req u).body.title = req.body.title := rfl
  have hb2 : (decorate req u).body.teacherId = req.body.teacherId := rfl
  have hb3 : (decorate req u).body.description = req.body.description := rfl
  have hb4 : (decorate req u).body.category = req.body.category := rfl
  have hb5 : (decorate req u).body.price = req.body.price := rfl
  simp only [hb1, hb2, hb3, hb4, hb5, hr, hrid, strOrEmpty_some, hprice]
  by_cases ht : truthy req.body.title = false
  · simp [ht]
  · have ht' : truthy req.body.title = true := by simpa using ht
    simp only [ht', Bool.not_true, Bool.false_eq_true, Bool.true_eq_false, if_false, beq_iff_eq]
    by_cases ho : (if u.role = "TEACHER" then u.id.getD "" else strOrEmpty req.body.teacherId) = ""
    · rw [if_pos ho, if_pos ho]
    · rw [if_neg ho, if_neg ho]
      rcases hf : userFindUniqueById db
        (if u.role = "TEACHER" then u.id.getD "" else strOrEmpty req.body.teacherId) with _ | t
      · rfl
      · by_cases hm : toUpperCase t.role ∈ ["TEACHER", "ADMIN"]
        · have hc : (["TEACHER", "ADMIN"].contains (toUpperCase t.role)) = true := by
            simpa using hm
          simp only [hc, Bool.not_true, Bool.false_eq_true, if_false]
          rw [if_pos hm]
        · have hc : (["TEACHER", "ADMIN"].contains (toUpperCase t.role)) = false := by
            simpa using hm
          simp only [hc, Bool.not_false, if_true]
          rw [if_neg hm]

theorem auth_error_msg {env : Env} {req : Request} {r : Response}
    (ha : auth env req = .error r) : ∃ m, r = ⟨401, .msg m⟩ := by
  unfold auth at ha
  split at ha
  · cases ha; exact ⟨_, rfl⟩
  · split at ha
    · cases ha; exact ⟨_, rfl⟩
    · split at ha
      · cases ha; exact ⟨_, rfl⟩
      · split at ha
        · cases ha; exact ⟨_, rfl⟩
        · dsimp only at ha
          split at ha
          · cases ha; exact ⟨_, rfl⟩
          · cases ha

/-- A guarded route either answers 401 or 403 with a message and leaves the
store alone, or runs its handler on the request decorated with the caller. -/
theorem guarded_cases (R : List String) (h : Handler) (env : Env) (req : Request) (db : Store)
    (hR : R ≠ []) :
    (∃ st m, guarded R h env req db = (⟨st, .msg m⟩, db) ∧ (st = 401 ∨ st = 403)) ∨
    (∃ u, caller env req = some u ∧ u.role ∈ R ∧
      guarded R h env req db = h env (decorate req u) db) := by
  rcases hc : caller env req with _ | u
  · left
    unfold caller at hc
    rcases ha : auth env req with r | req'
    · obtain ⟨m, rfl⟩ := auth_error_msg ha
      refine ⟨401, m, ?_, Or.inl rfl⟩
      rw [guarded_eq]
      unfold authRequires
      rw [ha]
    · obtain ⟨t, d, _, _, _, _, hreq⟩ := auth_ok ha
      simp [ha, hreq, decorate] at hc
  · by_cases hr : u.role ∈ R
    · right
      refine ⟨u, rfl, hr, ?_⟩
      rw [guarded_caller R h env req db u hc hR, if_pos hr]
    · left
      refine ⟨403, "Forbidden", ?_, Or.inr rfl⟩
      rw [guarded_caller R h env req db u hc hR, if_neg hr]

/-! ### C21: the teacher of a created course -/

/-- C21, amended. For every `POST /courses` of an authenticated TEACHER or
ADMIN, with the teacher looked up being the caller for a TEACHER and the
`teacherId` of the body for an ADMIN: when the answer is 201, exactly one
course is appended, its `teacherId` is the id of an existing user whose role,
in upper case, is TEACHER or ADMIN, and it is the caller's own id for a
TEACHER whatever `teacherId` the body carries; every other answer leaves the
store unchanged; when the body carries a title and no user has the id looked
up, the answer is 404; when the body carries a title and the user looked up is
neither TEACHER nor ADMIN, the answer is 400. -/
theorem post_course_teacher (env : Env) (req : Request) (db : Store) (u : SafeUser)
    (hcaller : caller env req = some u) (hrole : u.role = "TEACHER" ∨ u.role = "ADMIN") :
    ((postCourse env req db).1.status = 201 →
      ∃ teacher ∈ db.users, ∃ course,
        postCourse env req db
          = (⟨201, .course course⟩, { db with courses := db.courses ++ [course] }) ∧
        course.teacherId = teacher.id ∧
        toUpperCase teacher.role ∈ ["TEACHER", "ADMIN"] ∧
        (u.role = "TEACHER" → some course.teacherId = u.id) ∧
        (u.role = "ADMIN" → some course.teacherId = req.body.teacherId)) ∧
    ((postCourse env req db).1.status ≠ 201 → (postCourse env req db).2 = db) ∧
    (truthy req.body.title = true →
      (if u.role = "TEACHER" then u.id.getD "" else strOrEmpty req.body.teacherId) ≠ "" →
      (∀ x ∈ db.users,
        x.id ≠ (if u.role = "TEACHER" then u.id.getD "" else strOrEmpty req.body.teacherId)) →
      postCourse env req db = (⟨404, .msg "teacher not found"⟩, db)) ∧
    (truthy req.body.title = true →
      ∀ t, userFindUniqueById db
          (if u.role = "TEACHER" then u.id.getD "" else strOrEmpty req.body.teacherId) = some t →
        toUpperCase t.role ∉ ["TEACHER", "ADMIN"] →
        (postCourse env req db).1.status = 400 ∧ (postCourse env req db).2 = db) := by
  obtain ⟨_, hid, _⟩ := caller_some hcaller
  have hpc := postCourse_caller env req db u hcaller hrole
  generalize howner :
    (if u.role = "TEACHER" then u.id.getD "" else strOrEmpty req.body.teacherId) = owner at hpc ⊢
  by_cases ht : truthy req.body.title = false
  · rw [if_pos ht] at hpc
    rw [hpc]
    refine ⟨fun h => by simp at h, fun _ => rfl, fun h => ?_, fun h => ?_⟩
    · rw [ht] at h; exact absurd h (by decide)
    · rw [ht] at h; exact absurd h (by decide)
  · rw [if_neg ht] at hpc
    by_cases ho : owner = ""
    · rw [if_pos ho] at hpc
      rw [hpc]
      exact ⟨fun h => by simp at h, fun _ => rfl, fun _ hne => absurd ho hne,
        fun _ _ _ _ => ⟨rfl, rfl⟩⟩
    · rw [if_neg ho] at hpc
      rcases hf : userFindUniqueById db owner with _ | t
      · simp only [hf] at hpc
        rw [hpc]
        refine ⟨fun h => by simp at h, fun _ => rfl, fun _ _ _ => rfl, fun _ t h => ?_⟩
        exact absurd h (by simp)
      · simp only [hf] at hpc
        obtain ⟨hmem, htid⟩ := userFindUniqueById_mem hf
        by_cases hm : toUpperCase t.role ∈ ["TEACHER", "ADMIN"]
        · rw [if_pos hm] at hpc
          rw [hpc]
          refine ⟨fun _ => ⟨t, hmem, _, rfl, rfl, hm, ?_, ?_⟩, fun h => absurd rfl h,
            fun _ _ hall => absurd htid (hall t hmem), fun _ t' ht' hn => ?_⟩
          · intro hT
            rw [hT] at howner
            simp only [if_true] at howner
            show some t.id = u.id
            rw [htid, ← howner]
            cases hu : u.id with
            | none => rw [hu] at hid; exact absurd hid (by decide)
            | some i => rfl
          · intro hA
            rw [hA] at howner
            simp only [show ¬ ("ADMIN" = "TEACHER") by decide, if_false] at howner
            show some t.id = req.body.teacherId
            rw [htid, ← howner]
            rw [← howner] at ho
            cases hb : req.body.teacherId with
            | none => rw [hb] at ho; exact absurd rfl ho
            | some i =>
              rw [hb] at ho
              by_cases hi : i = ""
              · rw [hi] at ho; exact absurd rfl ho
              · simp [strOrEmpty, jsOr, truthy, hi]
          · rw [Option.some.inj ht'] at hm
            exact absurd hm hn
        · rw [if_neg hm] at hpc
          rw [hpc]
          refine ⟨fun h => by simp at h, fun _ => rfl,
            fun _ _ hall => absurd htid (hall t hmem), fun _ _ _ _ => ⟨rfl, rfl⟩⟩

/-- C21, the scenario: teacher X creates a course naming teacher Y; the course
is stored with teacher X as its teacher. -/
theorem post_course_teacher_witness :
    caller sampleEnv
        (sampleRequest tokenTeacherX "" { title := some "Go 101", teacherId := some "tY" })
      = some { id := some "tX", name := some "X", role := "TEACHER" } ∧
    (postCourse sampleEnv
        (sampleRequest tokenTeacherX "" { title := some "Go 101", teacherId := some "tY" })
        sampleStore).1
      = ⟨201, .course { id := "n1", title := "Go 101", teacherId := "tX" }⟩ ∧
    ∃ teacher ∈ sampleStore.users, ∃ course,
      postCourse sampleEnv
          (sampleRequest tokenTeacherX "" { title := some "Go 101", teacherId := some "tY" })
          sampleStore
        = (⟨201, .course course⟩,
            { sampleStore with courses := sampleStore.courses ++ [course] }) ∧
      course.teacherId = teacher.id ∧
      toUpperCase teacher.role ∈ ["TEACHER", "ADMIN"] ∧
      (("TEACHER" : String) = "TEACHER" → some course.teacherId = some "tX") ∧
      (("TEACHER" : String) = "ADMIN" → some course.teacherId = some "tY") :=
  ⟨by decide, by decide,
    (post_course_teacher sampleEnv
      (sampleRequest tokenTeacherX "" { title := some "Go 101", teacherId := some "tY" })
      sampleStore { id := some "tX", name := some "X", role := "TEACHER" }
      (by decide) (by decide)).1 (by decide)⟩

/-- C21 as worded fails: an administrator names a teacher who does not exist
in a body without a title; the answer is 400 `title required`, not 404. With a
title the same request is answered 404. -/
theorem post_course_without_title_400 :
    (∀ x ∈ sampleStore.users, x.id ≠ "ghost") ∧
    postCourse sampleEnv (sampleRequest tokenAdmin "" { teacherId := some "ghost" }) sampleStore
      = (⟨400, .msg "title required"⟩, sampleStore) ∧
    postCourse sampleEnv
        (sampleRequest tokenAdmin "" { title := some "Go 101", teacherId := some "ghost" })
        sampleStore
      = (⟨404, .msg "teacher not found"⟩, sampleStore) := by
  decide

/-! ### C22: the price of a course -/

/-- C22, amended. For every `POST /courses` answered 201, the price stored is
the number the body carries, 0 when it carries none; for every `PUT
/courses/:id` answered 200, the price stored is the number the body carries,
the price the course had when it carries none. No lower bound is applied: the
stored price is at least 0 exactly when that number is. -/
theorem course_price_stored_as_sent (env : Env) (req : Request) (db : Store) :
    (∀ course db', postCourse env req db = (⟨201, .course course⟩, db') →
      db' = { db with courses := db.courses ++ [course] } ∧
      course.price = req.body.price.getD 0 ∧
      (0 ≤ course.price ↔ 0 ≤ req.body.price.getD 0)) ∧
    (∀ updated db', putCourse env req db = (⟨200, .course updated⟩, db') →
      ∃ existing, courseFindUnique db req.paramId = some existing ∧
        db' = { db with
                courses := db.courses.map (fun c => if c.id == req.paramId then updated else c) } ∧
        updated.price = req.body.price.getD existing.price ∧
        (0 ≤ updated.price ↔ 0 ≤ req.body.price.getD existing.price)) := by
  constructor
  · intro course db' h
    rcases guarded_cases ["TEACHER", "ADMIN"] postCourseHandler env req db (by simp) with
      ⟨st, m, hg, _⟩ | ⟨u, hc, hr, _⟩
    · unfold postCourse at h
      rw [hg] at h
      simp at h
    · have hrole : u.role = "TEACHER" ∨ u.role = "ADMIN" := by simpa using hr
      have hpc := postCourse_caller env req db u hc hrole
      generalize (if u.role = "TEACHER" then u.id.getD "" else strOrEmpty req.body.teacherId)
        = owner at hpc
      rw [hpc] at h
      by_cases ht : truthy req.body.title = false
      · rw [if_pos ht] at h
        simp at h
      · rw [if_neg ht] at h
        by_cases ho : owner = ""
        · rw [if_pos ho] at h
          simp at h
        · rw [if_neg ho] at h
          rcases hf : userFindUniqueById db owner with _ | t
          · simp [hf] at h
          · simp only [hf] at h
            by_cases hm : toUpperCase t.role ∈ ["TEACHER", "ADMIN"]
            · rw [if_pos hm] at h
              simp only [Prod.mk.injEq, Response.mk.injEq, ResBody.course.injEq, true_and] at h
              obtain ⟨hcourse, hdb⟩ := h
              subst hcourse
              exact ⟨hdb.symm, rfl, Iff.rfl⟩
            · rw [if_neg hm] at h
              simp at h
  · intro updated db' h
    rcases guarded_cases ["TEACHER", "ADMIN"] putCourseHandler env req db (by simp) with
      ⟨st, m, hg, _⟩ | ⟨u, hc, hr, hg⟩
    · unfold putCourse at h
      rw [hg] at h
      simp at h
    · unfold putCourse at h
      rw [hg] at h
      unfold putCourseHandler at h
      have hparam : (decorate req u).paramId = req.paramId := rfl
      have hb : (decorate req u).body.price = req.body.price := rfl
      simp only [hparam, hb] at h
      rcases hf : courseFindUnique db req.paramId with _ | existing
      · simp [hf] at h
      · simp only [hf] at h
        split at h
        · simp at h
        · simp only [Prod.mk.injEq, Response.mk.injEq, ResBody.course.injEq, true_and] at h
          obtain ⟨hup, hdb⟩ := h
          subst hup
          exact ⟨existing, rfl, hdb.symm, rfl, Iff.rfl⟩

/-- C22 as worded fails: teacher X creates a course with price -5 and sets the
price of the course "K8s 101" to -1; both are stored as sent. -/
theorem negative_price_is_stored :
    postCourse sampleEnv
        (sampleRequest tokenTeacherX "" { title := some "Debt", price := some (-5) }) sampleStore
      = (⟨201, .course { id := "n1", title := "Debt", price := -5, teacherId := "tX" }⟩,
          { sampleStore with
            courses := [courseK8s, { id := "n1", title := "Debt", price := -5, teacherId := "tX" }] }) ∧
    putCourse sampleEnv (sampleRequest tokenTeacherX "c1" { price := some (-1) }) sampleStore
      = (⟨200, .course { courseK8s with price := -1 }⟩,
          { sampleStore with courses := [{ courseK8s with price := -1 }] }) := by
  decide

/-! ### C24: failed verifications look alike -/

/-- C24. For any two bearer tokens that reach `jwt.verify` in `auth` (neither
empty nor on the blacklist) and fail it, whatever the reason (expired,
malformed, signed with another secret), `auth` answers both requests with
status 401 and the body `Invalid or expired token`; for any two refresh tokens
that fail `jwt.verify` in `GET /regenerateToken`, both requests are answered
with status 400 and the body `not a valid Refresh Token`, the store unchanged.
The reason of the failure does not reach the response. -/
theorem verification_failures_look_alike (env : Env) (db : Store) (a1 a2 r1 r2 : Token)
    (req1 req2 req3 req4 : Request)
    (hreq1 : req1.authorization = .bearer a1) (hreq2 : req2.authorization = .bearer a2)
    (hreq3 : req3.authorization = .bearer r1) (hreq4 : req4.authorization = .bearer r2)
    (hne1 : tokenEmpty a1 = false) (hne2 : tokenEmpty a2 = false)
    (hne3 : tokenEmpty r1 = false) (hne4 : tokenEmpty r2 = false)
    (hbl1 : a1 ∉ env.blacklist) (hbl2 : a2 ∉ env.blacklist)
    (hfail1 : jwtVerify a1 ACCESS_SECRET env.now = none)
    (hfail2 : jwtVerify a2 ACCESS_SECRET env.now = none)
    (hfail3 : jwtVerify r1 REFRESH_SECRET env.now = none)
    (hfail4 : jwtVerify r2 REFRESH_SECRET env.now = none) :
    auth env req1 = .error ⟨401, .msg "Invalid or expired token"⟩ ∧
    auth env req2 = .error ⟨401, .msg "Invalid or expired token"⟩ ∧
    regenerateTokenHandler env req3 db = (⟨400, .msg "not a valid Refresh Token"⟩, db) ∧
    regenerateTokenHandler env req4 db = (⟨400, .msg "not a valid Refresh Token"⟩, db) := by
  refine ⟨?_, ?_, ?_, ?_⟩
  · simp [auth, hreq1, bearerToken, hne1, hbl1, hfail1]
  · simp [auth, hreq2, bearerToken, hne2, hbl2, hfail2]
  · simp [regenerateTokenHandler, hreq3, bearerToken, hne3, hfail3]
  · simp [regenerateTokenHandler, hreq4, bearerToken, hne4, hfail4]

/-- C24, concrete: an expired token, a malformed text and a token signed with
another secret are answered alike by `auth`; a malformed text, an access token
and an expired refresh token are answered alike by `GET /regenerateToken`. -/
theorem verification_failures_look_alike_witness :
    (auth sampleEnv (sampleRequest (.jwt claimsSam ACCESS_SECRET 0) "" {})
        = .error ⟨401, .msg "Invalid or expired token"⟩ ∧
      auth sampleEnv (sampleRequest (.text "abc.def.ghi") "" {})
        = .error ⟨401, .msg "Invalid or expired token"⟩ ∧
      regenerateTokenHandler sampleEnv (sampleRequest (.text "abc.def.ghi") "" {}) sampleStore
        = (⟨400, .msg "not a valid Refresh Token"⟩, sampleStore) ∧
      regenerateTokenHandler sampleEnv (sampleRequest tokenStudent "" {}) sampleStore
        = (⟨400, .msg "not a valid Refresh Token"⟩, sampleStore)) ∧
    (auth sampleEnv (sampleRequest (.jwt claimsSam ACCESS_SECRET 0) "" {})
        = .error ⟨401, .msg "Invalid or expired token"⟩ ∧
      auth sampleEnv (sampleRequest (.jwt claimsSam "other" 86400) "" {})
        = .error ⟨401, .msg "Invalid or expired token"⟩ ∧
      regenerateTokenHandler sampleEnv (sampleRequest (.jwt claimsSam REFRESH_SECRET 0) "" {})
          sampleStore
        = (⟨400, .msg "not a valid Refresh Token"⟩, sampleStore) ∧
      regenerateTokenHandler sampleEnv (sampleRequest tokenStudent "" {}) sampleStore
        = (⟨400, .msg "not a valid Refresh Token"⟩, sampleStore)) :=
  ⟨verification_failures_look_alike sampleEnv sampleStore
      (.jwt claimsSam ACCESS_SECRET 0) (.text "abc.def.ghi") (.text "abc.def.ghi") tokenStudent
      _ _ _ _ rfl rfl rfl rfl (by decide) (by decide) (by decide) (by decide)
      (by decide) (by decide) (by decide) (by decide) (by decide) (by decide),
    verification_failures_look_alike sampleEnv sampleStore
      (.jwt claimsSam ACCESS_SECRET 0) (.jwt claimsSam "other" 86400)
      (.jwt claimsSam REFRESH_SECRET 0) tokenStudent
      _ _ _ _ rfl rfl rfl rfl (by decide) (by decide) (by decide) (by decide)
      (by decide) (by decide) (by decide) (by decide) (by decide) (by decide)⟩

/-! ### C26: the lifetime of access tokens -/

/-- C26 fails on the code. With the default configuration, the access token of
`POST /users/login` lives 86400 s (`1d`) and its refresh token 604800 s (`7d`),
but the access token `GET /regenerateToken` mints lives 604800 s as well
(`index.js` defaults `ACCESS_TTL` to `7d`, `users.routes.js` to `1d`): it is
not strictly shorter than the lifetime of a refresh token. -/
theorem refreshed_access_token_lifetime (env env' : Env) (req req' : Request) (db db' : Store)
    (m m' : String) (uv : UserView) (tok rtok t : Token)
    (hlogin : (loginHandler env req db).1 = ⟨200, .login m uv tok rtok⟩)
    (hregen : (regenerateTokenHandler env' req' db').1 = ⟨201, .token m' t⟩) :
    tok.lifetime env.now = 86400 ∧ rtok.lifetime env.now = 604800 ∧
    t.lifetime env'.now = 604800 ∧ ¬ (t.lifetime env'.now < rtok.lifetime env.now) := by
  obtain ⟨user, h1, h2⟩ := login_tokens hlogin
  have h3 : t.lifetime env'.now = 604800 := by
    unfold regenerateTokenHandler at hregen
    split at hregen
    · simp at hregen
    · split at hregen
      · simp at hregen
      · split at hregen
        · simp at hregen
        · simp only [Response.mk.injEq, ResBody.token.injEq, true_and] at hregen
          rw [← hregen.2]
          simp [jwtSign, Token.lifetime]
  have h4 : rtok.lifetime env.now = 604800 := by
    rw [h2]; simp [jwtSign, Token.lifetime]
  refine ⟨?_, h4, h3, ?_⟩
  · rw [h1]; simp [jwtSign, Token.lifetime]
  · rw [h3, h4]; decide

/-- C26, the failing input: student s1 logs in at time 0 and presents the
refresh token at once; the new access token expires at 604800 s, as the refresh
token does, and the access token of the login at 86400 s. -/
theorem refreshed_access_token_lifetime_witness :
    (loginHandler sampleEnv loginSam sampleStore).1
      = ⟨200, .login "Login successful" { userSam.view with role := "USER" }
          (jwtSign claimsSam ACCESS_SECRET 86400 0) (jwtSign claimsSam REFRESH_SECRET 604800 0)⟩ ∧
    (regenerateTokenHandler sampleEnv
        (sampleRequest (jwtSign claimsSam REFRESH_SECRET 604800 0) "" {}) sampleStore).1
      = ⟨201, .token "token created" refreshedTokenSam⟩ ∧
    (jwtSign claimsSam ACCESS_SECRET 86400 0).lifetime sampleEnv.now = 86400 ∧
    (jwtSign claimsSam REFRESH_SECRET 604800 0).lifetime sampleEnv.now = 604800 ∧
    refreshedTokenSam.lifetime sampleEnv.now = 604800 ∧
    ¬ (refreshedTokenSam.lifetime sampleEnv.now
        < (jwtSign claimsSam REFRESH_SECRET 604800 0).lifetime sampleEnv.now) :=
  ⟨by decide, by decide,
    refreshed_access_token_lifetime sampleEnv sampleEnv loginSam
      (sampleRequest (jwtSign claimsSam REFRESH_SECRET 604800 0) "" {}) sampleStore sampleStore
      "Login successful" "token created" { userSam.view with role := "USER" }
      (jwtSign claimsSam ACCESS_SECRET 86400 0) (jwtSign claimsSam REFRESH_SECRET 604800 0)
      refreshedTokenSam (by decide) (by decide)⟩

/-! ### C30: failed logins look alike -/

/-- C30. For any two `POST /users/login` requests with a valid email and a
password, the first naming an email no user has and the second the email of an
existing user with a password that does not match the stored hash, both are
answered with status 401 and the body `Invalid credentials`, and the store is
unchanged: status and body do not tell whether the email is registered. -/
theorem login_failures_look_alike (env : Env) (db : Store) (req1 req2 : Request) (u : User)
    (hemail1 : okEmail req1.body.email = true) (hpass1 : truthy req1.body.password = true)
    (hemail2 : okEmail req2.body.email = true) (hpass2 : truthy req2.body.password = true)
    (hnone : userFindUniqueByEmail db (toLowerCase (req1.body.email.getD "")) = none)
    (hsome : userFindUniqueByEmail db (toLowerCase (req2.body.email.getD "")) = some u)
    (hwrong : bcryptCompare (req2.body.password.getD "") u.password = false) :
    loginHandler env req1 db = (⟨401, .msg "Invalid credentials"⟩, db) ∧
    loginHandler env req2 db = (⟨401, .msg "Invalid credentials"⟩, db) := by
  constructor
  · simp [loginHandler, hemail1, hpass1, hnone]
  · simp [loginHandler, hemail2, hpass2, hsome, hwrong]

/-- C30, concrete: an unknown email and a wrong password for student s1. -/
theorem login_failures_look_alike_witness :
    loginHandler sampleEnv
        { body := { email := some "nobody@school.org", password := some "secret1" } } sampleStore
      = (⟨401, .msg "Invalid credentials"⟩, sampleStore) ∧
    loginHandler sampleEnv
        { body := { email := some "s1@school.org", password := some "wrong" } } sampleStore
      = (⟨401, .msg "Invalid credentials"⟩, sampleStore) :=
  login_failures_look_alike sampleEnv sampleStore
    { body := { email := some "nobody@school.org", password := some "secret1" } }
    { body := { email := some "s1@school.org", password := some "wrong" } }
    userSam (by decide) (by decide) (by decide) (by decide) (by decide) (by decide) (by decide)

/-! ### C25: the certificate step of the seed script -/

theorem certificateCount_eq_zero {db : Store} {s c : String}
    (h : certificateFindFirst db s c = none) : certificateCount db s c = 0 := by
  unfold certificateFindFirst at h
  unfold certificateCount
  rw [List.length_eq_zero, List.filter_eq_nil_iff]
  intro x hx
  have := List.find?_eq_none.mp h x hx
  simpa using this

theorem certificateFindFirst_isSome_of_count {db : Store} {s c : String}
    (h : 0 < certificateCount db s c) : ∃ x, certificateFindFirst db s c = some x := by
  rcases hf : certificateFindFirst db s c with _ | x
  · rw [certificateCount_eq_zero hf] at h
    exact absurd h (by decide)
  · exact ⟨x, rfl⟩

/-- C25. For every store and every pair (student, courseB): when a certificate
of the pair exists, the certificate step of the seed script leaves the store
as it is (nothing is created, the existing certificate keeps its grade); when
none exists, it appends exactly one certificate of the pair, with grade "A",
after which the pair has one certificate, and running the step a second time
changes nothing, so the pair still has exactly one. -/
theorem seed_certificate_step (env env' : Env) (s c : String) (db : Store) :
    ((∃ x ∈ db.certificates, x.userId = s ∧ x.courseId = c) →
      seedCertificateStep env s c db = db) ∧
    ((∀ x ∈ db.certificates, ¬ (x.userId = s ∧ x.courseId = c)) →
      seedCertificateStep env s c db
        = { db with certificates := db.certificates ++ [seedCertificate env s c] } ∧
      certificateCount (seedCertificateStep env s c db) s c = 1 ∧
      seedCertificateStep env' s c (seedCertificateStep env s c db)
        = seedCertificateStep env s c db ∧
      certificateCount (seedCertificateStep env' s c (seedCertificateStep env s c db)) s c = 1) := by
  have hexists : ∀ (e : Env) (d : Store), (∃ x ∈ d.certificates, x.userId = s ∧ x.courseId = c) →
      seedCertificateStep e s c d = d := by
    intro e d ⟨x, hx, hs, hc⟩
    unfold seedCertificateStep
    rcases hf : certificateFindFirst d s c with _ | y
    · unfold certificateFindFirst at hf
      have := List.find?_eq_none.mp hf x hx
      simp [hs, hc] at this
    · rfl
  refine ⟨hexists env db, ?_⟩
  intro hnone
  have hf : certificateFindFirst db s c = none := by
    unfold certificateFindFirst
    rw [List.find?_eq_none]
    intro x hx
    have := hnone x hx
    simpa using this
  have hstep : seedCertificateStep env s c db
      = { db with certificates := db.certificates ++ [seedCertificate env s c] } := by
    unfold seedCertificateStep
    rw [hf]
  have hcount : certificateCount (seedCertificateStep env s c db) s c = 1 := by
    rw [hstep]
    have h0 := certificateCount_eq_zero hf
    unfold certificateCount at h0 ⊢
    simp only [List.filter_append, List.length_append, h0]
    simp [seedCertificate]
  have htwice : seedCertificateStep env' s c (seedCertificateStep env s c db)
      = seedCertificateStep env s c db := by
    apply hexists
    rw [hstep]
    exact ⟨seedCertificate env s c, by simp, rfl, rfl⟩
  exact ⟨hstep, hcount, htwice, by rw [htwice]; exact hcount⟩

/-! ### C29: the current user -/

theorem char_toLower_eq_at (c : Char) : (c.toLower == '@') = (c == '@') := by
  by_cases h : c.toNat ≥ 65 ∧ c.toNat ≤ 90
  · have hc : c = Char.ofNat c.toNat := (Char.ofNat_toNat c).symm
    obtain ⟨h1, h2⟩ := h
    generalize c.toNat = n at hc h1 h2
    subst hc
    interval_cases n <;> decide
  · have hfix : c.toLower = c := by
      unfold Char.toLower
      simp only [h, if_false]
    rw [hfix]

theorem okEmail_toLowerCase (e : Option String) : okEmail (e.map toLowerCase) = okEmail e := by
  cases e with
  | none => rfl
  | some s =>
    simp only [Option.map_some', okEmail, toLowerCase]
    induction s.data with
    | nil => rfl
    | cons c l ih =>
      simp only [List.map_cons, List.contains_cons, ih]
      have := char_toLower_eq_at c
      rw [show ('@' == c.toLower) = (c.toLower == '@') from Bool.beq_comm,
        show ('@' == c) = (c == '@') from Bool.beq_comm, this]

theorem find_unique_key {α : Type} (f : α → String) (l : List α) (u : α)
    (hu : u ∈ l) (hnd : (l.map f).Nodup) : l.find? (fun x => f x == f u) = some u := by
  induction l with
  | nil => exact absurd hu (List.not_mem_nil u)
  | cons a t ih =>
    rw [List.map_cons, List.nodup_cons] at hnd
    rw [List.find?_cons]
    rcases List.mem_cons.mp hu with rfl | hmem
    · simp
    · have hne : f a ≠ f u := fun e => hnd.1 (e ▸ List.mem_map_of_mem f hmem)
      have hb : (f a == f u) = false := by simpa using hne
      rw [hb]
      exact ih hmem hnd.2

theorem find_id_password_map (l : List User) (f : User → String) (i : String) :
    (l.map (fun u => { u with password := f u })).find? (fun u => u.id == i)
      = (l.find? (fun u => u.id == i)).map (fun u => { u with password := f u }) := by
  induction l with
  | nil => rfl
  | cons a t ih =>
    rw [List.map_cons, List.find?_cons, List.find?_cons, ih]
    by_cases h : a.id = i
    · have e : (a.id == i) = true := by simp [h]
      simp only [e, Option.map_some']
    · have e : (a.id == i) = false := by simp [h]
      simp only [e]

theorem find_email_password_map (l : List User) (f : User → String) (i : String) :
    (l.map (fun u => { u with password := f u })).find? (fun u => u.email == i)
      = (l.find? (fun u => u.email == i)).map (fun u => { u with password := f u }) := by
  induction l with
  | nil => rfl
  | cons a t ih =>
    rw [List.map_cons, List.find?_cons, List.find?_cons, ih]
    by_cases h : a.email = i
    · have e : (a.email == i) = true := by simp [h]
      simp only [e, Option.map_some']
    · have e : (a.email == i) = false := by simp [h]
      simp only [e]

theorem getCurrentUserOrThrowOf_id (t : TokenUser) (db : Store)
    (hid : truthy t.idFromToken = true) :
    getCurrentUserOrThrowOf t db =
      match userFindUniqueById db (t.idFromToken.getD "") with
      | none => .error ⟨404, "User not found"⟩
      | some user => .ok user.current := by
  simp only [getCurrentUserOrThrowOf, hid, if_true]

theorem getCurrentUserOrThrowOf_email (t : TokenUser) (db : Store)
    (hid : truthy t.idFromToken = false) :
    getCurrentUserOrThrowOf t db =
      if okEmail t.email = false then .error ⟨401, "Unauthorized: missing user email"⟩
      else
        match userFindUniqueByEmail db (toLowerCase (t.email.getD "")) with
        | none => .error ⟨404, "User not found"⟩
        | some user => .ok user.current := by
  have hl : ∀ e : Option String, (if truthy e = true then e.map toLowerCase else e)
      = e.map toLowerCase := by
    intro e
    cases e with
    | none => simp
    | some s =>
      by_cases hs : s = ""
      · subst hs
        simp [truthy, toLowerCase]
      · simp [truthy, hs]
  have hg : ∀ e : Option String, (e.map toLowerCase).getD "" = toLowerCase (e.getD "") := by
    intro e
    cases e with
    | none => simp [toLowerCase]
    | some s => rfl
  simp only [getCurrentUserOrThrowOf, hid, hl, okEmail_toLowerCase, hg]
  by_cases he : okEmail t.email = false
  · simp [he]
  · have he' : okEmail t.email = true := by simpa using he
    simp only [he', Bool.not_true, Bool.false_eq_true, Bool.true_eq_false, if_false]

/-- C29. For every `req.user` object `t` and every store: `idFromToken` is the
first truthy one of `t.id`, `t.userId`, `t.sub`; when there is one, the user is
looked up by that id, otherwise, when `t.email` is a valid email, by the email
in lower case; the user found is returned, and a lookup that finds nobody fails
with status 404; with neither an id nor a valid email the call fails with
status 401. When ids and emails are unique and the id of `t` and the email of
`t'` name the same stored user, both calls return the same record. The record
returned does not depend on the stored passwords. On the requests of this
server, the function agrees with its embedding `getCurrentUserOrThrow`. -/
theorem get_current_user_resolution (t : TokenUser) (db : Store) :
    (t.idFromToken = if truthy t.id then t.id else if truthy t.userId then t.userId
        else if truthy t.sub then t.sub else none) ∧
    (truthy t.idFromToken = true →
      (∀ u, userFindUniqueById db (t.idFromToken.getD "") = some u →
        getCurrentUserOrThrowOf t db = .ok u.current) ∧
      (userFindUniqueById db (t.idFromToken.getD "") = none →
        getCurrentUserOrThrowOf t db = .error ⟨404, "User not found"⟩)) ∧
    (truthy t.idFromToken = false → okEmail t.email = true →
      (∀ u, userFindUniqueByEmail db (toLowerCase (t.email.getD "")) = some u →
        getCurrentUserOrThrowOf t db = .ok u.current) ∧
      (userFindUniqueByEmail db (toLowerCase (t.email.getD "")) = none →
        getCurrentUserOrThrowOf t db = .error ⟨404, "User not found"⟩)) ∧
    (truthy t.idFromToken = false → okEmail t.email = false →
      getCurrentUserOrThrowOf t db = .error ⟨401, "Unauthorized: missing user email"⟩) ∧
    (∀ t' u, u ∈ db.users → (db.users.map (·.id)).Nodup → (db.users.map (·.email)).Nodup →
      t.idFromToken = some u.id → u.id ≠ "" →
      truthy t'.idFromToken = false → okEmail t'.email = true →
      toLowerCase (t'.email.getD "") = u.email →
      getCurrentUserOrThrowOf t db = .ok u.current ∧
      getCurrentUserOrThrowOf t' db = .ok u.current) ∧
    (∀ f : User → String,
      getCurrentUserOrThrowOf t
          { db with users := db.users.map (fun u => { u with password := f u }) }
        = getCurrentUserOrThrowOf t db) ∧
    (∀ req : Request,
      (getCurrentUserOrThrow req db).map User.current
        = getCurrentUserOrThrowOf req.tokenUser db) := by
  refine ⟨?_, ?_, ?_, ?_, ?_, ?_, ?_⟩
  · unfold TokenUser.idFromToken jsOr
    by_cases h1 : truthy t.id = true
    · simp [h1]
    · by_cases h2 : truthy t.userId = true
      · simp [h1, h2]
      · by_cases h3 : truthy t.sub = true
        · simp [h1, h2, h3]
        · simp [h1, h2, h3]
  · intro hid
    rw [getCurrentUserOrThrowOf_id t db hid]
    exact ⟨fun u hu => by rw [hu], fun hn => by rw [hn]⟩
  · intro hid he
    rw [getCurrentUserOrThrowOf_email t db hid, if_neg (by rw [he]; decide)]
    exact ⟨fun u hu => by rw [hu], fun hn => by rw [hn]⟩
  · intro hid he
    rw [getCurrentUserOrThrowOf_email t db hid, if_pos he]
  · intro t' u hu hnid hnem hid hne hid' he' hem
    have htr : truthy t.idFromToken = true := by
      rw [hid]
      simp [truthy, hne]
    constructor
    · rw [getCurrentUserOrThrowOf_id t db htr, hid]
      have := find_unique_key (fun x : User => x.id) db.users u hu hnid
      simp only [Option.getD_some, userFindUniqueById, this]
    · rw [getCurrentUserOrThrowOf_email t' db hid', if_neg (by rw [he']; decide), hem]
      have := find_unique_key (fun x : User => x.email) db.users u hu hnem
      simp only [userFindUniqueByEmail, this]
  · intro f
    by_cases hid : truthy t.idFromToken = true
    · rw [getCurrentUserOrThrowOf_id t _ hid, getCurrentUserOrThrowOf_id t db hid]
      simp only [userFindUniqueById, find_id_password_map]
      cases db.users.find? (fun u => u.id == t.idFromToken.getD "") <;> rfl
    · have hid' : truthy t.idFromToken = false := by simpa using hid
      rw [getCurrentUserOrThrowOf_email t _ hid', getCurrentUserOrThrowOf_email t db hid']
      simp only [userFindUniqueByEmail, find_email_password_map]
      cases db.users.find? (fun u => u.email == toLowerCase (t.email.getD "")) <;> rfl
  · intro req
    have hemail : (req.user.bind (fun u => u.prop "email")) = none := by
      cases req.user with
      | none => rfl
      | some u => simp [SafeUser.prop]
    unfold getCurrentUserOrThrow getCurrentUserOrThrowOf Request.tokenUser TokenUser.idFromToken
    simp only [hemail]
    generalize jsOr (jsOr (jsOr (req.user.bind fun u => u.prop "id")
      (req.user.bind fun u => u.prop "userId")) (req.user.bind fun u => u.prop "sub")) none = i
    by_cases hid : truthy i = true
    · simp only [hid, if_true]
      cases userFindUniqueById db (i.getD "") <;> rfl
    · simp only [hid, Bool.false_eq_true, if_false]
      rfl

/-! ### C28: pages -/

theorem ceil_bounds (x : Double) :
    (x.ceil : ℚ) - 1 < x.toRat ∧ x.toRat ≤ (x.ceil : ℚ) := by
  unfold Double.ceil Double.toRat
  by_cases he : 0 ≤ x.e
  · simp only [he, if_true]
    have hkn : ((x.e.toNat : ℕ) : ℤ) = x.e := Int.toNat_of_nonneg he
    have h : (2 : ℚ) ^ x.e = 2 ^ x.e.toNat := by
      rw [← zpow_natCast (2 : ℚ), hkn]
    rw [h]
    push_cast
    constructor <;> linarith
  · simp only [he, if_false]
    have he' : (0 : ℤ) ≤ -x.e := by omega
    have hkn : (((-x.e).toNat : ℕ) : ℤ) = -x.e := Int.toNat_of_nonneg he'
    have h : (2 : ℚ) ^ x.e = 1 / 2 ^ (-x.e).toNat := by
      rw [← zpow_natCast (2 : ℚ), hkn, zpow_neg, one_div, inv_inv]
    rw [h]
    generalize (-x.e).toNat = k
    have hB : 0 < 2 ^ k := by positivity
    have h1 : (x.m + 2 ^ k - 1) / 2 ^ k * 2 ^ k ≤ x.m + 2 ^ k - 1 := Nat.div_mul_le_self _ _
    have h2 : x.m + 2 ^ k - 1 < ((x.m + 2 ^ k - 1) / 2 ^ k + 1) * 2 ^ k := by
      rw [Nat.add_mul, Nat.one_mul]
      have := Nat.div_add_mod (x.m + 2 ^ k - 1) (2 ^ k)
      have := Nat.mod_lt (x.m + 2 ^ k - 1) hB
      nlinarith
    generalize (x.m + 2 ^ k - 1) / 2 ^ k = c at h1 h2
    have h1' : c * 2 ^ k + 1 ≤ x.m + 2 ^ k := by omega
    have h2' : x.m + 2 ^ k ≤ (c + 1) * 2 ^ k := by omega
    have h1q : (c : ℚ) * 2 ^ k + 1 ≤ x.m + 2 ^ k := by exact_mod_cast h1'
    have h2q : (x.m : ℚ) + 2 ^ k ≤ ((c : ℚ) + 1) * 2 ^ k := by exact_mod_cast h2'
    have hk : (0 : ℚ) < 2 ^ k := by positivity
    rw [mul_one_div]
    constructor
    · rw [lt_div_iff₀ hk]
      nlinarith
    · rw [div_le_iff₀ hk]
      nlinarith

theorem roundDiv_mul (n d : Nat) (hd : 0 < d) : roundDiv (n * d) d = n := by
  unfold roundDiv
  simp only [Nat.mul_mod_left, Nat.mul_div_cancel _ hd, Nat.mul_zero]
  rw [if_pos hd]

theorem ofRatio_exact (q b : ℕ) (hq : 0 < q) (hq2 : q < 2 ^ 53) (hb : 0 < b) :
    (Double.ofRatio (q * b) b 0).toRat = q := by
  have ha : 0 < q * b := Nat.mul_pos hq hb
  obtain ⟨hal, _, hap⟩ := bitLength_bounds ha
  obtain ⟨hbl, hbu, hbp⟩ := bitLength_bounds hb
  have h2 : (2 : ℚ) ≠ 0 := by norm_num
  -- the scaling exponent is not negative
  have hlt : 2 ^ (bitLength (q * b) - 1) < 2 ^ (53 + bitLength b) := by
    calc 2 ^ (bitLength (q * b) - 1) ≤ q * b := hal
      _ < 2 ^ 53 * 2 ^ bitLength b := Nat.mul_lt_mul'' hq2 hbu
      _ = 2 ^ (53 + bitLength b) := (pow_add 2 53 _).symm
  have hlt' : bitLength (q * b) - 1 < 53 + bitLength b :=
    (Nat.pow_lt_pow_iff_right (by norm_num)).mp hlt
  have hk : (0 : ℤ) ≤ 53 + (bitLength b : ℤ) - (bitLength (q * b) : ℤ) := by omega
  unfold Double.ofRatio
  simp only [Nat.pos_iff_ne_zero.mp ha, if_false, hk, if_true]
  have hkn : ((53 + (bitLength b : ℤ) - (bitLength (q * b) : ℤ)).toNat : ℤ)
      = 53 + (bitLength b : ℤ) - (bitLength (q * b) : ℤ) := Int.toNat_of_nonneg hk
  generalize (53 + (bitLength b : ℤ) - (bitLength (q * b) : ℤ)) = k at hk hkn ⊢
  generalize hK : k.toNat = K at hkn ⊢
  split
  · rename_i hbig
    -- `K` is positive, and the quotient by `2 * b` is exact
    have hKpos : 0 < K := by
      rcases Nat.eq_zero_or_pos K with h0 | h0
      · subst h0
        simp only [pow_zero, Nat.mul_one] at hbig
        have : 2 ^ 53 * b ≤ q * b := hbig
        have := Nat.le_of_mul_le_mul_right this hb
        omega
      · exact h0
    obtain ⟨j, rfl⟩ : ∃ j, K = j + 1 := ⟨K - 1, by omega⟩
    have hnum : q * b * 2 ^ (j + 1) = (q * 2 ^ j) * (2 * b) := by
      rw [pow_succ]; ring
    rw [hnum, roundDiv_mul _ _ (by omega)]
    simp only [Double.toRat]
    have hk' : 0 - k + 1 = -(j : ℤ) := by
      push_cast at hkn
      omega
    rw [hk', zpow_neg, zpow_natCast]
    push_cast
    field_simp
  · have hnum : q * b * 2 ^ K = (q * 2 ^ K) * b := by ring
    rw [hnum, roundDiv_mul _ _ hb]
    simp only [Double.toRat]
    have hk' : 0 - k = -(K : ℤ) := by omega
    rw [hk', zpow_neg, zpow_natCast]
    push_cast
    field_simp

/-- `Math.ceil(total / take)` is the ceiling of the exact quotient when the
total is below `2 ^ 53`. -/
theorem div_ceil (T L : ℕ) (hL : 0 < L) (hT : T < 2 ^ 53) :
    (Double.div T L).ceil = (T + L - 1) / L := by
  rcases Nat.eq_zero_or_pos T with h0 | hTpos
  · subst h0
    have : (0 + L - 1) / L = 0 := Nat.div_eq_of_lt (by omega)
    rw [this]
    simp [Double.div, Double.ofRatio, Double.ceil]
  · obtain ⟨hc1, hc2⟩ := ceil_bounds (Double.div T L)
    have hLq : (0 : ℚ) < L := by exact_mod_cast hL
    have hTq : (T : ℚ) < 2 ^ 53 := by exact_mod_cast hT
    have hTq0 : (0 : ℚ) < T := by exact_mod_cast hTpos
    -- the exact ceiling `C`, with `(C - 1) * L < T ≤ C * L`
    have hdm := Nat.div_add_mod (T + L - 1) L
    have hmod := Nat.mod_lt (T + L - 1) hL
    generalize hC : (T + L - 1) / L = C at hdm ⊢
    generalize (T + L - 1) % L = r at hdm hmod
    have hdm' : C * L + r + 1 = T + L := by
      rw [Nat.mul_comm C L]
      omega
    have hup : T ≤ C * L := by omega
    have hlo : (C - 1) * L + 1 ≤ T := by
      rcases Nat.eq_zero_or_pos C with hz | hp
      · subst hz; simp; omega
      · have : (C - 1) * L + L = C * L := by
          rw [← Nat.succ_mul, Nat.succ_eq_add_one, Nat.sub_add_cancel hp]
        omega
    have hCpos : 0 < C := by
      rcases Nat.eq_zero_or_pos C with hz | hp
      · subst hz; simp at hup; omega
      · exact hp
    have hupq : (T : ℚ) ≤ C * L := by exact_mod_cast hup
    have hloq : ((C : ℚ) - 1) * L + 1 ≤ T := by
      have : (((C - 1 : ℕ) : ℚ)) = (C : ℚ) - 1 := by
        rw [Nat.cast_sub hCpos]; simp
      rw [← this]
      exact_mod_cast hlo
    -- the rounded quotient lies in `(C - 1, C]`
    have hval : (C : ℚ) - 1 < (Double.div T L).toRat ∧ (Double.div T L).toRat ≤ C := by
      by_cases hexact : T = C * L
      · have hCl : C < 2 ^ 53 := by
          have : C ≤ C * L := Nat.le_mul_of_pos_right C hL
          omega
        have := ofRatio_exact C L hCpos hCl hL
        unfold Double.div
        rw [hexact, this]
        constructor <;> linarith
      · have hlt : T + 1 ≤ C * L := by omega
        have hltq : (T : ℚ) + 1 ≤ C * L := by exact_mod_cast hlt
        have herr := ofRatio_error T L 0 hTpos hL
        simp only [zpow_zero, mul_one] at herr
        obtain ⟨el, eu⟩ := abs_le.mp herr
        unfold Double.div
        have hu : (0 : ℚ) < 2 ^ 53 := by positivity
        have hone : (T : ℚ) / 2 ^ 53 < 1 := (div_lt_one hu).mpr hTq
        have hb1 : (T : ℚ) / L / 2 ^ 53 < 1 / L := by
          rw [div_right_comm]
          exact div_lt_div_of_pos_right hone hLq
        have hx1 : (T : ℚ) / L ≤ C - 1 / L := by
          rw [div_le_iff₀ hLq, sub_mul]
          field_simp
          linarith
        have hx2 : (C : ℚ) - 1 + 1 / L ≤ (T : ℚ) / L := by
          rw [le_div_iff₀ hLq, add_mul]
          field_simp
          linarith
        constructor <;> linarith
    -- two integers with the same ceiling property are equal
    have h1 : ((Double.div T L).ceil : ℚ) < C + 1 := by linarith [hval.2]
    have h2 : (C : ℚ) < (Double.div T L).ceil + 1 := by linarith [hval.1]
    have h1' : (Double.div T L).ceil < C + 1 := by exact_mod_cast h1
    have h2' : C < (Double.div T L).ceil + 1 := by exact_mod_cast h2
    omega

theorem ceilDiv_bounds (T l : ℕ) (hl : 0 < l) :
    T ≤ (T + l - 1) / l * l ∧ (0 < T → ((T + l - 1) / l - 1) * l < T) ∧
    (0 < T → 0 < (T + l - 1) / l) := by
  have hdm := Nat.div_add_mod (T + l - 1) l
  have hmod := Nat.mod_lt (T + l - 1) hl
  generalize (T + l - 1) / l = C at hdm ⊢
  generalize (T + l - 1) % l = r at hdm hmod
  have hdm' : C * l + r + 1 = T + l := by
    rw [Nat.mul_comm C l]
    omega
  have hpos : 0 < T → 0 < C := by
    intro hT
    rcases Nat.eq_zero_or_pos C with hz | hp
    · subst hz; simp at hdm'; omega
    · exact hp
  refine ⟨by omega, fun hT => ?_, hpos⟩
  have hp := hpos hT
  have : (C - 1) * l + l = C * l := by
    rw [← Nat.succ_mul, Nat.succ_eq_add_one, Nat.sub_add_cancel hp]
  omega

theorem pages_facts (T : ℕ) (L : ℤ) (hL : 1 ≤ L) (hT : T < 2 ^ 53) :
    pagesOf T L = (T + L.toNat - 1) / L.toNat ∧
    (T : ℤ) ≤ (pagesOf T L : ℤ) * L ∧
    (0 < T → ((pagesOf T L : ℤ) - 1) * L < T) := by
  have hl : 0 < L.toNat := by omega
  have hcast : ((L.toNat : ℕ) : ℤ) = L := Int.toNat_of_nonneg (by omega)
  have hp : pagesOf T L = (T + L.toNat - 1) / L.toNat := by
    unfold pagesOf
    exact div_ceil T L.toNat hl hT
  obtain ⟨h1, h2, h3⟩ := ceilDiv_bounds T L.toNat hl
  rw [hp]
  generalize (T + L.toNat - 1) / L.toNat = C at h1 h2 h3
  refine ⟨rfl, ?_, fun hTpos => ?_⟩
  · rw [← hcast]
    exact_mod_cast h1
  · have hC := h3 hTpos
    have := h2 hTpos
    rw [← hcast]
    have e : ((C : ℤ) - 1) = ((C - 1 : ℕ) : ℤ) := by
      rw [Nat.cast_sub hC]; simp
    rw [e]
    exact_mod_cast this

theorem pageNumOf_eq (page : Option String) :
    pageNumOf page =
      match parseInt10 (page.getD "1") with
      | some n => if 1 ≤ n then n else 1
      | none => 1 := by
  unfold pageNumOf parseIntOr
  rcases parseInt10 (page.getD "1") with _ | n
  · rfl
  · simp only []
    by_cases h0 : n = 0
    · subst h0; simp
    · have hb : (n != 0) = true := by simpa using h0
      simp only [hb, if_true]
      by_cases h1 : 1 ≤ n
      · simp [h1]
      · simp only [h1, if_false]
        omega

theorem takeOf_eq (limit : Option String) (d : Nat) (hd : parseInt10 (toString d) = some (d : ℤ))
    (hd1 : 1 ≤ d) :
    takeOf limit d =
      match limit with
      | none => (d : ℤ)
      | some text =>
        match parseInt10 text with
        | none => (d : ℤ)
        | some n => if n = 0 then (d : ℤ) else if n < 0 then 1 else n := by
  have hdz : (d : ℤ) ≠ 0 := by omega
  have hdb : ((d : ℤ) != 0) = true := by simpa using hdz
  unfold takeOf parseIntOr
  cases limit with
  | none =>
    simp only [Option.getD_none, hd, hdb, if_true]
    omega
  | some text =>
    simp only [Option.getD_some]
    rcases parseInt10 text with _ | n
    · simp only []
      omega
    · simp only []
      by_cases h0 : n = 0
      · subst h0
        simp
        omega
      · have hb : (n != 0) = true := by simpa using h0
        simp only [hb, if_true, h0, if_false]
        by_cases h1 : n < 0
        · simp only [h1, if_true]
          omega
        · simp only [h1, if_false]
          omega

/-- C28, amended. For every `GET /courses` and `GET /videos` whose page and
limit lie in the range where JavaScript computes on integers exactly (page
times limit below `2 ^ 53`, fewer than `2 ^ 53` rows): the page used is the
number `parseInt` reads when it is at least 1, and 1 otherwise; the limit used
is the number read when it is at least 1, the default (6 for courses, 10 for
videos) when the parameter is missing, without a leading number or 0, and 1
when the number is negative; both are integers of at least 1. The answer is
200 with the rows that match, in order, after skipping `(page - 1) * limit`
of them and cut to `limit`, and with `pagination` holding the number `total`
of matching rows, the page, the limit and `pages`, the ceiling of `total /
limit`: `pages * limit >= total` and, when `total > 0`, `(pages - 1) * limit <
total`. -/
theorem pagination_spec (env : Env) (req : Request) (db : Store)
    (hsafe6 : pageNumOf req.query.page * takeOf req.query.limit 6 < 2 ^ 53)
    (hsafe10 : pageNumOf req.query.page * takeOf req.query.limit 10 < 2 ^ 53)
    (hcourses : db.courses.length < 2 ^ 53) (hvideos : db.videos.length < 2 ^ 53) :
    (pageNumOf req.query.page =
        match parseInt10 (req.query.page.getD "1") with
        | some n => if 1 ≤ n then n else 1
        | none => 1) ∧
    (∀ d : ℕ, d = 6 ∨ d = 10 →
      takeOf req.query.limit d =
        match req.query.limit with
        | none => (d : ℤ)
        | some text =>
          match parseInt10 text with
          | none => (d : ℤ)
          | some n => if n = 0 then (d : ℤ) else if n < 0 then 1 else n) ∧
    (1 ≤ pageNumOf req.query.page ∧ 1 ≤ takeOf req.query.limit 6 ∧
      1 ≤ takeOf req.query.limit 10) ∧
    (0 ≤ (pageNumOf req.query.page - 1) * takeOf req.query.limit 6 ∧
      (pageNumOf req.query.page - 1) * takeOf req.query.limit 6 < 2 ^ 53 ∧
      0 ≤ (pageNumOf req.query.page - 1) * takeOf req.query.limit 10 ∧
      (pageNumOf req.query.page - 1) * takeOf req.query.limit 10 < 2 ^ 53) ∧
    (∃ total pages : ℕ,
      listCoursesHandler env req db
        = (⟨200, .coursePage
            ((((courseOrder req.query.order (db.courses.filter (courseWhere req.query))).drop
                ((pageNumOf req.query.page - 1) * takeOf req.query.limit 6).toNat).take
                (takeOf req.query.limit 6).toNat).map (courseItem db))
            { total := total, page := pageNumOf req.query.page,
              limit := takeOf req.query.limit 6, pages := pages }⟩, db) ∧
      total = (db.courses.filter (courseWhere req.query)).length ∧
      pages = (total + (takeOf req.query.limit 6).toNat - 1) / (takeOf req.query.limit 6).toNat ∧
      (total : ℤ) ≤ (pages : ℤ) * takeOf req.query.limit 6 ∧
      (0 < total → ((pages : ℤ) - 1) * takeOf req.query.limit 6 < total)) ∧
    (∃ total pages : ℕ,
      listVideosHandler env req db
        = (⟨200, .videoPage
            ((((db.videos.filter (videoWhere req.query)).insertionSort
                (fun a b => b.createdAt ≤ a.createdAt)).drop
                ((pageNumOf req.query.page - 1) * takeOf req.query.limit 10).toNat).take
                (takeOf req.query.limit 10).toNat)
            { total := total, page := pageNumOf req.query.page,
              limit := takeOf req.query.limit 10, pages := pages }⟩, db) ∧
      total = (db.videos.filter (videoWhere req.query)).length ∧
      pages = (total + (takeOf req.query.limit 10).toNat - 1) / (takeOf req.query.limit 10).toNat ∧
      (total : ℤ) ≤ (pages : ℤ) * takeOf req.query.limit 10 ∧
      (0 < total → ((pages : ℤ) - 1) * takeOf req.query.limit 10 < total)) := by
  have hp : 1 ≤ pageNumOf req.query.page := le_max_right _ _
  have h6 : 1 ≤ takeOf req.query.limit 6 := le_max_right _ _
  have h10 : 1 ≤ takeOf req.query.limit 10 := le_max_right _ _
  have hlenc : (db.courses.filter (courseWhere req.query)).length < 2 ^ 53 :=
    lt_of_le_of_lt (List.length_filter_le _ _) hcourses
  have hlenv : (db.videos.filter (videoWhere req.query)).length < 2 ^ 53 :=
    lt_of_le_of_lt (List.length_filter_le _ _) hvideos
  obtain ⟨c1, c2, c3⟩ := pages_facts _ _ h6 hlenc
  obtain ⟨v1, v2, v3⟩ := pages_facts _ _ h10 hlenv
  refine ⟨pageNumOf_eq _, ?_, ⟨hp, h6, h10⟩, ⟨?_, ?_, ?_, ?_⟩,
    ⟨_, _, rfl, rfl, c1, c2, c3⟩, ⟨_, _, rfl, rfl, v1, v2, v3⟩⟩
  · rintro d (rfl | rfl)
    · exact takeOf_eq _ 6 (by decide) (by decide)
    · exact takeOf_eq _ 10 (by decide) (by decide)
  · exact mul_nonneg (by omega) (by omega)
  · nlinarith
  · exact mul_nonneg (by omega) (by omega)
  · nlinarith

/-- C28, concrete: page 2 with limit 3 of the four videos of the cascade
scenario is the fourth video, with 2 pages. -/
theorem pagination_spec_witness :
    pageNumOf (some "2") * takeOf (some "3") 6 < 2 ^ 53 ∧
    (listVideosHandler sampleEnv { query := { page := some "2", limit := some "3" } }
        cascadeStore).1
      = ⟨200, .videoPage [{ id := "v4", courseId := "c1" }]
          { total := 4, page := 2, limit := 3, pages := 2 }⟩ ∧
    ∃ total pages : ℕ,
      listCoursesHandler sampleEnv { query := { page := some "2", limit := some "3" } }
          cascadeStore
        = (⟨200, .coursePage
            ((((courseOrder "" (cascadeStore.courses.filter
                  (courseWhere { page := some "2", limit := some "3" }))).drop
                ((pageNumOf (some "2") - 1) * takeOf (some "3") 6).toNat).take
                (takeOf (some "3") 6).toNat).map (courseItem cascadeStore))
            { total := total, page := pageNumOf (some "2"),
              limit := takeOf (some "3") 6, pages := pages }⟩, cascadeStore) ∧
      total = (cascadeStore.courses.filter
        (courseWhere { page := some "2", limit := some "3" })).length ∧
      pages = (total + (takeOf (some "3") 6).toNat - 1) / (takeOf (some "3") 6).toNat ∧
      (total : ℤ) ≤ (pages : ℤ) * takeOf (some "3") 6 ∧
      (0 < total → ((pages : ℤ) - 1) * takeOf (some "3") 6 < total) :=
  ⟨by decide, by decide,
    (pagination_spec sampleEnv { query := { page := some "2", limit := some "3" } } cascadeStore
      (by decide) (by decide) (by decide) (by decide)).2.2.2.2.1⟩

/-- C28 as worded fails: with `limit=-3` the limit used is 1, not the default
(6 for courses, 10 for videos), whereas `limit=0` gives the default. -/
theorem negative_limit_is_one :
    parseInt10 "-3" = some (-3) ∧
    (listCoursesHandler sampleEnv { query := { limit := some "-3" } } priceStore).1
      = ⟨200, .coursePage [courseItem priceStore courseK8s]
          { total := 2, page := 1, limit := 1, pages := 2 }⟩ ∧
    (listVideosHandler sampleEnv { query := { limit := some "-3" } } cascadeStore).1
      = ⟨200, .videoPage [{ id := "v1", courseId := "c1" }]
          { total := 4, page := 1, limit := 1, pages := 4 }⟩ ∧
    (listCoursesHandler sampleEnv { query := { limit := some "0" } } priceStore).1
      = ⟨200, .coursePage [courseItem priceStore courseK8s,
            courseItem priceStore { id := "c2", title := "Go 101", price := 10, teacherId := "tY" }]
          { total := 2, page := 1, limit := 6, pages := 1 }⟩ := by
  decide

/-! ### C23: the price bounds of the course list -/

theorem stringToNumber_zero : stringToNumber "0" = .finite false ⟨0, -1074⟩ := by decide

theorem maxPriceDefault_eq : maxPriceDefault = .finite false ⟨8192000000000000, -13⟩ := by
  decide

/-- C23 fails on the code. For every `GET /courses` whose `maxPrice` is the
text `0`, the upper bound applied to the price is `1e12`, not 0
(`Number(maxPrice) || 1e12` takes 0 for a missing value): a course passes the
filter exactly when it passes the other conditions and its price is at most
`10 ^ 12`, and the answer is that of the same request with
`maxPrice=1000000000000`. -/
theorem max_price_zero_is_no_bound (env : Env) (req : Request) (db : Store)
    (hmax : req.query.maxPrice = "0") :
    (∀ c : Course, courseWhere req.query c
      = (courseWhere { req.query with maxPrice := "" } c && decide (c.price ≤ 10 ^ 12))) ∧
    listCoursesHandler env req db
      = listCoursesHandler env
          { req with query := { req.query with maxPrice := "1000000000000" } } db := by
  have hge : ∀ p : Int, ((stringToNumber "0").or maxPriceDefault).geInt p = decide (p ≤ 10 ^ 12) := by
    intro p
    rw [stringToNumber_zero, maxPriceDefault_eq]
    simp only [JsNumber.or, JsNumber.truthy, JsNumber.geInt]
    simp only [bne_self_eq_false, Bool.false_eq_true, if_false]
    have e1 : ¬ ((0 : Int) ≤ -13) := by decide
    simp only [e1, if_false]
    have e2 : (-(-13 : Int)).toNat = 13 := by decide
    rw [e2]
    simp only [decide_eq_decide]
    norm_num
    constructor <;> intro h <;> omega
  have hge' : ((stringToNumber "1000000000000").or maxPriceDefault) = maxPriceDefault := by
    decide
  have hw : ∀ c : Course, courseWhere req.query c
      = (courseWhere { req.query with maxPrice := "" } c && decide (c.price ≤ 10 ^ 12)) := by
    intro c
    simp only [courseWhere, hmax, hge]
    simp
  have hw2 : ∀ c : Course, courseWhere { req.query with maxPrice := "1000000000000" } c
      = (courseWhere { req.query with maxPrice := "" } c && decide (c.price ≤ 10 ^ 12)) := by
    intro c
    have := hge c.price
    rw [stringToNumber_zero] at this
    simp only [JsNumber.or, JsNumber.truthy, bne_self_eq_false, Bool.false_eq_true,
      if_false] at this
    simp only [courseWhere, hge', this]
    simp
  refine ⟨hw, ?_⟩
  have hf : courseWhere req.query
      = courseWhere { req.query with maxPrice := "1000000000000" } := by
    funext c
    rw [hw, hw2]
  unfold listCoursesHandler
  simp only [hf]

/-- C23, the failing input: `GET /courses?maxPrice=0` on a store with a free
course and a course priced 10 returns both. -/
theorem max_price_zero_is_no_bound_witness :
    (listCoursesHandler sampleEnv { query := { maxPrice := "0" } } priceStore).1
      = ⟨200, .coursePage
          [courseItem priceStore courseK8s,
            courseItem priceStore { id := "c2", title := "Go 101", price := 10, teacherId := "tY" }]
          { total := 2, page := 1, limit := 6, pages := 1 }⟩ ∧
    listCoursesHandler sampleEnv { query := { maxPrice := "0" } } priceStore
      = listCoursesHandler sampleEnv { query := { maxPrice := "1000000000000" } } priceStore :=
  ⟨by decide,
    (max_price_zero_is_no_bound sampleEnv { query := { maxPrice := "0" } } priceStore rfl).2⟩

/-! ### C27: the default window -/

/-- C27 fails on the code. When the parameter `windowDays` is absent, or is a
text that `Number` turns into `NaN` or an infinity (`abc` for one), the window
is the default of 30 days. When it is the empty text, or white space only,
`Number` gives 0, which is finite, so the window is `max(1, min(180, 0)) = 1`
day and the statistics are those of `windowDays=1`. -/
theorem window_days_of_blank_text (env : Env) (req : Request) (db : Store) :
    windowDaysOf { req.query with windowDays := windowDaysParam none } = 30 ∧
    (∀ s, (stringToNumber s).finiteValue = none →
      windowDaysOf { req.query with windowDays := windowDaysParam (some s) } = 30) ∧
    windowDaysParam (some "abc") = none ∧
    (∀ s, jsTrim s = "" →
      windowDaysParam (some s) = some 0 ∧
      windowDaysOf { req.query with windowDays := windowDaysParam (some s) } = 1 ∧
      statsBody env
          { req with query := { req.query with windowDays := windowDaysParam (some s) } } db
        = statsBody env { req with query := { req.query with windowDays := some 1 } } db) := by
  have habc : stringToNumber "abc" = .nan := by decide
  refine ⟨rfl, fun s hs => ?_, ?_, fun s hs => ?_⟩
  · simp [windowDaysOf, windowDaysParam, numberOfParam, hs]
  · simp [windowDaysParam, numberOfParam, habc, JsNumber.finiteValue]
  · have hz : windowDaysParam (some s) = some 0 := by
      simp [windowDaysParam, numberOfParam, stringToNumber, hs, JsNumber.finiteValue,
        Double.toRat]
    have hw : windowDaysOf { req.query with windowDays := windowDaysParam (some s) } = 1 := by
      rw [hz]
      simp [windowDaysOf]
    refine ⟨hz, hw, ?_⟩
    have hw1 : windowDaysOf { req.query with windowDays := some 1 } = 1 := by
      simp [windowDaysOf]
    unfold statsBody
    simp only [hw, hw1]

/-- C27, the failing input: on 2024-03-10 (UTC), with one user created that
day and one ten days earlier, `GET /admin/stats?windowDays=` reports the series
of one day, whereas the request without the parameter reports both days. -/
theorem window_days_of_blank_text_witness :
    (windowDaysParam (some "") = some 0 ∧
      windowDaysOf { windowDays := windowDaysParam (some "") } = 1 ∧
      statsBody windowEnv { query := { windowDays := windowDaysParam (some "") } } windowStore
        = statsBody windowEnv { query := { windowDays := some 1 } } windowStore) ∧
    (statsBody windowEnv { query := { windowDays := windowDaysParam (some "") } }
        windowStore).usersSeries
      = [{ date := "2024-03-10", value := 1 }] ∧
    (statsBody windowEnv { query := { windowDays := windowDaysParam none } }
        windowStore).usersSeries
      = [{ date := "2024-02-29", value := 1 }, { date := "2024-03-10", value := 1 }] := by
  have h := (window_days_of_blank_text windowEnv {} windowStore).2.2.2 "" (by decide)
  refine ⟨h, ?_, ?_⟩
  · rw [h.2.2]
    have hw : windowDaysOf { windowDays := some 1 } = ((1 : ℤ) : ℚ) := by
      simp [windowDaysOf]
    show dailyCountSQLite (windowStore.users.map (·.createdAt))
      (startInstant windowEnv (windowDaysOf { windowDays := some 1 })) (endInstant windowEnv) = _
    rw [hw]
    unfold startInstant
    rw [windowStartDay_int]
    decide
  · have hw : windowDaysOf { windowDays := windowDaysParam none } = ((30 : ℤ) : ℚ) := by
      simp [windowDaysOf, windowDaysParam, numberOfParam, JsNumber.finiteValue]
    show dailyCountSQLite (windowStore.users.map (·.createdAt))
      (startInstant windowEnv (windowDaysOf { windowDays := windowDaysParam none }))
      (endInstant windowEnv) = _
    rw [hw]
    unfold startInstant
    rw [windowStartDay_int]
    decide

end ELearn
